import Mathlib

/-! SensorNode v0.2: credential store, discovery protocol and status LED

A shallow embedding of the firmware sources (`WIFI_Config.h`, `WIFI_Controller.cpp`,
`LED_Status.cpp`) together with theorems about them.

Conventions of the embedding

* A C++ `char` / `uint8_t` is a `Nat`; conversions to `uint8_t` are written `% 256`.
* A `std::string` / byte buffer is a `List Nat` (it may contain the NUL character `0`).
* `unsigned long` values (the millisecond counter) are `Nat`; subtraction on them is
  taken modulo `2 ^ 32`.
* The EEPROM object of the Arduino core is its RAM buffer, a function from addresses
  to bytes; `EEPROM.commit` flushes that buffer and leaves it unchanged.
-/

namespace SensorNode

/-! ## Constants of `WIFI_Config.h` -/

/-- Size of the EEPROM memory. -/
def EEPROM_SIZE : Nat := 512
/-- Start address of the Wi-Fi SSID string. -/
def SSID_ADDRESS : Nat := 0
/-- Maximum length of the Wi-Fi SSID string. -/
def SSID_LENGTH : Nat := 32
/-- Start address of the Wi-Fi password string. -/
def PASS_ADDRESS : Nat := SSID_ADDRESS + SSID_LENGTH
/-- Maximum length of the Wi-Fi password string. -/
def PASS_LENGTH : Nat := 64
/-- Address of the initialization state of the Wi-Fi credentials. -/
def INIT_ADDRESS : Nat := PASS_ADDRESS + PASS_LENGTH
/-- UDP port of the device. -/
def LOCAL_PORT : Nat := 8181
/-- The characters of the literal `"abc\0"` (the array has one more, implicit, NUL). -/
def PASS_PHRASE : List Nat := [97, 98, 99, 0]

/-- Structure `WiFiCredentials`: two `std::string` members. -/
structure WiFiCredentials where
  ssid : List Nat
  password : List Nat
deriving DecidableEq, Repr

/-- The value of a NUL-terminated buffer read as a C string: the bytes before the first NUL. -/
def cstr (l : List Nat) : List Nat := l.takeWhile (fun c => c != 0)

/-- Every element is a character value (fits a `char`). -/
abbrev IsChars (l : List Nat) : Prop := ∀ c ∈ l, c < 256

/-- No element is the NUL character. -/
abbrev NulFree (l : List Nat) : Prop := ∀ c ∈ l, c ≠ 0

/-! ## The EEPROM object -/

/-- RAM buffer of the EEPROM object, after `EEPROM.begin(EEPROM_SIZE)`. -/
abbrev Store := Nat → Nat

/-- The store of a freshly erased device: every byte is zero. -/
def zeroStore : Store := fun _ => 0

namespace EEPROM

/-- `EEPROM.write(address, value)`: `value` is converted to `uint8_t`; an address outside
the buffer is ignored. -/
def write (s : Store) (address value : Nat) : Store :=
  if address < EEPROM_SIZE then fun a => if a = address then value % 256 else s a else s

/-- `EEPROM.read(address)`: an address outside the buffer reads as 0. -/
def read (s : Store) (address : Nat) : Nat :=
  if address < EEPROM_SIZE then s address else 0

/-- `EEPROM.commit()`: flushes the buffer to flash; the buffer itself is unchanged. -/
def commit (s : Store) : Store := s

end EEPROM

/-! ## Credential store (`WIFI_Controller.cpp`) -/

namespace WifiController

/-- The loop `for (int i = i0; i < str.length(); i++) EEPROM.write(base + i, str[i]);`
where the list holds the characters from index `i` on. -/
def writeString (base : Nat) : List Nat → Nat → Store → Store
  | [], _, s => s
  | c :: cs, i, s => writeString base cs (i + 1) (EEPROM.write s (base + i) c)

/-- `WifiController::set_initialized`. -/
def set_initialized (s : Store) (init : Bool) : Store :=
  EEPROM.commit (EEPROM.write s INIT_ADDRESS (if init then 1 else 0))

/-- `WifiController::get_initialized`: the byte converted to `bool`. -/
def get_initialized (s : Store) : Bool :=
  EEPROM.read s INIT_ADDRESS != 0

/-- `WifiController::saveCredentials`. -/
def saveCredentials (s : Store) (cred : WiFiCredentials) : Store :=
  let ssid := cred.ssid.take (SSID_LENGTH - 1)
  let password := cred.password.take (PASS_LENGTH - 1)
  let s1 := writeString SSID_ADDRESS ssid 0 s
  let s2 := EEPROM.write s1 (SSID_ADDRESS + ssid.length) 0
  let s3 := writeString PASS_ADDRESS password 0 s2
  let s4 := EEPROM.write s3 (PASS_ADDRESS + password.length) 0
  let s5 := set_initialized s4 true
  EEPROM.commit s5

/-- The loop of `loadCredentials`:
`for (i = i0; i < LENGTH; i++) { c = EEPROM.read(base + i); if (c == 0) break; str += c; }`
with `n` the number of iterations left (`LENGTH - i`). -/
def readString (s : Store) (base : Nat) : Nat → Nat → List Nat
  | 0, _ => []
  | n + 1, i =>
    let c := EEPROM.read s (base + i)
    if c = 0 then [] else c :: readString s base n (i + 1)

/-- `WifiController::loadCredentials`. -/
def loadCredentials (s : Store) : WiFiCredentials :=
  { ssid := readString s SSID_ADDRESS SSID_LENGTH 0
    password := readString s PASS_ADDRESS PASS_LENGTH 0 }

/-- `WifiController::hasCredentials`. -/
def hasCredentials (s : Store) : Bool :=
  if !get_initialized s then false
  else
    let cred := loadCredentials s
    decide (cred.ssid.length > 0) && decide (cred.password.length > 0)

/-- The loop `for (int i = i0; i < i0 + n; i++) EEPROM.write(i, 0);`. -/
def zeroFill : Nat → Nat → Store → Store
  | 0, _, s => s
  | n + 1, i, s => zeroFill n (i + 1) (EEPROM.write s i 0)

/-- `WifiController::clearCredentials`. -/
def clearCredentials (s : Store) : Store :=
  let s1 := zeroFill SSID_LENGTH SSID_ADDRESS s
  let s2 := zeroFill PASS_LENGTH PASS_ADDRESS s1
  let s3 := set_initialized s2 false
  EEPROM.commit s3

/-- An operation on the credential store. -/
inductive StoreOp where
  | save (cred : WiFiCredentials)
  | clear
deriving DecidableEq, Repr

/-- Effect of one operation on the store. -/
def StoreOp.apply (s : Store) : StoreOp → Store
  | .save cred => saveCredentials s cred
  | .clear => clearCredentials s

/-- The store after a sequence of calls (first call first). -/
def runOps (s : Store) (ops : List StoreOp) : Store := ops.foldl StoreOp.apply s

end WifiController

/-! ## Environment of the network code

The firmware runs in one control flow. What it observes from outside is given by scripts:
the values the coming calls of `millis()` return, what the coming calls of
`udp.parsePacket()` find, and what the transport reports for each transmission. What it
does to the outside is logged: datagrams handed to the transport, pin levels and `delay`
calls. -/

/-- An `IPAddress`: four octets. -/
structure IPAddress where
  o0 : Nat
  o1 : Nat
  o2 : Nat
  o3 : Nat
deriving DecidableEq, Repr

/-- Structure `UdpClient` of `WIFI_Config.h`. -/
structure UdpClient where
  ip : IPAddress
  port : Nat
deriving DecidableEq, Repr

/-- An inbound datagram: sender address, sender port and payload bytes. -/
structure Datagram where
  ip : IPAddress
  port : Nat
  payload : List Nat
deriving DecidableEq, Repr

/-- What the transport reports for one transmission: whether `udp.beginPacket` succeeded,
whether `udp.endPacket` returned 1, and the value of `udp.getWriteError()`. -/
structure TxReport where
  beginPacket : Bool
  endPacket : Bool
  writeError : Nat
deriving DecidableEq, Repr

/-- A transmission attempted by the firmware: destination, payload, and whether the
transport reported success. -/
structure Sent where
  ip : IPAddress
  port : Nat
  payload : List Nat
  delivered : Bool
deriving DecidableEq, Repr

/-- The outside of the firmware. -/
structure World where
  /-- Values returned by the coming calls of `millis()`. -/
  clock : List Nat
  /-- What the coming calls of `udp.parsePacket()` find (`none`: no datagram pending);
  when the list is exhausted nothing arrives any more. -/
  inbox : List (Option Datagram)
  /-- Report of the transport for the transmission attempted after `n` earlier ones. -/
  tx : Nat → TxReport
  /-- Value of `WiFi.localIP()`. -/
  localIP : IPAddress
  /-- Transmissions attempted so far, oldest first. -/
  sent : List Sent
  /-- Level of the red output. -/
  red : Bool
  /-- Level of the green output. -/
  green : Bool
  /-- Level of the blue output. -/
  blue : Bool
  /-- Arguments of the `delay` calls so far, oldest first. -/
  delays : List Nat
  /-- Levels of the red, green and blue outputs during each `delay` call so far, oldest
  first: what the LED showed while that time passed. -/
  held : List (Bool × Bool × Bool)

/-- Why a run of the model stops without a result. -/
inductive Fault where
  /-- The script of clock readings ran out: the run is not determined any further. -/
  | clockExhausted
  /-- Integer division or remainder by zero. -/
  | divisionByZero
deriving DecidableEq, Repr

/-- `millis()`: the next value of the clock script. -/
def millis (w : World) : Except Fault (Nat × World) :=
  match w.clock with
  | [] => .error .clockExhausted
  | t :: clk => .ok (t, { w with clock := clk })

/-- `delay(ms)`, logged together with the levels the outputs hold while it lasts. -/
def delay (w : World) (ms : Nat) : World :=
  { w with delays := w.delays ++ [ms], held := w.held ++ [(w.red, w.green, w.blue)] }

/-- Subtraction of two `unsigned long` (32-bit) values. -/
def sub32 (a b : Nat) : Nat := (a % 4294967296 + 4294967296 - b % 4294967296) % 4294967296

/-- Conversion of an `unsigned long` to `int` (32-bit two's complement). -/
def toInt32 (n : Nat) : Int :=
  if n % 4294967296 < 2147483648 then (n % 4294967296 : Nat) else (n % 4294967296 : Nat) - 4294967296

/-- An `int` result reduced to 32-bit two's complement. -/
def wrapInt32 (z : Int) : Int := (z + 2147483648) % 4294967296 - 2147483648

/-- Conversion of an `int` to `uint32_t`. -/
def toUInt32 (z : Int) : Nat := (z % 4294967296).toNat

/-! ## Status LED (`LED_Status.h`, `LED_Status.cpp`) -/

def BOOTED : Int := 0
def BLE_INIT : Int := 10
def BLE_CONNECTED : Int := 11
def BLE_DISCONNECTED : Int := 12
def BLE_FAILED : Int := 13
def BLE_SEND : Int := 14
def BLE_RECEIVE : Int := 15
def WIFI_INIT : Int := 20
def WIFI_CONNECTING : Int := 21
def WIFI_CONNECTED : Int := 22
def WIFI_FAILED : Int := 23
def WIFI_SEND : Int := 24
def WIFI_RECEIVE : Int := 25
def WIFI_CONNECTION_LOST : Int := 26
def UDP_BROADCAST_SENT : Int := 30
def UDP_BROADCAST_FAILED : Int := 31
def UDP_INVALID_ARGUMENT : Int := 32
def UDP_UNKNOWN_ERROR : Int := 33

/-- Character codes of the colour letters `'a'`, `'r'`, `'g'`, `'b'`. -/
def chr_a : Nat := 97
def chr_r : Nat := 114
def chr_g : Nat := 103
def chr_b : Nat := 98

/-- Data members of class `StatusLED` (the pin numbers are fixed; the pin levels are in
`World`). `status` is the numeric value of the `LEDStatus` held. -/
structure StatusLED where
  activeLED : Nat
  flash : Bool
  duration : Int
  flashRate : Int
  flashCount : Int
  status : Int
deriving DecidableEq, Repr

namespace StatusLED

/-- `StatusLED::setActiveLED(color, flash, flashCount, duration, flashRate)`; the header gives
the defaults `flash = false, flashCount = 1, duration = 1000, flashRate = 1`. -/
def setActiveLED (led : StatusLED) (color : Nat) (flash : Bool) (flashCount duration
    flashRate : Int) : StatusLED :=
  { led with activeLED := color, flash := flash, flashCount := flashCount,
             duration := duration, flashRate := flashRate }

/-- `StatusLED::switchOff`. -/
def switchOff (w : World) : World := { w with red := false, green := false, blue := false }

/-- The `switch (activeLED)` of the flashing branch of `drive`. -/
def flashOn (activeLED : Nat) (w : World) : World :=
  if activeLED = chr_a then { w with red := true, green := true }
  else if activeLED = chr_r then { w with red := true }
  else if activeLED = chr_g then { w with green := true }
  else if activeLED = chr_b then { w with blue := true }
  else w

/-- The `switch (activeLED)` of the steady branch of `drive`. -/
def steadyOn (activeLED : Nat) (w : World) : World :=
  if activeLED = chr_r then { w with red := true }
  else if activeLED = chr_g then { w with green := true }
  else if activeLED = chr_b then { w with blue := true }
  else w

/-- The loop `while (flashCount > 0) { ... }` of `drive`; the first argument is the clock
script, of which every iteration takes one reading. -/
def flashLoop (startTime onTime : Int) : List Nat → StatusLED → World →
    Except Fault (StatusLED × World)
  | clk, led, w =>
    if led.flashCount > 0 then
      match clk with
      | [] => .error .clockExhausted
      | t :: rest =>
        let currentTime := toInt32 t
        let elapsedTime := wrapInt32 (currentTime - startTime)
        if led.flashRate = 0 then .error .divisionByZero
        else if Int.tdiv led.duration led.flashRate = 0 then .error .divisionByZero
        else if Int.tmod elapsedTime (Int.tdiv led.duration led.flashRate) < onTime then
          let w1 := flashOn led.activeLED w
          let w2 := delay w1 (toUInt32 onTime)
          let w3 := switchOff w2
          let led1 := { led with flashCount := led.flashCount - 1 }
          let w4 := delay w3 (toUInt32 onTime)
          flashLoop startTime onTime rest led1 w4
        else flashLoop startTime onTime rest led w
    else .ok (led, { w with clock := clk })

/-- `StatusLED::drive`. -/
def drive (led : StatusLED) (w : World) : Except Fault (StatusLED × World) :=
  match w.clock with
  | [] => .error .clockExhausted
  | t :: clk =>
    let startTime := toInt32 t
    if led.flash then
      if led.flashRate = 0 then .error .divisionByZero
      else
        let onTime := Int.tdiv (Int.tdiv led.duration led.flashRate) 2
        flashLoop startTime onTime clk led w
    else
      .ok (led, steadyOn led.activeLED (switchOff { w with clock := clk }))

/-- The `switch (this->status)` of `SetStatus`, for every status but `BOOTED`. -/
def pattern (led : StatusLED) (status : Int) : StatusLED :=
  if status = BLE_INIT then setActiveLED led chr_b true 2 1000 1
  else if status = BLE_CONNECTED then setActiveLED led chr_b false 1 1000 1
  else if status = BLE_DISCONNECTED then setActiveLED led chr_r true 2 1000 1
  else if status = BLE_FAILED then setActiveLED led chr_r true 3 1000 1
  else if status = BLE_SEND then setActiveLED led chr_g true 4 1000 1
  else if status = BLE_RECEIVE then setActiveLED led chr_g true 4 1000 1
  else if status = WIFI_INIT then setActiveLED led chr_g true 1 1000 1
  else if status = WIFI_CONNECTING then
    setActiveLED led (if led.activeLED = chr_g then chr_a else chr_g) true 1 1000 1
  else if status = WIFI_CONNECTED then setActiveLED led chr_g false 1 1000 1
  else if status = WIFI_FAILED then setActiveLED led chr_r true 3 1000 1
  else if status = WIFI_SEND then setActiveLED led chr_g true 5 1000 1
  else if status = WIFI_RECEIVE then setActiveLED led chr_g true 3 1000 1
  else if status = WIFI_CONNECTION_LOST then setActiveLED led chr_r true 10 2000 10
  else if status = UDP_BROADCAST_SENT then setActiveLED led chr_b true 2 100 1
  else if status = UDP_BROADCAST_FAILED then setActiveLED led chr_r true 3 1000 1
  else if status = UDP_INVALID_ARGUMENT then setActiveLED led chr_r true 5 1000 1
  else if status = UDP_UNKNOWN_ERROR then setActiveLED led chr_r true 10 1000 1
  else setActiveLED led chr_r true 10 1000 1

/-- `StatusLED::SetStatus(status, alsoDrive, wait)`; the header gives the defaults
`alsoDrive = true, wait = 0`. -/
def SetStatus (led : StatusLED) (w : World) (status : Int) (alsoDrive : Bool) (wait : Nat) :
    Except Fault (StatusLED × World) := do
  let led0 := { led with flash := false, status := status }
  let (led1, w1) ←
    if status = BOOTED then do
      let (a, wa) ← drive (setActiveLED led0 chr_r true 2 200 1) w
      let (b, wb) ← drive (setActiveLED a chr_g true 2 200 1) wa
      drive (setActiveLED b chr_b true 2 200 1) wb
    else pure (pattern led0 status, w)
  if alsoDrive then do
    let (led2, w2) ← drive led1 w1
    if wait ≠ 0 then pure (led2, delay w2 wait) else pure (led2, w2)
  else pure (led1, w1)

end StatusLED

/-- The enumerators of `enum LEDStatus` (`LED_Status.h`). -/
def LEDStatus.enumerators : List Int :=
  [BOOTED, BLE_INIT, BLE_CONNECTED, BLE_DISCONNECTED, BLE_FAILED, BLE_SEND, BLE_RECEIVE,
   WIFI_INIT, WIFI_CONNECTING, WIFI_CONNECTED, WIFI_FAILED, WIFI_SEND, WIFI_RECEIVE,
   WIFI_CONNECTION_LOST, UDP_BROADCAST_SENT, UDP_BROADCAST_FAILED, UDP_INVALID_ARGUMENT,
   UDP_UNKNOWN_ERROR]

/-- The five members of the LED object that make up its pattern: colour, flashing flag, flash
count, duration and rate divisor. -/
def StatusLED.indicator (led : StatusLED) : Nat × Bool × Int × Int × Int :=
  (led.activeLED, led.flash, led.flashCount, led.duration, led.flashRate)

/-- The two quantities `drive` computes from a pattern, `duration / flashRate` and the on
time `(duration / flashRate) / 2`, are both at least 1. -/
def StatusLED.PositivePeriod (led : StatusLED) : Prop :=
  1 ≤ Int.tdiv led.duration led.flashRate ∧
    1 ≤ Int.tdiv (Int.tdiv led.duration led.flashRate) 2

/-! ## Discovery protocol (`WIFI_Controller.cpp`) -/

/-- The part of the `WiFiUDP` object the code reads back: sender of the last parsed
datagram. -/
structure WiFiUDP where
  remoteIP : IPAddress
  remotePort : Nat
deriving DecidableEq, Repr

/-- Data members of class `WifiController`, and the static local `lastBroadcastTime` of
`broadcastIP`. -/
structure WifiController where
  lastPingTime : Nat
  connected : Bool
  client : UdpClient
  udp : WiFiUDP
  led : StatusLED
  lastBroadcastTime : Nat
deriving DecidableEq, Repr

/-- Comparison `String == const char*` of the Arduino core (`strcmp` of the two C strings). -/
def strEq (a b : List Nat) : Bool := cstr a == cstr b

/-- The characters of `"Hello"`. -/
def msgHello : List Nat := [72, 101, 108, 108, 111]
/-- The characters of `"ping"`. -/
def msgPing : List Nat := [112, 105, 110, 103]
/-- The characters of `"pong"`. -/
def msgPong : List Nat := [112, 111, 110, 103]

/-- Digits of `sprintf("%d", n)` for a non-negative `n`, most significant first, built from
the last digit with at most `fuel` digits. -/
def decimalAux : Nat → Nat → List Nat → List Nat
  | 0, _, acc => acc
  | fuel + 1, n, acc =>
    if n / 10 = 0 then (48 + n % 10) :: acc
    else decimalAux fuel (n / 10) ((48 + n % 10) :: acc)

/-- The characters of `sprintf("%d", n)` for a non-negative `n`. -/
def decimal (n : Nat) : List Nat := decimalAux (n + 1) n []

/-- The characters of `sprintf("%d.%d.%d.%d", ip[0], ip[1], ip[2], ip[3])`. -/
def dotted (ip : IPAddress) : List Nat :=
  decimal ip.o0 ++ [46] ++ decimal ip.o1 ++ [46] ++ decimal ip.o2 ++ [46] ++ decimal ip.o3

namespace WifiController

/-- `WifiController::sendMessage`: returns the number of bytes sent, 0 on failure. The
datagram is logged with the report of the transport. -/
def sendMessage (c : WifiController) (w : World) (message : List Nat) : Nat × World :=
  let report := w.tx w.sent.length
  if report.beginPacket then
    let result := message.length
    if !report.endPacket then
      (0, { w with sent := w.sent ++ [⟨c.client.ip, c.client.port, message, false⟩] })
    else
      (result, { w with sent := w.sent ++ [⟨c.client.ip, c.client.port, message, true⟩] })
  else
    (0, { w with sent := w.sent ++ [⟨c.client.ip, c.client.port, message, false⟩] })

/-- `WifiController::receiveMessage`: returns the packet size (0 when nothing is accepted)
and the value of the caller's `String` afterwards. -/
def receiveMessage (c : WifiController) (w : World) (receivedMsg : List Nat) :
    Nat × List Nat × WifiController × World :=
  match w.inbox with
  | [] => (0, receivedMsg, c, w)
  | none :: rest => (0, receivedMsg, c, { w with inbox := rest })
  | some d :: rest =>
    let packetSize := d.payload.length
    let c1 := { c with udp := { remoteIP := d.ip, remotePort := d.port } }
    let w1 := { w with inbox := rest }
    if packetSize ≠ 0 then
      let senderIP := c1.udp.remoteIP
      if senderIP.o3 ≠ 255 ∧ senderIP.o3 ≠ w1.localIP.o3 then
        let buffer := d.payload ++ [0]
        (packetSize, cstr buffer, c1, w1)
      else (0, receivedMsg, c1, w1)
    else (0, receivedMsg, c1, w1)

/-- `WifiController::broadcastIP`. -/
def broadcastIP (c : WifiController) (w : World) (timer : Nat) :
    Except Fault (WifiController × World) := do
  let (now, w1) ← millis w
  if sub32 now c.lastBroadcastTime ≥ timer then
    let broadcastAddress := { w1.localIP with o3 := 255 }
    let localIPMessage := cstr (dotted w1.localIP ++ [0])
    let report := w1.tx w1.sent.length
    let w2 := { w1 with sent := w1.sent ++
      [⟨broadcastAddress, LOCAL_PORT, localIPMessage, report.endPacket⟩] }
    if report.endPacket then do
      let (t, w3) ← millis w2
      let c1 := { c with lastBroadcastTime := t }
      let (led, w4) ← StatusLED.SetStatus c1.led w3 UDP_BROADCAST_SENT true 0
      pure ({ c1 with led := led }, w4)
    else if report.writeError ≠ 0 then do
      let (led, w3) ← StatusLED.SetStatus c.led w2 UDP_BROADCAST_FAILED true 0
      pure ({ c with led := led }, w3)
    else do
      let (led, w3) ← StatusLED.SetStatus c.led w2 UDP_UNKNOWN_ERROR true 0
      pure ({ c with led := led }, w3)
  else pure (c, w1)

/-- `WifiController::checkIncomingClients`. -/
def checkIncomingClients (c : WifiController) (w : World) :
    Except Fault (WifiController × World) :=
  match receiveMessage c w [] with
  | (packetSize, receivedMsg, c1, w1) =>
    if packetSize ≠ 0 then
      if strEq receivedMsg PASS_PHRASE then
        let c2 := { c1 with client := { ip := c1.udp.remoteIP, port := c1.udp.remotePort },
                            connected := true }
        match sendMessage c2 w1 msgHello with
        | (_, w2) =>
          match millis w2 with
          | .error e => .error e
          | .ok (t, w3) => broadcastIP { c2 with lastPingTime := t } w3 1000
      else broadcastIP c1 w1 1000
    else broadcastIP c1 w1 1000

/-- The loop `while (millis() - startTime < 1000) { ... }` of `isClientConnected`; the first
argument is the clock script, of which every test of the loop condition takes one reading. -/
def pongLoop (startTime : Nat) : List Nat → List Nat → WifiController → World →
    Except Fault (List Nat × WifiController × World)
  | [], _, _, _ => .error .clockExhausted
  | t :: rest, message, c, w =>
    if sub32 t startTime < 1000 then
      match receiveMessage c w message with
      | (bytesReceived, message1, c1, w1) =>
        if bytesReceived > 0 ∧ strEq message1 msgPong then
          .ok (message1, { c1 with connected := true }, { w1 with clock := rest })
        else pongLoop startTime rest message1 { c1 with connected := false } w1
    else .ok (message, c, { w with clock := rest })

/-- `WifiController::isClientConnected`. -/
def isClientConnected (c : WifiController) (w : World) :
    Except Fault (Bool × WifiController × World) :=
  if c.connected then
    match millis w with
    | .error e => .error e
    | .ok (currentTime, w1) =>
      if sub32 currentTime c.lastPingTime ≥ 60000 then
        match sendMessage c w1 msgPing with
        | (_, w2) =>
          match millis w2 with
          | .error e => .error e
          | .ok (startTime, w3) =>
            match pongLoop startTime w3.clock msgPing c w3 with
            | .error e => .error e
            | .ok (_, c1, w4) =>
              if !c1.connected then .ok (false, c1, w4)
              else .ok (c1.connected, { c1 with lastPingTime := currentTime }, w4)
      else .ok (c.connected, c, w1)
  else .ok (c.connected, c, w)

end WifiController

/-! ## Joining the network (`WifiController::connect`) -/

/-- Value `WL_CONNECTED` of the `wl_status_t` enumeration of the Arduino core. -/
def WL_CONNECTED : Nat := 3
/-- Value `WL_CONNECT_FAILED` of the `wl_status_t` enumeration of the Arduino core. -/
def WL_CONNECT_FAILED : Nat := 4

/-- How a call of `connect` ends. `iterations` is the final value of the local `timeout`,
which counts the passes of the wait loop; `statuses` lists the arguments of the calls of
`led.SetStatus`, in order. -/
inductive ConnectResult where
  /-- No stored credentials: `return false`. -/
  | noCredentials (c : WifiController) (w : World)
  /-- The network status became `WL_CONNECTED`: `return true`. -/
  | connected (iterations : Nat) (statuses : List Int) (c : WifiController) (w : World)
  /-- The body of the wait loop reached `ESP.restart()`. -/
  | restarted (iterations : Nat) (statuses : List Int) (c : WifiController) (w : World)
  /-- A call of `led.SetStatus` did not complete. -/
  | fault (f : Fault)
  /-- The wait loop was still running when the fuel of the model ran out. -/
  | unfinished

namespace WifiController

/-- The loop `while (WiFi.status() != WL_CONNECTED) { ... }` of `connect` and the code after
it. `status k` is what the call number `k` of `WiFi.status()` returns, `calls` the number of
calls made so far, `timeout` the local counter, `fuel` a bound on the passes of the loop. -/
def connectLoop (status : Nat → Nat) : Nat → Nat → Nat → List Int → WifiController → World →
    ConnectResult
  | 0, _, _, _, _, _ => .unfinished
  | fuel + 1, calls, timeout, statuses, c, w =>
    if status calls ≠ WL_CONNECTED then
      -- `timeout++ >= 10 || WiFi.status() == WL_CONNECT_FAILED`: the second call of
      -- `WiFi.status()` is made only when the first test is false
      if timeout ≥ 10 ∨ status (calls + 1) = WL_CONNECT_FAILED then
        match StatusLED.SetStatus c.led w WIFI_FAILED true 1000 with
        | .error e => .fault e
        | .ok (led, w1) =>
          .restarted (timeout + 1) (statuses ++ [WIFI_FAILED]) { c with led := led }
            (delay w1 1000)
      else
        match StatusLED.SetStatus c.led w WIFI_CONNECTING true 0 with
        | .error e => .fault e
        | .ok (led, w1) =>
          connectLoop status fuel (calls + 2) (timeout + 1) (statuses ++ [WIFI_CONNECTING])
            { c with led := led } w1
    else
      match StatusLED.SetStatus c.led w WIFI_CONNECTED true 0 with
      | .error e => .fault e
      | .ok (led, w1) =>
        .connected timeout (statuses ++ [WIFI_CONNECTED]) { c with led := led } w1

/-- `WifiController::connect`. `WiFi.begin`, `WiFi.disconnect` and `udp.begin` act on the
network stack only. -/
def connect (s : Store) (status : Nat → Nat) (fuel : Nat) (c : WifiController) (w : World) :
    ConnectResult :=
  if !hasCredentials s then
    match StatusLED.SetStatus c.led w WIFI_FAILED true 1000 with
    | .error e => .fault e
    | .ok (led, w1) => .noCredentials { c with led := led } w1
  else
    connectLoop status fuel 0 0 [] c (delay w 100)

end WifiController

/-- The retry bound of `connect`, for a wait loop entered with the counter at `timeout` and
the calls `statuses` made: the loop does not outlive the fuel, ends after at most 10 passes
when it connects and at most 11 when it restarts, and the calls of `led.SetStatus` are `k`
times `WIFI_CONNECTING` followed by the final status. -/
def ConnectResult.BoundedFrom (timeout : Nat) (statuses : List Int) : ConnectResult → Prop
  | .unfinished => False
  | .connected n lg _ _ =>
    ∃ k, n = timeout + k ∧ n ≤ 10 ∧
      lg = statuses ++ List.replicate k WIFI_CONNECTING ++ [WIFI_CONNECTED]
  | .restarted n lg _ _ =>
    ∃ k, n = timeout + k + 1 ∧ n ≤ 11 ∧
      lg = statuses ++ List.replicate k WIFI_CONNECTING ++ [WIFI_FAILED]
  | .noCredentials _ _ => True
  | .fault _ => True

/-- What a finished wait loop shows: whether the device restarted, the number of passes and
the calls of `led.SetStatus`. -/
def ConnectResult.summary : ConnectResult → Option (Bool × Nat × List Int)
  | .connected n lg _ _ => some (false, n, lg)
  | .restarted n lg _ _ => some (true, n, lg)
  | _ => none

/-! ## Provisioning over BLE (`BLE_Controller.cpp`) and boot (`main.cpp`) -/

/-- What one pass of the polling loop of `GetWiFi` sees of the BLE stack: the flag
`mscb->connected`, the values of the two characteristics, and the globals `r` and `s` set by
the write callbacks. -/
structure BleSnapshot where
  connected : Bool
  ssid : List Nat
  password : List Nat
  r : Bool
  s : Bool
deriving DecidableEq, Repr

/-- Data members of class `BLEController` read or written by `GetWiFi`; `led` is the shared
status LED. -/
structure BLEController where
  ssid : List Nat
  password : List Nat
  _connected : Bool
  led : StatusLED
deriving DecidableEq, Repr

/-- How a run of `GetWiFi` over a script of snapshots ends. `polls` counts the passes of the
polling loop. -/
inductive ProvisionResult where
  /-- The timeout test of pass number `polls` reached `ESP.restart()`. -/
  | timedOut (polls : Nat) (b : BLEController) (w : World)
  /-- The loop was left after `polls` passes and the pair was saved into `store`; the device
  restarts when `restarted` (the value of `hasCredentials`), else `GetWiFi` returns. -/
  | saved (restarted : Bool) (polls : Nat) (store : Store) (b : BLEController) (w : World)
  /-- The script of snapshots ended with the loop still polling, its window opened at
  `startTime`. -/
  | polling (polls : Nat) (startTime : Nat) (b : BLEController) (w : World)
  /-- A call of `led.SetStatus` or `millis` did not complete. -/
  | fault (f : Fault)

/-- Whether the run ended in `ESP.restart()`. -/
def ProvisionResult.restarted : ProvisionResult → Bool
  | .timedOut _ _ _ => true
  | .saved r _ _ _ _ => r
  | _ => false

/-- The store the run saved into, if it saved. -/
def ProvisionResult.store? : ProvisionResult → Option Store
  | .saved _ _ st _ _ => some st
  | _ => none

/-- The `startTime` of the window, when the run ended with the loop still polling. -/
def ProvisionResult.openedAt? : ProvisionResult → Option Nat
  | .polling _ startTime _ _ => some startTime
  | _ => none

/-- The number of passes of the polling loop, when the run ended in the timeout restart. -/
def ProvisionResult.timedOutAt? : ProvisionResult → Option Nat
  | .timedOut polls _ _ => some polls
  | _ => none

/-- Whether the run ended with the loop still polling. -/
def ProvisionResult.stillPolling : ProvisionResult → Bool
  | .polling _ _ _ _ => true
  | _ => false

namespace BLEController

/-- `BLEController::connected` (release build, without the `EASYDEBUG` tracing). -/
def connected (b : BLEController) (w : World) (mscbConnected : Bool) :
    Except Fault (BLEController × World) := do
  let (b1, w1) ←
    if !b._connected && mscbConnected then do
      let (led, w1) ← StatusLED.SetStatus b.led w BLE_CONNECTED true 0
      pure ({ b with led := led, _connected := true }, w1)
    else pure (b, w)
  if b1._connected && !mscbConnected then do
    let (led, w2) ← StatusLED.SetStatus b1.led w1 BLE_DISCONNECTED true 0
    pure ({ b1 with led := led, _connected := false }, w2)
  else pure (b1, w1)

/-- First part of the body of the polling loop of `GetWiFi`: the call of `connected` and
the two tests of the globals `r` and `s`. -/
def pollLed (b : BLEController) (w : World) (e : BleSnapshot) :
    Except Fault (BLEController × World) := do
  let (b1, w1) ← connected b w e.connected
  let (b2, w2) ←
    if e.r then do
      let (led, w2) ← StatusLED.SetStatus b1.led w1 BLE_RECEIVE true 0
      pure ({ b1 with led := led }, w2)
    else pure (b1, w1)
  if e.s then do
    let (led, w3) ← StatusLED.SetStatus b2.led w2 BLE_SEND true 0
    pure ({ b2 with led := led }, w3)
  else pure (b2, w2)

/-- One pass of the body of the polling loop of `GetWiFi`. The result says whether the pass
reached `ESP.restart()` and gives the members, `startTime` and the world after it. -/
def pollStep (b : BLEController) (startTime : Nat) (w : World) (e : BleSnapshot) :
    Except Fault (Bool × BLEController × Nat × World) := do
  let (b3, w3) ← pollLed b w e
  let (b4, startTime4, w4) ←
    if e.connected then do
      let (t, w4) ← millis w3
      pure ({ b3 with ssid := e.ssid, password := e.password }, t, w4)
    else pure (b3, startTime, w3)
  let (now, w5) ← millis w4
  pure (decide (sub32 now startTime4 ≥ 2 * 60 * 1000), b4, startTime4, w5)

/-- The loop `while (ssid.empty() || password.empty()) { ... }` of `GetWiFi` and the code after
it; every pass takes one snapshot from the script. -/
def getWiFiLoop (s : Store) : List BleSnapshot → Nat → Nat → BLEController → World →
    ProvisionResult
  | snaps, polls, startTime, b, w =>
    if b.ssid = [] ∨ b.password = [] then
      match snaps with
      | [] => .polling polls startTime b w
      | e :: rest =>
        match pollStep b startTime w e with
        | .error f => .fault f
        | .ok (true, b1, _, w1) => .timedOut (polls + 1) b1 w1
        | .ok (false, b1, startTime1, w1) => getWiFiLoop s rest (polls + 1) startTime1 b1 w1
    else
      let store := WifiController.saveCredentials s ⟨b.ssid, b.password⟩
      .saved (WifiController.hasCredentials store) polls store b w

/-- `BLEController::GetWiFi` (release build). -/
def GetWiFi (s : Store) (snaps : List BleSnapshot) (b : BLEController) (w : World) :
    ProvisionResult :=
  match millis w with
  | .error f => .fault f
  | .ok (startTime, w1) => getWiFiLoop s snaps 0 startTime b w1

end BLEController

/-! ## Boot (`main.cpp`) -/

/-- Which way `setup` went: `WifiController::connect` was called and ended as `r`, or
`BLEController::init` and `GetWiFi` were called and `GetWiFi` ended as `r`; `fault` when a
call of `SetStatus` before the branch did not complete. -/
inductive SetupResult where
  | operational (r : ConnectResult)
  | provisioning (r : ProvisionResult)
  | fault (f : Fault)

/-- `some true` when `connect` was called, `some false` when `GetWiFi` was. -/
def SetupResult.calledConnect? : SetupResult → Option Bool
  | .operational _ => some true
  | .provisioning _ => some false
  | .fault _ => none

/-- `setup` of `main.cpp` (release build). `sled` is the global `SLED` that the controllers
`wifi` (here `c`) and `bt` (here `b`) hold by reference; `s` is the EEPROM buffer that
`wifi.init` opens. `ir.begin` and the BLE stack set up by `bt.init` after its
`led.SetStatus(BLE_INIT)` touch neither the LED nor the store. -/
def setup (s : Store) (status : Nat → Nat) (fuel : Nat) (snaps : List BleSnapshot)
    (sled : StatusLED) (c : WifiController) (b : BLEController) (w : World) : SetupResult :=
  match StatusLED.SetStatus sled w BOOTED true 1000 with
  | .error f => .fault f
  | .ok (led1, w1) =>
    -- `wifi.init()`
    match StatusLED.SetStatus led1 (delay w1 10) WIFI_INIT true 500 with
    | .error f => .fault f
    | .ok (led2, w2) =>
      if WifiController.hasCredentials s then
        -- `ir.begin(); wifi.connect();`
        .operational (WifiController.connect s status fuel { c with led := led2 } w2)
      else
        -- `bt.init(); bt.GetWiFi();`
        match StatusLED.SetStatus led2 w2 BLE_INIT true 0 with
        | .error f => .fault f
        | .ok (led3, w3) =>
          .provisioning (BLEController.GetWiFi s snaps { b with led := led3 } w3)

/-! ## Operational loop (`main.cpp`) -/

/-- The characters of `"OK"`. -/
def msgOK : List Nat := [79, 75]

/-- `WifiController::isWiFiConnected`; `wifiStatus` is what `WiFi.status()` returns. -/
def WifiController.isWiFiConnected (c : WifiController) (w : World) (wifiStatus : Nat) :
    Except Fault (Bool × WifiController × World) :=
  if wifiStatus = WL_CONNECTED then
    if c.led.status ≠ WIFI_CONNECTED then
      match StatusLED.SetStatus c.led w WIFI_CONNECTED true 1000 with
      | .error e => .error e
      | .ok (led, w1) => .ok (true, { c with led := led }, w1)
    else .ok (true, c, w)
  else
    match StatusLED.SetStatus c.led w WIFI_CONNECTION_LOST true 0 with
    | .error e => .error e
    | .ok (led, w1) => .ok (false, { c with led := led }, w1)

/-- One iteration of `loop` of `main.cpp`; `wifiStatus` is what `WiFi.status()` returns in
it. -/
def loop (c : WifiController) (w : World) (wifiStatus : Nat) :
    Except Fault (WifiController × World) :=
  match WifiController.isWiFiConnected c w wifiStatus with
  | .error e => .error e
  | .ok (up, c1, w1) =>
    if up then
      match WifiController.isClientConnected c1 w1 with
      | .error e => .error e
      | .ok (live, c2, w2) =>
        if !live then WifiController.checkIncomingClients c2 w2
        else
          match WifiController.receiveMessage c2 w2 [] with
          | (n, _, c3, w3) =>
            if n > 0 then
              -- `data = "OK"; wifi.sendMessage(data);`
              .ok (c3, (WifiController.sendMessage c3 w3 msgOK).2)
            else .ok (c3, w3)
    else .ok (c1, w1)

/-- Clock readings that `BLEController::connected` takes from a script on the beat: one for
the steady `BLE_CONNECTED`, three for the two flashes of `BLE_DISCONNECTED`, none when the
flag did not change. -/
def connectReadings (was now : Bool) : Nat :=
  if !was && now then 1 else if was && !now then 3 else 0

/-- Clock readings that the LED takes in one pass of the polling loop of `GetWiFi`, from a
script on the beat: those of `connected`, and five for each of `BLE_RECEIVE` and `BLE_SEND`
(four flashes). -/
def pollLedReadings (b : BLEController) (e : BleSnapshot) : Nat :=
  connectReadings b._connected e.connected + (if e.r then 5 else 0) + (if e.s then 5 else 0)

/-- Number of polls made by the reply loop of `isClientConnected`: the leading readings of
the clock script that fall inside the 1000 ms window opened at `startTime`. -/
def pollCount (startTime : Nat) (clk : List Nat) : Nat :=
  (clk.takeWhile (fun t => decide (sub32 t startTime < 1000))).length

/-- The clock script left when the reply loop of `isClientConnected` ends on its condition:
what follows the first reading outside the window. -/
def afterWindow (startTime : Nat) (clk : List Nat) : List Nat :=
  (clk.dropWhile (fun t => decide (sub32 t startTime < 1000))).tail

/-- Number of readings of the clock script that fall in the on half of a flash period of
`period` ms counted from the reading `startTime`, as `drive` computes it: each such reading
lets the flash loop of `drive` perform one on/off cycle. -/
def onReadings (period : Int) (startTime : Nat) (clk : List Nat) : Nat :=
  (clk.filter (fun t => decide
    (Int.tmod (wrapInt32 (toInt32 t - toInt32 startTime)) period < Int.tdiv period 2))).length

/-- A clock script read on the beat: every reading is a multiple of 2000 ms below 2^31.
All flash periods that `SetStatus` sets (100, 200 and 1000 ms) divide 2000, so every reading
of such a script falls at the start of an on phase, whichever reading the flash started at. -/
abbrev OnBeat (clk : List Nat) : Prop := ∀ t ∈ clk, t % 2000 = 0 ∧ t < 2147483648

/-- Number of clock readings one call of `drive` takes from a script on the beat: one for
its start time and, for a flashing pattern, one per flash. -/
def readingsOf (led : StatusLED) : Nat :=
  1 + (if led.flash then led.flashCount.toNat else 0)

/-- A pattern that `drive` renders from a script on the beat: when it flashes, the flash
count is not negative, the divisions are defined, the period divides 2000 ms and the on time
is positive. -/
def WellPat (led : StatusLED) : Prop :=
  led.flash = true → 0 ≤ led.flashCount ∧ led.flashRate ≠ 0 ∧
    Int.tdiv led.duration led.flashRate ∣ 2000 ∧
    0 < Int.tdiv (Int.tdiv led.duration led.flashRate) 2

/-- The decimal text of an octet as the words "decimal, without leading zeros" give it: one
digit below 10, two digits below 100, three digits otherwise (`48` is the code of `'0'`). To
be compared with `decimal`, which follows `sprintf("%d")`. -/
def octetText (n : Nat) : List Nat :=
  if n < 10 then [48 + n]
  else if n < 100 then [48 + n / 10, 48 + n % 10]
  else [48 + n / 100, 48 + n / 10 % 10, 48 + n % 10]

/-! ## Recordings as text (`IR_Controller.cpp`) -/

/-- The characters of `"raw_array:["`. -/
def rawArrayOpen : List Nat := [114, 97, 119, 95, 97, 114, 114, 97, 121, 58, 91]

/-- Whether the C string `s` starts with the characters of `lit`. -/
def beginsWith : List Nat → List Nat → Bool
  | _, [] => true
  | [], _ :: _ => false
  | c :: s, l :: lit => (c == l) && beginsWith s lit

/-- `strstr(hay, needle)` on C strings: the offset of the first occurrence of `needle`, or
`none` for the null pointer. -/
def strstr : List Nat → List Nat → Option Nat
  | [], needle => if beginsWith [] needle then some 0 else none
  | c :: rest, needle =>
    if beginsWith (c :: rest) needle then some 0 else (strstr rest needle).map (fun k => k + 1)

/-- The tokens that `strtok(s, ",")` and the following calls `strtok(NULL, ",")` return, in
order: the maximal runs of characters other than `','` (44). `cur` holds the characters of
the token being read. -/
def strtokAll : List Nat → List Nat → List (List Nat)
  | [], cur => if cur.isEmpty then [] else [cur]
  | c :: rest, cur =>
    if c = 44 then
      if cur.isEmpty then strtokAll rest [] else cur :: strtokAll rest []
    else strtokAll rest (cur ++ [c])

/-- `isspace` in the C locale. -/
def isspace (c : Nat) : Bool := c == 32 || (decide (9 ≤ c) && decide (c ≤ 13))

/-- The digit loop of `atoi`. -/
def atoiDigits : Int → List Nat → Int
  | acc, [] => acc
  | acc, c :: rest =>
    if 48 ≤ c ∧ c ≤ 57 then atoiDigits (acc * 10 + ((c - 48 : Nat) : Int)) rest else acc

/-- `atoi(s)`: leading white space, an optional sign, then decimal digits. The value is exact
when it fits an `int`. -/
def atoi (s : List Nat) : Int :=
  match s.dropWhile isspace with
  | 45 :: rest => - atoiDigits 0 rest
  | 43 :: rest => atoiDigits 0 rest
  | rest => atoiDigits 0 rest

/-- Conversion of an `int` to `uint16_t`. -/
def toUInt16 (z : Int) : Nat := (z % 65536).toNat

namespace IRController

/-- The loop of `makeText` over the elements of `raw_array`: each is printed with `"%d"`
(after promotion from `uint16_t`), followed by `","` unless it is the last one
(`i != length - 1`). -/
def makeTextLoop : List Nat → List Nat → List Nat
  | [], text => text
  | v :: rest, text =>
    let text1 := text ++ decimal (v % 65536)
    makeTextLoop rest (if rest.isEmpty then text1 else text1 ++ [44])

/-- `IRController::makeText`: the C string left in `text` for the `length` elements of
`raw_array` (the format `"]\0 "` prints `"]"`). -/
def makeText (raw_array : List Nat) : List Nat :=
  makeTextLoop raw_array rawArrayOpen ++ [93]

/-- `IRController::makeArrayFromText`: the value returned and the elements written to
`rawCode`; `none` when a `strstr` returns the null pointer, which the code dereferences. -/
def makeArrayFromText (text : List Nat) : Option (Nat × List Nat) :=
  match strstr (cstr text) rawArrayOpen with
  | none => none
  | some k =>
    let raw_array_start := (cstr text).drop (k + rawArrayOpen.length)
    match strstr raw_array_start [93] with
    | none => none
    | some e =>
      -- `*raw_array_end = '\0'`
      let body := raw_array_start.take e
      let elements := strtokAll body []
      some (elements.length % 65536, elements.map (fun element => toUInt16 (atoi element)))

end IRController

/-- Every character is a decimal digit. -/
abbrev IsDigits (l : List Nat) : Prop := ∀ c ∈ l, 48 ≤ c ∧ c ≤ 57

/-- The text that `makeText` puts between the brackets: the decimal texts of the elements,
separated by commas. -/
def joinDecimal : List Nat → List Nat
  | [] => []
  | v :: rest => decimal (v % 65536) ++ (if rest.isEmpty then [] else 44 :: joinDecimal rest)

/-! ## Sample values for the worked instances -/

/-- Local address 192.168.1.50. -/
def sampleLocalIP : IPAddress := ⟨192, 168, 1, 50⟩
/-- Peer address 192.0.2.10. -/
def samplePeer : IPAddress := ⟨192, 0, 2, 10⟩
/-- An LED showing `WIFI_CONNECTED`. -/
def sampleLED : StatusLED :=
  { activeLED := chr_g, flash := false, duration := 1000, flashRate := 1, flashCount := 1,
    status := WIFI_CONNECTED }
/-- A controller paired with 192.0.2.77:1234 whose session is marked not connected. -/
def sampleController : WifiController :=
  { lastPingTime := 0, connected := false, client := ⟨⟨192, 0, 2, 77⟩, 1234⟩,
    udp := ⟨⟨0, 0, 0, 0⟩, 0⟩, led := sampleLED, lastBroadcastTime := 4500 }
/-- A world with the given clock and inbox scripts and a transport that always succeeds. -/
def sampleWorld (clock : List Nat) (inbox : List (Option Datagram)) : World :=
  { clock := clock, inbox := inbox, tx := fun _ => ⟨true, true, 0⟩, localIP := sampleLocalIP,
    sent := [], red := false, green := true, blue := false, delays := [], held := [] }

/-- The LED after a rendered `UDP_BROADCAST_SENT`. -/
def sampleSentLED : StatusLED :=
  { activeLED := chr_b, flash := true, duration := 100, flashRate := 1, flashCount := 0,
    status := UDP_BROADCAST_SENT }
/-- The announce datagram of 192.168.1.50: `"192.168.1.50"` for 192.168.1.255:8181. -/
def sampleAnnounce : Sent :=
  ⟨⟨192, 168, 1, 255⟩, 8181, [49, 57, 50, 46, 49, 54, 56, 46, 49, 46, 53, 48], true⟩
/-- The sample world after one announce and its two LED flashes of 50 ms on, 50 ms off; the
green output, on before, stays on during the first blue flash. -/
def sampleAnnounced (clock : List Nat) : World :=
  { sampleWorld clock [] with
      sent := [sampleAnnounce], red := false, green := false, blue := false,
      delays := [50, 50, 50, 50],
      held := [(false, true, true), (false, false, false), (false, false, true),
               (false, false, false)] }

/-- A provisioner with no value read yet and no peer seen, sharing the sample LED. -/
def sampleProvisioner : BLEController :=
  { ssid := [], password := [], _connected := false, led := sampleLED }
/-- A connected peer that has written the name `"\0a"` and the secret `"x"`. -/
def sampleNulPeer : BleSnapshot := ⟨true, [0, 97], [120], false, false⟩
/-- A connected peer that has written `"home-net"` and `"s3cr3t"`, with the flag of the
write callback set. -/
def sampleHomePeer : BleSnapshot :=
  ⟨true, [104, 111, 109, 101, 45, 110, 101, 116], [115, 51, 99, 114, 51, 116], true, false⟩

/-- A connected peer that has written nothing. -/
def sampleSilentPeer : BleSnapshot := ⟨true, [], [], false, false⟩
/-- No peer connected. -/
def sampleNoPeer : BleSnapshot := ⟨false, [], [], false, false⟩

/-- The string is non-empty and its first character, as a byte, is not NUL. -/
abbrev BeginsNonNul (l : List Nat) : Prop := l.headD 0 % 256 ≠ 0

open WifiController

/-! ## Lemmas on the EEPROM buffer -/

theorem write_apply (s : Store) (a v b : Nat) (h : a < EEPROM_SIZE) :
    EEPROM.write s a v b = if b = a then v % 256 else s b := by
  simp [EEPROM.write, h]

theorem read_eq (s : Store) (a : Nat) (h : a < EEPROM_SIZE) : EEPROM.read s a = s a := by
  simp [EEPROM.read, h]

theorem writeString_apply (base : Nat) : ∀ (cs : List Nat) (i : Nat) (s : Store) (a : Nat),
    base + i + cs.length ≤ EEPROM_SIZE →
    writeString base cs i s a =
      if base + i ≤ a ∧ a < base + i + cs.length then cs.getD (a - (base + i)) 0 % 256
      else s a := by
  intro cs
  induction cs with
  | nil =>
    intro i s a _
    have h0 : ¬ (base + i ≤ a ∧ a < base + i + ([] : List Nat).length) := by
      simp only [List.length_nil]; omega
    rw [writeString, if_neg h0]
  | cons c cs ih =>
    intro i s a h
    simp only [List.length_cons] at h
    have hlt : base + i < EEPROM_SIZE := by omega
    rw [writeString, ih (i + 1) _ a (by omega), write_apply _ _ _ _ hlt]
    by_cases h1 : a = base + i
    · subst h1
      have : ¬ (base + (i + 1) ≤ base + i ∧ base + i < base + (i + 1) + cs.length) := by omega
      simp [this]
    · by_cases h2 : base + (i + 1) ≤ a ∧ a < base + (i + 1) + cs.length
      · have h3 : base + i ≤ a ∧ a < base + i + (c :: cs).length := by
          simp only [List.length_cons]; omega
        have h4 : a - (base + i) = (a - (base + (i + 1))) + 1 := by omega
        rw [if_pos h2, if_pos h3, h4, List.getD_cons_succ]
      · have h3 : ¬ (base + i ≤ a ∧ a < base + i + (c :: cs).length) := by
          simp only [List.length_cons]; omega
        rw [if_neg h2, if_neg h3, if_neg h1]

theorem zeroFill_apply : ∀ (n i : Nat) (s : Store) (a : Nat), i + n ≤ EEPROM_SIZE →
    zeroFill n i s a = if i ≤ a ∧ a < i + n then 0 else s a := by
  intro n
  induction n with
  | zero =>
    intro i s a _
    have h0 : ¬ (i ≤ a ∧ a < i + 0) := by omega
    rw [zeroFill, if_neg h0]
  | succ n ih =>
    intro i s a h
    have hlt : i < EEPROM_SIZE := by omega
    rw [zeroFill, ih (i + 1) _ a (by omega), write_apply _ _ _ _ hlt]
    by_cases h1 : a = i
    · subst h1
      have h2 : ¬ (a + 1 ≤ a ∧ a < a + 1 + n) := by omega
      have h3 : a ≤ a ∧ a < a + (n + 1) := by omega
      simp [h2, h3]
    · by_cases h2 : i + 1 ≤ a ∧ a < i + 1 + n
      · have h3 : i ≤ a ∧ a < i + (n + 1) := by omega
        rw [if_pos h2, if_pos h3]
      · have h3 : ¬ (i ≤ a ∧ a < i + (n + 1)) := by omega
        rw [if_neg h2, if_neg h3, if_neg h1]

/-- Reading back a region that holds the bytes of `l` followed by a zero byte gives the
C string of those bytes. -/
theorem readString_spec (s : Store) (base : Nat) : ∀ (l : List Nat) (n i : Nat),
    base + i + n ≤ EEPROM_SIZE → l.length < n →
    (∀ j, j < l.length → s (base + i + j) = l.getD j 0 % 256) →
    s (base + i + l.length) = 0 →
    readString s base n i = cstr (l.map (fun c => c % 256)) := by
  intro l
  induction l with
  | nil =>
    intro n i hb hn _ hz
    obtain ⟨m, rfl⟩ : ∃ m, n = m + 1 := ⟨n - 1, by simp at hn; omega⟩
    have hr : EEPROM.read s (base + i) = 0 := by
      rw [read_eq _ _ (by omega)]; simpa using hz
    simp [readString, hr, cstr]
  | cons c cs ih =>
    intro n i hb hn hbytes hz
    simp only [List.length_cons] at hn hz
    obtain ⟨m, rfl⟩ : ∃ m, n = m + 1 := ⟨n - 1, by omega⟩
    have hr : EEPROM.read s (base + i) = c % 256 := by
      rw [read_eq _ _ (by omega)]
      have := hbytes 0 (by simp)
      simpa using this
    by_cases hc : c % 256 = 0
    · simp [readString, hr, hc, cstr]
    · have hrec := ih m (i + 1) (by omega) (by omega)
        (fun j hj => by
          have := hbytes (j + 1) (by simp; omega)
          rw [List.getD_cons_succ] at this
          rw [← this]; congr 1; omega)
        (by rw [← hz]; congr 1; omega)
      simp only [readString, hr, hc, if_false, hrec, cstr, List.map_cons]
      rw [List.takeWhile_cons]
      simp [hc]

/-- The buffer after `saveCredentials`, byte by byte. -/
theorem saveCredentials_apply (s : Store) (cred : WiFiCredentials) (a : Nat) :
    saveCredentials s cred a =
      if a = 96 then 1
      else if 32 ≤ a ∧ a < 32 + (cred.password.take 63).length then
        (cred.password.take 63).getD (a - 32) 0 % 256
      else if a = 32 + (cred.password.take 63).length then 0
      else if a < (cred.ssid.take 31).length then (cred.ssid.take 31).getD a 0 % 256
      else if a = (cred.ssid.take 31).length then 0
      else s a := by
  have hn : (cred.ssid.take 31).length ≤ 31 := by
    rw [List.length_take]; exact Nat.min_le_left _ _
  have hp : (cred.password.take 63).length ≤ 63 := by
    rw [List.length_take]; exact Nat.min_le_left _ _
  simp only [saveCredentials, set_initialized, EEPROM.commit, SSID_LENGTH, PASS_LENGTH,
    SSID_ADDRESS, PASS_ADDRESS, INIT_ADDRESS, Nat.add_sub_cancel, Nat.zero_add, Nat.reduceAdd,
    Nat.reduceSub, if_true]
  rw [write_apply _ _ _ _ (by simp [EEPROM_SIZE]),
    write_apply _ _ _ _ (by simp only [EEPROM_SIZE]; omega),
    writeString_apply _ _ _ _ _ (by simp only [EEPROM_SIZE]; omega),
    write_apply _ _ _ _ (by simp only [EEPROM_SIZE]; omega),
    writeString_apply _ _ _ _ _ (by simp only [EEPROM_SIZE]; omega)]
  simp only [Nat.add_zero, Nat.zero_add, Nat.zero_le, true_and, Nat.sub_zero]
  split_ifs <;> first | rfl | omega

/-- What `loadCredentials` returns after `saveCredentials`, for arbitrary arguments. -/
theorem load_save (s : Store) (cred : WiFiCredentials) :
    loadCredentials (saveCredentials s cred) =
      { ssid := cstr ((cred.ssid.take 31).map (fun c => c % 256))
        password := cstr ((cred.password.take 63).map (fun c => c % 256)) } := by
  have hn : (cred.ssid.take 31).length ≤ 31 := by
    rw [List.length_take]; exact Nat.min_le_left _ _
  have hp : (cred.password.take 63).length ≤ 63 := by
    rw [List.length_take]; exact Nat.min_le_left _ _
  have h1 := readString_spec (saveCredentials s cred) SSID_ADDRESS (cred.ssid.take 31)
    SSID_LENGTH 0 (by simp [SSID_ADDRESS, SSID_LENGTH, EEPROM_SIZE])
    (by simp only [SSID_LENGTH]; omega)
    (fun j hj => by
      rw [saveCredentials_apply]
      simp only [SSID_ADDRESS, Nat.add_zero, Nat.zero_add]
      split_ifs <;> first | rfl | omega)
    (by
      rw [saveCredentials_apply]
      simp only [SSID_ADDRESS, Nat.add_zero, Nat.zero_add]
      split_ifs <;> first | rfl | omega)
  have h2 := readString_spec (saveCredentials s cred) PASS_ADDRESS (cred.password.take 63)
    PASS_LENGTH 0 (by simp [PASS_ADDRESS, SSID_ADDRESS, SSID_LENGTH, PASS_LENGTH, EEPROM_SIZE])
    (by simp only [PASS_LENGTH]; omega)
    (fun j hj => by
      rw [saveCredentials_apply]
      simp only [PASS_ADDRESS, SSID_ADDRESS, SSID_LENGTH, Nat.add_zero, Nat.zero_add]
      have : 32 + j - 32 = j := by omega
      split_ifs <;> first | omega | simp [this])
    (by
      rw [saveCredentials_apply]
      simp only [PASS_ADDRESS, SSID_ADDRESS, SSID_LENGTH, Nat.add_zero, Nat.zero_add]
      split_ifs <;> first | rfl | omega)
  simp only [loadCredentials, h1, h2]

theorem map_mod_of_isChars (l : List Nat) (h : IsChars l) : l.map (fun c => c % 256) = l := by
  induction l with
  | nil => rfl
  | cons c cs ih =>
    have hc : c < 256 := h c (by simp)
    have hcs : IsChars cs := fun x hx => h x (by simp [hx])
    simp [ih hcs, Nat.mod_eq_of_lt hc]

theorem cstr_of_nulFree (l : List Nat) (h : NulFree l) : cstr l = l := by
  induction l with
  | nil => rfl
  | cons c cs ih =>
    have hc : c ≠ 0 := h c (by simp)
    have hcs : NulFree cs := fun x hx => h x (by simp [hx])
    have := ih hcs
    simp only [cstr] at this ⊢
    rw [List.takeWhile_cons]
    simp [hc, this]

theorem isChars_take (l : List Nat) (n : Nat) (h : IsChars l) : IsChars (l.take n) :=
  fun c hc => h c (List.mem_of_mem_take hc)

theorem cstr_length_pos (l : List Nat) (n : Nat) (h : BeginsNonNul l) :
    0 < (cstr ((l.take (n + 1)).map (fun c => c % 256))).length := by
  cases l with
  | nil => simp [BeginsNonNul] at h
  | cons c cs =>
    have hc : c % 256 ≠ 0 := by simpa [BeginsNonNul] using h
    simp only [cstr, List.take_succ_cons, List.map_cons]
    rw [List.takeWhile_cons]
    simp [hc]

theorem clearCredentials_apply (s : Store) (a : Nat) :
    clearCredentials s a = if a ≤ 96 then 0 else s a := by
  simp only [clearCredentials, set_initialized, EEPROM.commit, SSID_LENGTH, PASS_LENGTH,
    SSID_ADDRESS, PASS_ADDRESS, INIT_ADDRESS, Nat.zero_add, Nat.reduceAdd]
  rw [write_apply _ _ _ _ (by simp [EEPROM_SIZE]),
    zeroFill_apply _ _ _ _ (by simp [EEPROM_SIZE]),
    zeroFill_apply _ _ _ _ (by simp [EEPROM_SIZE])]
  simp only [Bool.false_eq_true, if_false, Nat.zero_mod]
  split_ifs <;> first | rfl | omega

theorem readString_of_zero (s : Store) (base n i : Nat) (h : s (base + i) = 0) :
    readString s base n i = [] := by
  cases n with
  | zero => rfl
  | succ n =>
    have : EEPROM.read s (base + i) = 0 := by
      unfold EEPROM.read; split <;> simp [h]
    simp [readString, this]

theorem loadCredentials_of_zero (s : Store) (h0 : s 0 = 0) (h32 : s 32 = 0) :
    loadCredentials s = ⟨[], []⟩ := by
  simp only [loadCredentials]
  rw [readString_of_zero s SSID_ADDRESS SSID_LENGTH 0 (by simpa [SSID_ADDRESS] using h0),
    readString_of_zero s PASS_ADDRESS PASS_LENGTH 0
      (by simpa [PASS_ADDRESS, SSID_ADDRESS, SSID_LENGTH] using h32)]

theorem hasCredentials_iff (s : Store) :
    hasCredentials s = true ↔
      s 96 ≠ 0 ∧ 0 < (loadCredentials s).ssid.length ∧
        0 < (loadCredentials s).password.length := by
  have hr : EEPROM.read s INIT_ADDRESS = s 96 :=
    read_eq s _ (by simp [INIT_ADDRESS, PASS_ADDRESS, SSID_ADDRESS, SSID_LENGTH, PASS_LENGTH,
      EEPROM_SIZE])
  simp only [hasCredentials, get_initialized, hr]
  by_cases h : s 96 = 0
  · simp [h]
  · simp [h]

theorem hasCredentials_saveCredentials (s : Store) (cred : WiFiCredentials)
    (h1 : BeginsNonNul cred.ssid) (h2 : BeginsNonNul cred.password) :
    hasCredentials (saveCredentials s cred) = true := by
  rw [hasCredentials_iff, load_save]
  refine ⟨?_, cstr_length_pos _ 30 h1, cstr_length_pos _ 62 h2⟩
  rw [saveCredentials_apply]
  simp

/-- The flag is set only over two non-empty fields: preserved by `clearCredentials` and by
every `saveCredentials` whose two strings begin with a non-NUL character. -/
theorem runOps_flag_inv : ∀ (ops : List StoreOp) (s : Store),
    (∀ op ∈ ops, ∀ cred, op = StoreOp.save cred →
      BeginsNonNul cred.ssid ∧ BeginsNonNul cred.password) →
    (s 96 ≠ 0 → hasCredentials s = true) →
    (runOps s ops 96 ≠ 0 → hasCredentials (runOps s ops) = true) := by
  intro ops
  induction ops with
  | nil => intro s _ hs; simpa [runOps] using hs
  | cons op ops ih =>
    intro s hops hs
    have hrest : ∀ o ∈ ops, ∀ cred, o = StoreOp.save cred →
        BeginsNonNul cred.ssid ∧ BeginsNonNul cred.password :=
      fun o ho => hops o (List.mem_cons_of_mem _ ho)
    have step : StoreOp.apply s op 96 ≠ 0 → hasCredentials (StoreOp.apply s op) = true := by
      cases op with
      | save cred =>
        intro _
        obtain ⟨h1, h2⟩ := hops (StoreOp.save cred) (List.mem_cons_self _ _) cred rfl
        exact hasCredentials_saveCredentials s cred h1 h2
      | clear =>
        intro h
        exact absurd (by simp [StoreOp.apply, clearCredentials_apply]) h
    have := ih (StoreOp.apply s op) hrest step
    simpa [runOps] using this

/-- The loop of `loadCredentials` appends at most one character per iteration. -/
theorem readString_length_le (s : Store) (base : Nat) : ∀ (n i : Nat),
    (readString s base n i).length ≤ n := by
  intro n
  induction n with
  | zero => intro i; simp [readString]
  | succ m ih =>
    intro i
    unfold readString
    simp only
    split
    · simp
    · simp only [List.length_cons]
      exact Nat.succ_le_succ (ih (i + 1))

/-- The loop of `loadCredentials` stops at the first zero byte of the region. -/
theorem readString_length_le_zero (s : Store) (base : Nat) : ∀ (n i k : Nat),
    i ≤ k → k < i + n → EEPROM.read s (base + k) = 0 →
    (readString s base n i).length ≤ k - i := by
  intro n
  induction n with
  | zero => intro i k _ _ _; simp [readString]
  | succ m ih =>
    intro i k hik hk hz
    unfold readString
    simp only
    by_cases hc : EEPROM.read s (base + i) = 0
    · simp [hc]
    · rw [if_neg hc]
      have hne : i ≠ k := fun h => hc (h ▸ hz)
      have := ih (i + 1) k (by omega) (by omega) hz
      simp only [List.length_cons]
      omega

/-- The C string of a list is no longer than the list. -/
theorem cstr_length_le (l : List Nat) : (cstr l).length ≤ l.length := by
  unfold cstr
  exact (List.takeWhile_sublist _).length_le

/-! ## Lemmas on the status LED and the broadcast -/

@[simp] theorem flashOn_sent (a : Nat) (w : World) : (StatusLED.flashOn a w).sent = w.sent := by
  unfold StatusLED.flashOn; split_ifs <;> rfl

@[simp] theorem steadyOn_sent (a : Nat) (w : World) :
    (StatusLED.steadyOn a w).sent = w.sent := by
  unfold StatusLED.steadyOn; split_ifs <;> rfl

@[simp] theorem switchOff_sent (w : World) : (StatusLED.switchOff w).sent = w.sent := rfl

@[simp] theorem delay_sent (w : World) (ms : Nat) : (delay w ms).sent = w.sent := rfl

theorem flashLoop_sent (startTime onTime : Int) : ∀ (clk : List Nat) (led : StatusLED)
    (w : World) (led1 : StatusLED) (w1 : World),
    StatusLED.flashLoop startTime onTime clk led w = .ok (led1, w1) → w1.sent = w.sent := by
  intro clk
  induction clk with
  | nil =>
    intro led w led1 w1 h
    unfold StatusLED.flashLoop at h
    split at h
    · simp at h
    · simp only [Except.ok.injEq, Prod.mk.injEq] at h
      rw [← h.2]
  | cons t rest ih =>
    intro led w led1 w1 h
    unfold StatusLED.flashLoop at h
    split at h
    · simp only at h
      split at h
      · simp at h
      · split at h
        · simp at h
        · split at h
          · have := ih _ _ _ _ h
            simpa using this
          · exact ih _ _ _ _ h
    · simp only [Except.ok.injEq, Prod.mk.injEq] at h
      rw [← h.2]

theorem drive_sent (led : StatusLED) (w : World) (led1 : StatusLED) (w1 : World)
    (h : StatusLED.drive led w = .ok (led1, w1)) : w1.sent = w.sent := by
  unfold StatusLED.drive at h
  split at h
  · simp at h
  · split at h
    · split at h
      · simp at h
      · exact flashLoop_sent _ _ _ _ _ _ _ h
    · simp only [Except.ok.injEq, Prod.mk.injEq] at h
      rw [← h.2]; simp

theorem SetStatus_sent (led : StatusLED) (w : World) (status : Int) (alsoDrive : Bool)
    (wait : Nat) (led1 : StatusLED) (w1 : World)
    (h : StatusLED.SetStatus led w status alsoDrive wait = .ok (led1, w1)) :
    w1.sent = w.sent := by
  unfold StatusLED.SetStatus at h
  simp only [bind, Except.bind, pure, Except.pure] at h
  split at h
  · split at h
    · simp at h
    · rename_i v1 h1
      have e1 := drive_sent _ _ v1.1 v1.2 h1
      split at h
      · simp at h
      · rename_i v2 h2
        have e2 := drive_sent _ _ v2.1 v2.2 h2
        split at h
        · simp at h
        · rename_i v3 h3
          have e3 := drive_sent _ _ v3.1 v3.2 h3
          split at h
          · split at h
            · simp at h
            · rename_i v4 h4
              have e4 := drive_sent _ _ v4.1 v4.2 h4
              split at h <;>
                (simp only [Except.ok.injEq, Prod.mk.injEq] at h
                 rw [← h.2]
                 simp [e1, e2, e3, e4])
          · simp only [Except.ok.injEq, Prod.mk.injEq] at h
            rw [← h.2]
            simp [e1, e2, e3]
  · split at h
    · split at h
      · simp at h
      · rename_i v4 h4
        have e4 := drive_sent _ _ v4.1 v4.2 h4
        split at h <;>
          (simp only [Except.ok.injEq, Prod.mk.injEq] at h
           rw [← h.2]
           simp [e4])
    · simp only [Except.ok.injEq, Prod.mk.injEq] at h
      rw [← h.2]

@[simp] theorem flashOn_net (a : Nat) (w : World) :
    (StatusLED.flashOn a w).tx = w.tx ∧ (StatusLED.flashOn a w).localIP = w.localIP ∧
      (StatusLED.flashOn a w).inbox = w.inbox := by
  unfold StatusLED.flashOn; split_ifs <;> exact ⟨rfl, rfl, rfl⟩

@[simp] theorem steadyOn_net (a : Nat) (w : World) :
    (StatusLED.steadyOn a w).tx = w.tx ∧ (StatusLED.steadyOn a w).localIP = w.localIP ∧
      (StatusLED.steadyOn a w).inbox = w.inbox ∧ (StatusLED.steadyOn a w).clock = w.clock := by
  unfold StatusLED.steadyOn; split_ifs <;> exact ⟨rfl, rfl, rfl, rfl⟩

/-- What the flash loop leaves alone: the network side of the world and every member of the
LED but `flashCount`, which ends at 0 when it was positive. -/
theorem flashLoop_frame (startTime onTime : Int) : ∀ (clk : List Nat) (led : StatusLED)
    (w : World) (led1 : StatusLED) (w1 : World),
    StatusLED.flashLoop startTime onTime clk led w = .ok (led1, w1) →
    (w1.tx = w.tx ∧ w1.localIP = w.localIP ∧ w1.inbox = w.inbox) ∧
      led1 = { led with flashCount := min led.flashCount 0 } := by
  intro clk
  induction clk with
  | nil =>
    intro led w led1 w1 h
    unfold StatusLED.flashLoop at h
    split at h
    · simp at h
    · rename_i hpos
      simp only [Except.ok.injEq, Prod.mk.injEq] at h
      obtain ⟨h1, h2⟩ := h
      subst h1 h2
      have : min led.flashCount 0 = led.flashCount := by omega
      exact ⟨⟨rfl, rfl, rfl⟩, by rw [this]⟩
  | cons t rest ih =>
    intro led w led1 w1 h
    unfold StatusLED.flashLoop at h
    split at h
    · rename_i hpos
      simp only at h
      split at h
      · simp at h
      · split at h
        · simp at h
        · split at h
          · obtain ⟨⟨a1, a2, a3⟩, b⟩ := ih _ _ _ _ h
            refine ⟨⟨?_, ?_, ?_⟩, ?_⟩
            · rw [a1]; simp [delay, StatusLED.switchOff]
            · rw [a2]; simp [delay, StatusLED.switchOff]
            · rw [a3]; simp [delay, StatusLED.switchOff]
            · rw [b]
              have : min (led.flashCount - 1) 0 = min led.flashCount 0 := by omega
              simp [this]
          · exact ih _ _ _ _ h
    · rename_i hpos
      simp only [Except.ok.injEq, Prod.mk.injEq] at h
      obtain ⟨h1, h2⟩ := h
      subst h1 h2
      have : min led.flashCount 0 = led.flashCount := by omega
      exact ⟨⟨rfl, rfl, rfl⟩, by rw [this]⟩

/-- What `drive` leaves alone. -/
theorem drive_frame (led : StatusLED) (w : World) (led1 : StatusLED) (w1 : World)
    (h : StatusLED.drive led w = .ok (led1, w1)) :
    (w1.tx = w.tx ∧ w1.localIP = w.localIP ∧ w1.inbox = w.inbox) ∧
      led1 = { led with flashCount := if led.flash then min led.flashCount 0
                                      else led.flashCount } := by
  unfold StatusLED.drive at h
  split at h
  · simp at h
  · split at h
    · rename_i hf
      split at h
      · simp at h
      · have := flashLoop_frame _ _ _ _ _ _ _ h
        simpa [hf] using this
    · rename_i hf
      simp only [Except.ok.injEq, Prod.mk.injEq] at h
      obtain ⟨h1, h2⟩ := h
      subst h1 h2
      refine ⟨by simp [StatusLED.switchOff], ?_⟩
      rw [if_neg hf]

theorem pattern_status (led : StatusLED) (status : Int) :
    (StatusLED.pattern led status).status = led.status := by
  simp only [StatusLED.pattern, apply_ite StatusLED.status, StatusLED.setActiveLED, ite_self]

/-- `SetStatus` without `BOOTED`: the pattern of the status, driven once when asked. -/
theorem SetStatus_eq (led : StatusLED) (w : World) (status : Int) (alsoDrive : Bool)
    (wait : Nat) (hs : status ≠ BOOTED) :
    StatusLED.SetStatus led w status alsoDrive wait =
      if alsoDrive then
        match StatusLED.drive
          (StatusLED.pattern { led with flash := false, status := status } status) w with
        | .error e => .error e
        | .ok (led2, w2) => if wait ≠ 0 then .ok (led2, delay w2 wait) else .ok (led2, w2)
      else .ok (StatusLED.pattern { led with flash := false, status := status } status, w) := by
  simp only [StatusLED.SetStatus, bind, Except.bind, pure, Except.pure]
  rw [if_neg hs]
  cases alsoDrive with
  | false => simp
  | true =>
    simp only [if_true]
    cases StatusLED.drive
      (StatusLED.pattern { led with flash := false, status := status } status) w with
    | error e => rfl
    | ok r => rfl

/-- What `SetStatus` leaves alone, and the status it records. -/
theorem SetStatus_frame (led : StatusLED) (w : World) (status : Int) (alsoDrive : Bool)
    (wait : Nat) (led1 : StatusLED) (w1 : World)
    (h : StatusLED.SetStatus led w status alsoDrive wait = .ok (led1, w1)) :
    (w1.tx = w.tx ∧ w1.localIP = w.localIP ∧ w1.inbox = w.inbox) ∧ led1.status = status := by
  by_cases hs : status = BOOTED
  · unfold StatusLED.SetStatus at h
    simp only [bind, Except.bind, pure, Except.pure, if_pos hs] at h
    split at h
    · simp at h
    · rename_i v1 h1
      obtain ⟨⟨a1, a2, a3⟩, l1⟩ := drive_frame _ _ v1.1 v1.2 h1
      split at h
      · simp at h
      · rename_i v2 h2
        obtain ⟨⟨b1, b2, b3⟩, l2⟩ := drive_frame _ _ v2.1 v2.2 h2
        split at h
        · simp at h
        · rename_i v3 h3
          obtain ⟨⟨c1, c2, c3⟩, l3⟩ := drive_frame _ _ v3.1 v3.2 h3
          have hst : v3.1.status = status := by
            rw [l3]; simp only [StatusLED.setActiveLED]
            rw [l2]; simp only [StatusLED.setActiveLED]
            rw [l1]; simp only [StatusLED.setActiveLED]
          split at h
          · split at h
            · simp at h
            · rename_i v4 h4
              obtain ⟨⟨d1, d2, d3⟩, l4⟩ := drive_frame _ _ v4.1 v4.2 h4
              have hst4 : v4.1.status = status := by rw [l4]; exact hst
              split at h <;>
                (simp only [Except.ok.injEq, Prod.mk.injEq] at h
                 obtain ⟨e1, e2⟩ := h
                 subst e1 e2
                 refine ⟨⟨?_, ?_, ?_⟩, hst4⟩
                 · simp [delay, d1, c1, b1, a1]
                 · simp [delay, d2, c2, b2, a2]
                 · simp [delay, d3, c3, b3, a3])
          · simp only [Except.ok.injEq, Prod.mk.injEq] at h
            obtain ⟨e1, e2⟩ := h
            subst e1 e2
            exact ⟨⟨by rw [c1, b1, a1], by rw [c2, b2, a2], by rw [c3, b3, a3]⟩, hst⟩
  · rw [SetStatus_eq led w status alsoDrive wait hs] at h
    cases alsoDrive with
    | false =>
      simp only [Bool.false_eq_true, if_false, Except.ok.injEq, Prod.mk.injEq] at h
      obtain ⟨e1, e2⟩ := h
      subst e1 e2
      exact ⟨⟨rfl, rfl, rfl⟩, by rw [pattern_status]⟩
    | true =>
      simp only [if_true] at h
      split at h
      · simp at h
      · rename_i led2 w2 h2
        obtain ⟨⟨d1, d2, d3⟩, l4⟩ := drive_frame _ _ led2 w2 h2
        have hst : led2.status = status := by rw [l4]; simp [pattern_status]
        split at h <;>
          (simp only [Except.ok.injEq, Prod.mk.injEq] at h
           obtain ⟨e1, e2⟩ := h
           subst e1 e2
           refine ⟨⟨?_, ?_, ?_⟩, hst⟩
           · simp [delay, d1]
           · simp [delay, d2]
           · simp [delay, d3])

theorem ite_ind {Q : StatusLED → Prop} {c : Prop} [Decidable c] {a b : StatusLED}
    (ha : Q a) (hb : Q b) : Q (if c then a else b) := by
  split <;> assumption

theorem setActiveLED_wellPat (led : StatusLED) (color : Nat) (flash : Bool) (n d r : Int)
    (h : 0 ≤ n ∧ r ≠ 0 ∧ Int.tdiv d r ∣ 2000 ∧ 0 < Int.tdiv (Int.tdiv d r) 2) :
    WellPat (StatusLED.setActiveLED led color flash n d r) := fun _ => h

/-- Every pattern of the `switch` of `SetStatus` can be rendered from a script on the beat. -/
theorem pattern_wellPat (led : StatusLED) (status : Int) :
    WellPat (StatusLED.pattern led status) := by
  unfold StatusLED.pattern
  repeat' apply ite_ind
  all_goals exact setActiveLED_wellPat _ _ _ _ _ _ (by decide)

theorem toInt32_of_lt (t : Nat) (h : t < 2147483648) : toInt32 t = (t : Int) := by
  unfold toInt32
  have h1 : t % 4294967296 = t := Nat.mod_eq_of_lt (by omega)
  rw [h1, if_pos h]

/-- Two readings on the beat are a whole number of periods apart. -/
theorem onBeat_phase (t s : Nat) (P : Int) (ht : t % 2000 = 0 ∧ t < 2147483648)
    (hs : s % 2000 = 0 ∧ s < 2147483648) (hP : P ∣ 2000) :
    Int.tmod (wrapInt32 (toInt32 t - toInt32 s)) P = 0 := by
  rw [toInt32_of_lt t ht.2, toInt32_of_lt s hs.2]
  have hw : wrapInt32 ((t : Int) - s) = (t : Int) - s := by
    unfold wrapInt32; omega
  rw [hw]
  apply Int.tmod_eq_zero_of_dvd
  have h1 : (2000 : Int) ∣ (t : Int) := by omega
  have h2 : (2000 : Int) ∣ (s : Int) := by omega
  exact Dvd.dvd.trans hP (Dvd.dvd.sub h1 h2)

/-- On a script on the beat every reading starts a flash: the flash loop takes exactly
`flashCount` readings. -/
theorem flashLoop_onBeat (s : Nat) (onTime : Int) (hs : s % 2000 = 0 ∧ s < 2147483648)
    (hon : 0 < onTime) : ∀ (n : Nat) (clk : List Nat) (led : StatusLED) (w : World),
    led.flashCount = (n : Int) → led.flashRate ≠ 0 →
    Int.tdiv led.duration led.flashRate ∣ 2000 → OnBeat (clk.take n) → n ≤ clk.length →
    ∃ w1, StatusLED.flashLoop (toInt32 s) onTime clk led w =
        .ok ({ led with flashCount := 0 }, w1) ∧ w1.clock = clk.drop n := by
  intro n
  induction n with
  | zero =>
    intro clk led w hn _ _ _ _
    unfold StatusLED.flashLoop
    have h0 : ¬ led.flashCount > 0 := by simp at hn; omega
    rw [if_neg h0]
    refine ⟨{ w with clock := clk }, ?_, by simp⟩
    have : led.flashCount = 0 := by simpa using hn
    rw [← this]
  | succ n ih =>
    intro clk led w hn hr hP hob hlen
    cases clk with
    | nil => simp at hlen
    | cons t rest =>
      have hpos : led.flashCount > 0 := by rw [hn]; push_cast; omega
      have hP0 : Int.tdiv led.duration led.flashRate ≠ 0 := by
        intro h0; rw [h0] at hP; simp at hP
      have hph := onBeat_phase t s _ (hob t (by simp)) hs hP
      have hobr : OnBeat (rest.take n) := fun u hu => hob u (by simp [hu])
      unfold StatusLED.flashLoop
      simp only [hpos, if_true, hr, hP0, if_false, hph, hon]
      obtain ⟨w1, hrun, hclk⟩ := ih rest { led with flashCount := led.flashCount - 1 }
        (delay (StatusLED.switchOff (delay (StatusLED.flashOn led.activeLED w)
          (toUInt32 onTime))) (toUInt32 onTime))
        (by simp only [hn]; push_cast; omega) hr hP hobr
        (by simpa using hlen)
      exact ⟨w1, by rw [hrun], by simpa using hclk⟩

/-- `drive` on a script on the beat: it takes `readingsOf led` readings and leaves a flashing
pattern with `flashCount = 0`. -/
theorem drive_onBeat (led : StatusLED) (w : World) (hp : WellPat led)
    (hob : OnBeat (w.clock.take (readingsOf led))) (hlen : readingsOf led ≤ w.clock.length) :
    ∃ w1, StatusLED.drive led w =
        .ok ({ led with flashCount := if led.flash then 0 else led.flashCount }, w1) ∧
      w1.clock = w.clock.drop (readingsOf led) := by
  unfold StatusLED.drive
  cases hclk : w.clock with
  | nil => rw [hclk] at hlen; simp [readingsOf] at hlen
  | cons s clk =>
    simp only
    have hro : readingsOf led = (if led.flash = true then led.flashCount.toNat else 0) + 1 := by
      unfold readingsOf; omega
    rw [hclk, hro, List.take_succ_cons] at hob
    rw [hro, List.drop_succ_cons]
    by_cases hf : led.flash = true
    · obtain ⟨h0, hr, hP, hon⟩ := hp hf
      rw [hclk] at hlen
      rw [hro, if_pos hf, List.length_cons] at hlen
      rw [if_pos hf] at hob
      obtain ⟨w1, hrun, hc⟩ := flashLoop_onBeat s _ (hob s (by simp)) hon led.flashCount.toNat
        clk led w (by rw [Int.toNat_of_nonneg h0]) hr hP
        (fun u hu => hob u (List.mem_cons_of_mem _ hu)) (by omega)
      rw [if_pos hf, if_neg hr, hrun, if_pos hf, if_pos hf]
      exact ⟨w1, rfl, hc⟩
    · rw [if_neg hf, if_neg hf, if_neg hf]
      exact ⟨_, rfl, by simp [StatusLED.switchOff]⟩

/-- The flash loop returns as soon as the script holds enough readings in the on half of a
period. -/
theorem flashLoop_returns (startTime onTime : Int) : ∀ (clk : List Nat) (led : StatusLED)
    (w : World), led.flashRate ≠ 0 → Int.tdiv led.duration led.flashRate ≠ 0 →
    led.flashCount.toNat ≤ (clk.filter (fun t => decide
      (Int.tmod (wrapInt32 (toInt32 t - startTime)) (Int.tdiv led.duration led.flashRate)
        < onTime))).length →
    ∃ r, StatusLED.flashLoop startTime onTime clk led w = .ok r := by
  intro clk
  induction clk with
  | nil =>
    intro led w _ _ hc
    unfold StatusLED.flashLoop
    have : ¬ led.flashCount > 0 := by
      simp only [List.filter_nil, List.length_nil, Nat.le_zero_eq, Int.toNat_eq_zero] at hc
      omega
    simp [this]
  | cons t rest ih =>
    intro led w hr hp hc
    unfold StatusLED.flashLoop
    by_cases hpos : led.flashCount > 0
    · simp only [hpos, if_true, hr, hp, if_false]
      by_cases hon : Int.tmod (wrapInt32 (toInt32 t - startTime))
          (Int.tdiv led.duration led.flashRate) < onTime
      · rw [if_pos hon]
        refine ih { led with flashCount := led.flashCount - 1 } _ hr hp ?_
        simp only [List.filter_cons, hon, decide_True, if_true, List.length_cons] at hc
        simp only
        omega
      · rw [if_neg hon]
        refine ih led w hr hp ?_
        simpa [List.filter_cons, hon] using hc
    · simp [hpos]

/-- `drive` returns when one reading is left for its start time and, for a flashing pattern,
the following readings let the flash loop complete. -/
theorem drive_returns (led : StatusLED) (w : World) (t : Nat) (clk : List Nat)
    (hclk : w.clock = t :: clk)
    (hflash : led.flash = true → led.flashRate ≠ 0 ∧ Int.tdiv led.duration led.flashRate ≠ 0 ∧
      led.flashCount.toNat ≤ onReadings (Int.tdiv led.duration led.flashRate) t clk) :
    ∃ r, StatusLED.drive led w = .ok r := by
  unfold StatusLED.drive
  rw [hclk]
  simp only
  by_cases hf : led.flash = true
  · obtain ⟨h1, h2, h3⟩ := hflash hf
    simp only [hf, if_true, h1, if_false]
    exact flashLoop_returns _ _ clk led w h1 h2 h3
  · simp [hf]

/-- The `switch (activeLED)` of the flashing branch raises the outputs of the colour, red
and green for `'a'`, and leaves the others as they are; it logs nothing. -/
theorem flashOn_levels (a : Nat) (w : World) :
    ((StatusLED.flashOn a w).red, (StatusLED.flashOn a w).green, (StatusLED.flashOn a w).blue) =
        (w.red || decide (a = chr_a ∨ a = chr_r), w.green || decide (a = chr_a ∨ a = chr_g),
          w.blue || decide (a = chr_b)) ∧
      (StatusLED.flashOn a w).delays = w.delays ∧ (StatusLED.flashOn a w).held = w.held := by
  unfold StatusLED.flashOn
  by_cases ha : a = chr_a
  · subst ha; simp [chr_a, chr_r, chr_g, chr_b]
  · by_cases hr : a = chr_r
    · subst hr; simp [chr_a, chr_r, chr_g, chr_b]
    · by_cases hg : a = chr_g
      · subst hg; simp [chr_a, chr_r, chr_g, chr_b]
      · by_cases hb : a = chr_b
        · subst hb; simp [chr_a, chr_r, chr_g, chr_b]
        · simp [ha, hr, hg, hb]

/-- What the flash loop does when the script holds enough readings in the on half of a
period: one on/off cycle per unit of `flashCount`, each made of a delay of `onTime` ms with
the colour's outputs high and a delay of `onTime` ms with all outputs low; it leaves
`flashCount` at 0 and the outputs off when there was a cycle, and changes nothing but the
clock when there was none. In the first on phase the outputs that were high before stay
high. -/
theorem flashLoop_cycles (startTime onTime : Int) : ∀ (clk : List Nat) (led : StatusLED)
    (w : World), led.flashRate ≠ 0 → Int.tdiv led.duration led.flashRate ≠ 0 →
    led.flashCount.toNat ≤ (clk.filter (fun t => decide
      (Int.tmod (wrapInt32 (toInt32 t - startTime)) (Int.tdiv led.duration led.flashRate)
        < onTime))).length →
    ∃ w1, StatusLED.flashLoop startTime onTime clk led w =
        .ok ({ led with flashCount := min led.flashCount 0 }, w1) ∧
      w1.delays = w.delays ++ List.replicate (2 * led.flashCount.toNat) (toUInt32 onTime) ∧
      w1.held = w.held ++
        (if 0 < led.flashCount then
          [(w.red || decide (led.activeLED = chr_a ∨ led.activeLED = chr_r),
            w.green || decide (led.activeLED = chr_a ∨ led.activeLED = chr_g),
            w.blue || decide (led.activeLED = chr_b)), (false, false, false)] ++
          (List.replicate (led.flashCount.toNat - 1)
            [(decide (led.activeLED = chr_a ∨ led.activeLED = chr_r),
              decide (led.activeLED = chr_a ∨ led.activeLED = chr_g),
              decide (led.activeLED = chr_b)), (false, false, false)]).flatten
        else []) ∧
      (0 < led.flashCount → w1.red = false ∧ w1.green = false ∧ w1.blue = false) ∧
      (led.flashCount ≤ 0 → ∃ rest, w1 = { w with clock := rest }) := by
  intro clk
  induction clk with
  | nil =>
    intro led w _ _ hc
    have h0 : ¬ led.flashCount > 0 := by
      simp only [List.filter_nil, List.length_nil, Nat.le_zero_eq, Int.toNat_eq_zero] at hc
      omega
    have h0' : ¬ 0 < led.flashCount := h0
    have hmin : min led.flashCount 0 = led.flashCount := by omega
    have hn : led.flashCount.toNat = 0 := by omega
    refine ⟨{ w with clock := [] }, ?_, by simp [hn], by simp [h0'], fun h => absurd h h0,
      fun _ => ⟨_, rfl⟩⟩
    unfold StatusLED.flashLoop
    rw [if_neg h0, hmin]
  | cons t rest ih =>
    intro led w hr hp hc
    by_cases hpos : led.flashCount > 0
    · have hpos' : 0 < led.flashCount := hpos
      by_cases hon : Int.tmod (wrapInt32 (toInt32 t - startTime))
          (Int.tdiv led.duration led.flashRate) < onTime
      · obtain ⟨w1, hrun, hd, hh, hoff, hsame⟩ :=
          ih { led with flashCount := led.flashCount - 1 }
          (delay (StatusLED.switchOff (delay (StatusLED.flashOn led.activeLED w)
            (toUInt32 onTime))) (toUInt32 onTime)) hr hp (by
            simp only [List.filter_cons, hon, decide_True, if_true, List.length_cons] at hc
            simp only
            omega)
        obtain ⟨hlv, hfd, hfh⟩ := flashOn_levels led.activeLED w
        refine ⟨w1, ?_, ?_, ?_, fun _ => ?_, fun h => absurd hpos (by omega)⟩
        · unfold StatusLED.flashLoop
          simp only [hpos, if_true, hr, hp, if_false, hon]
          rw [hrun]
          have hmin : min (led.flashCount - 1) 0 = min led.flashCount 0 := by omega
          simp only [hmin]
        · rw [hd]
          have hn : led.flashCount.toNat = (led.flashCount - 1).toNat + 1 := by omega
          have hrep : List.replicate (2 * ((led.flashCount - 1).toNat + 1)) (toUInt32 onTime) =
              toUInt32 onTime :: toUInt32 onTime ::
                List.replicate (2 * (led.flashCount - 1).toNat) (toUInt32 onTime) := rfl
          rw [hn, hrep]
          simp only [delay, StatusLED.switchOff, hfd, List.append_assoc, List.singleton_append]
          rfl
        · rw [hh, if_pos hpos']
          have hw4 : (delay (StatusLED.switchOff (delay (StatusLED.flashOn led.activeLED w)
              (toUInt32 onTime))) (toUInt32 onTime)).held =
              w.held ++ [(w.red || decide (led.activeLED = chr_a ∨ led.activeLED = chr_r),
                w.green || decide (led.activeLED = chr_a ∨ led.activeLED = chr_g),
                w.blue || decide (led.activeLED = chr_b)), (false, false, false)] := by
            simp only [delay, StatusLED.switchOff, hfh, List.append_assoc,
              List.singleton_append]
            rw [hlv]
          rw [hw4]
          simp only [delay, StatusLED.switchOff, Bool.false_or, List.append_assoc]
          by_cases h1 : 0 < led.flashCount - 1
          · have hk : led.flashCount.toNat - 1 = ((led.flashCount - 1).toNat - 1) + 1 := by
              omega
            rw [if_pos h1, hk, List.replicate_succ, List.flatten_cons]
          · have hk : led.flashCount.toNat - 1 = 0 := by omega
            rw [if_neg h1, hk]
            simp
        · by_cases h1 : 0 < led.flashCount - 1
          · exact hoff h1
          · obtain ⟨rest1, hw1⟩ := hsame (by simp only; omega)
            rw [hw1]
            exact ⟨rfl, rfl, rfl⟩
      · obtain ⟨w1, hrun, hd, hh, hoff, hsame⟩ := ih led w hr hp (by
          simpa [List.filter_cons, hon] using hc)
        refine ⟨w1, ?_, hd, hh, hoff, hsame⟩
        unfold StatusLED.flashLoop
        simp only [hpos, if_true, hr, hp, if_false, hon]
        exact hrun
    · have hpos' : ¬ 0 < led.flashCount := hpos
      have hmin : min led.flashCount 0 = led.flashCount := by omega
      have hn : led.flashCount.toNat = 0 := by omega
      refine ⟨{ w with clock := t :: rest }, ?_, by simp [hn], by simp [hpos'],
        fun h => absurd h hpos, fun _ => ⟨_, rfl⟩⟩
      unfold StatusLED.flashLoop
      rw [if_neg hpos, hmin]

/-- A flashing pattern with nothing left to flash: `drive` takes its one clock reading and
changes nothing else. -/
theorem drive_spent (led : StatusLED) (w : World) (t : Nat) (clk : List Nat)
    (hclk : w.clock = t :: clk) (hf : led.flash = true) (hr : led.flashRate ≠ 0)
    (h0 : led.flashCount ≤ 0) :
    StatusLED.drive led w = .ok (led, { w with clock := clk }) := by
  have hnp : ¬ led.flashCount > 0 := by omega
  unfold StatusLED.drive
  rw [hclk]
  simp only [hf, if_true, hr, if_false]
  unfold StatusLED.flashLoop
  rw [if_neg hnp]

/-- The steady branch of `drive`. -/
theorem drive_steady (led : StatusLED) (w : World) (t : Nat) (clk : List Nat)
    (hclk : w.clock = t :: clk) (hf : led.flash = false) :
    StatusLED.drive led w =
      .ok (led, StatusLED.steadyOn led.activeLED (StatusLED.switchOff { w with clock := clk })) := by
  unfold StatusLED.drive
  rw [hclk]
  simp only [hf, Bool.false_eq_true, if_false]

/-- The outputs after the steady branch: the one named by the colour letter, if it is `'r'`,
`'g'` or `'b'`; nothing is logged. -/
theorem steadyOn_outputs (a : Nat) (w : World) :
    (StatusLED.steadyOn a (StatusLED.switchOff w)).red = decide (a = chr_r) ∧
      (StatusLED.steadyOn a (StatusLED.switchOff w)).green = decide (a = chr_g) ∧
      (StatusLED.steadyOn a (StatusLED.switchOff w)).blue = decide (a = chr_b) ∧
      (StatusLED.steadyOn a (StatusLED.switchOff w)).delays = w.delays ∧
      (StatusLED.steadyOn a (StatusLED.switchOff w)).held = w.held := by
  unfold StatusLED.steadyOn StatusLED.switchOff
  by_cases hr : a = chr_r
  · subst hr; simp [chr_r, chr_g, chr_b]
  · by_cases hg : a = chr_g
    · subst hg; simp [chr_r, chr_g, chr_b]
    · by_cases hb : a = chr_b
      · subst hb; simp [chr_r, chr_g, chr_b]
      · simp [hr, hg, hb]

/-- Setting the steady output again changes nothing. -/
theorem steadyOn_again (a : Nat) (w : World) (clk : List Nat) :
    StatusLED.steadyOn a (StatusLED.switchOff
        { StatusLED.steadyOn a (StatusLED.switchOff w) with clock := clk }) =
      { StatusLED.steadyOn a (StatusLED.switchOff w) with clock := clk } := by
  unfold StatusLED.steadyOn StatusLED.switchOff
  split_ifs <;> rfl

/-- A returning call of `drive` on a flashing pattern had a non-zero rate divisor. -/
theorem drive_ok_rate (led : StatusLED) (w : World) (r : StatusLED × World)
    (h : StatusLED.drive led w = .ok r) (hf : led.flash = true) : led.flashRate ≠ 0 := by
  intro h0
  unfold StatusLED.drive at h
  split at h
  · simp at h
  · simp [hf, h0] at h

/-- A second call of `drive` right after a returning one takes one clock reading and changes
nothing else. -/
theorem drive_again (led : StatusLED) (w : World) (led1 : StatusLED) (w1 : World)
    (h : StatusLED.drive led w = .ok (led1, w1)) (t : Nat) (clk : List Nat)
    (hclk : w1.clock = t :: clk) :
    StatusLED.drive led1 w1 = .ok (led1, { w1 with clock := clk }) := by
  have hfr := (drive_frame led w led1 w1 h).2
  by_cases hf : led.flash = true
  · have hr := drive_ok_rate led w _ h hf
    refine drive_spent led1 w1 t clk hclk (by rw [hfr]; exact hf) (by rw [hfr]; exact hr) ?_
    rw [hfr]
    simp only [hf, if_true]
    omega
  · have hf' : led.flash = false := by simpa using hf
    obtain ⟨a, f, d, r, n, st⟩ := led
    simp only at hf'
    subst hf'
    have hl : led1 = ⟨a, false, d, r, n, st⟩ := by rw [hfr]; rfl
    subst hl
    cases hc : w.clock with
    | nil => unfold StatusLED.drive at h; rw [hc] at h; simp at h
    | cons t0 clk0 =>
      rw [drive_steady _ w t0 clk0 hc rfl] at h
      simp only [Except.ok.injEq, Prod.mk.injEq, true_and] at h
      rw [drive_steady _ w1 t clk hclk rfl, ← h]
      rw [steadyOn_again]

theorem pattern_sent (led : StatusLED) :
    StatusLED.pattern led UDP_BROADCAST_SENT = StatusLED.setActiveLED led chr_b true 2 100 1 :=
  rfl

theorem pattern_failed (led : StatusLED) :
    StatusLED.pattern led UDP_BROADCAST_FAILED =
      StatusLED.setActiveLED led chr_r true 3 1000 1 :=
  rfl

theorem pattern_unknown (led : StatusLED) :
    StatusLED.pattern led UDP_UNKNOWN_ERROR = StatusLED.setActiveLED led chr_r true 10 1000 1 :=
  rfl

/-- `SetStatus(status, true)` for a status other than `BOOTED` returns when `drive` returns
on the pattern of the status. -/
theorem SetStatus_returns (led : StatusLED) (w : World) (status : Int)
    (hs : status ≠ BOOTED)
    (hd : ∃ r, StatusLED.drive
      (StatusLED.pattern { led with flash := false, status := status } status) w = .ok r) :
    ∃ r, StatusLED.SetStatus led w status true 0 = .ok r := by
  obtain ⟨r, hr⟩ := hd
  refine ⟨r, ?_⟩
  simp only [StatusLED.SetStatus, bind, Except.bind, pure, Except.pure]
  rw [if_neg hs]
  simp [hr]

/-- The three calls of `SetStatus` made by `broadcastIP` return when the script lets the LED
flash: 2 cycles of period 100 after a success, up to 10 cycles of period 1000 after a
failure. -/
theorem SetStatus_udp_returns (led : StatusLED) (w : World) (t : Nat) (clk : List Nat)
    (hclk : w.clock = t :: clk) :
    (2 ≤ onReadings 100 t clk →
        ∃ r, StatusLED.SetStatus led w UDP_BROADCAST_SENT true 0 = .ok r) ∧
      (10 ≤ onReadings 1000 t clk →
        (∃ r, StatusLED.SetStatus led w UDP_BROADCAST_FAILED true 0 = .ok r) ∧
        (∃ r, StatusLED.SetStatus led w UDP_UNKNOWN_ERROR true 0 = .ok r)) := by
  refine ⟨fun h => ?_, fun h => ⟨?_, ?_⟩⟩
  · apply SetStatus_returns _ _ _ (by decide)
    rw [pattern_sent]
    exact drive_returns _ w t clk hclk (fun _ =>
      ⟨show (1 : Int) ≠ 0 by decide, show Int.tdiv 100 1 ≠ 0 by decide, h⟩)
  · apply SetStatus_returns _ _ _ (by decide)
    rw [pattern_failed]
    exact drive_returns _ w t clk hclk (fun _ =>
      ⟨show (1 : Int) ≠ 0 by decide, show Int.tdiv 1000 1 ≠ 0 by decide,
        le_trans (show (3 : Int).toNat ≤ 10 by decide) h⟩)
  · apply SetStatus_returns _ _ _ (by decide)
    rw [pattern_unknown]
    exact drive_returns _ w t clk hclk (fun _ =>
      ⟨show (1 : Int) ≠ 0 by decide, show Int.tdiv 1000 1 ≠ 0 by decide, h⟩)

theorem millis_ok (w : World) (t : Nat) (w1 : World) (h : millis w = .ok (t, w1)) :
    ∃ clk, w.clock = t :: clk ∧ w1 = { w with clock := clk } := by
  unfold millis at h
  split at h
  · simp at h
  · rename_i t0 clk hc
    simp only [Except.ok.injEq, Prod.mk.injEq] at h
    exact ⟨clk, by rw [hc, h.1], h.2.symm⟩

theorem millis_cons (w : World) (t : Nat) (clk : List Nat) (h : w.clock = t :: clk) :
    millis w = .ok (t, { w with clock := clk }) := by
  unfold millis
  rw [h]

/-- The broadcast that ends `checkIncomingClients` leaves the peer session alone and
attempts at most one transmission, addressed to the broadcast address on `LOCAL_PORT`. -/
theorem broadcastIP_frame (c : WifiController) (w : World) (timer : Nat)
    (c1 : WifiController) (w1 : World)
    (h : WifiController.broadcastIP c w timer = .ok (c1, w1)) :
    c1.client = c.client ∧ c1.connected = c.connected ∧ c1.lastPingTime = c.lastPingTime ∧
      c1.udp = c.udp ∧
      (w1.sent = w.sent ∨ ∃ dl, w1.sent = w.sent ++
        [⟨{ w.localIP with o3 := 255 }, LOCAL_PORT, cstr (dotted w.localIP ++ [0]), dl⟩]) := by
  unfold WifiController.broadcastIP at h
  simp only [bind, Except.bind, pure, Except.pure] at h
  split at h
  · simp at h
  · rename_i v0 h0
    obtain ⟨clk0, _, hw0⟩ := millis_ok w v0.1 v0.2 h0
    have hs0 : v0.2.sent = w.sent := by rw [hw0]
    have hl0 : v0.2.localIP = w.localIP := by rw [hw0]
    split at h
    · split at h
      · split at h
        · simp at h
        · rename_i v1 h1
          obtain ⟨clk1, _, hw1⟩ := millis_ok _ v1.1 v1.2 h1
          split at h
          · simp at h
          · rename_i v2 h2
            have e2 := SetStatus_sent _ _ _ _ _ v2.1 v2.2 h2
            simp only [Except.ok.injEq, Prod.mk.injEq] at h
            obtain ⟨hc, hw⟩ := h
            subst hc hw
            refine ⟨rfl, rfl, rfl, rfl, Or.inr ⟨(v0.2.tx v0.2.sent.length).endPacket, ?_⟩⟩
            rw [e2, hw1, hs0, hl0]
      · split at h
        · split at h
          · simp at h
          · rename_i v2 h2
            have e2 := SetStatus_sent _ _ _ _ _ v2.1 v2.2 h2
            simp only [Except.ok.injEq, Prod.mk.injEq] at h
            obtain ⟨hc, hw⟩ := h
            subst hc hw
            refine ⟨rfl, rfl, rfl, rfl, Or.inr ⟨(v0.2.tx v0.2.sent.length).endPacket, ?_⟩⟩
            rw [e2, hs0, hl0]
        · split at h
          · simp at h
          · rename_i v2 h2
            have e2 := SetStatus_sent _ _ _ _ _ v2.1 v2.2 h2
            simp only [Except.ok.injEq, Prod.mk.injEq] at h
            obtain ⟨hc, hw⟩ := h
            subst hc hw
            refine ⟨rfl, rfl, rfl, rfl, Or.inr ⟨(v0.2.tx v0.2.sent.length).endPacket, ?_⟩⟩
            rw [e2, hs0, hl0]
    · simp only [Except.ok.injEq, Prod.mk.injEq] at h
      obtain ⟨hc, hw⟩ := h
      subst hc hw
      exact ⟨rfl, rfl, rfl, rfl, Or.inl hs0⟩

/-- `broadcastIP` returns when the clock script holds the readings it takes: one for the
interval test and, when a send is attempted, one for `lastBroadcastTime` after a success and
those that let the LED flash (2 cycles of period 100 after a success, up to 10 cycles of
period 1000 after a failure). -/
theorem broadcastIP_returns (c : WifiController) (w : World) (timer t2 : Nat)
    (clk2 : List Nat) (hclk : w.clock = t2 :: clk2)
    (hscript : timer ≤ sub32 t2 c.lastBroadcastTime →
      ((w.tx w.sent.length).endPacket = true →
        ∃ t3 t4 clk4, clk2 = t3 :: t4 :: clk4 ∧ 2 ≤ onReadings 100 t4 clk4) ∧
      ((w.tx w.sent.length).endPacket = false →
        ∃ t4 clk4, clk2 = t4 :: clk4 ∧ 10 ≤ onReadings 1000 t4 clk4)) :
    ∃ r, WifiController.broadcastIP c w timer = .ok r := by
  unfold WifiController.broadcastIP
  simp only [bind, Except.bind, pure, Except.pure, millis_cons w t2 clk2 hclk]
  by_cases hdue : timer ≤ sub32 t2 c.lastBroadcastTime
  · obtain ⟨hok, hfail⟩ := hscript hdue
    simp only [ge_iff_le, hdue, if_true]
    cases he : (w.tx w.sent.length).endPacket with
    | true =>
      obtain ⟨t3, t4, clk4, hc, hn⟩ := hok he
      subst hc
      simp only [if_true, millis]
      obtain ⟨r, hr⟩ := (SetStatus_udp_returns c.led
        { w with clock := t4 :: clk4, sent := w.sent ++
          [⟨{ w.localIP with o3 := 255 }, LOCAL_PORT, cstr (dotted w.localIP ++ [0]), true⟩] }
        t4 clk4 rfl).1 hn
      simp only [hr]
      exact ⟨_, rfl⟩
    | false =>
      obtain ⟨t4, clk4, hc, hn⟩ := hfail he
      subst hc
      simp only [Bool.false_eq_true, if_false]
      obtain ⟨⟨r1, hr1⟩, ⟨r2, hr2⟩⟩ := (SetStatus_udp_returns c.led
        { w with clock := t4 :: clk4, sent := w.sent ++
          [⟨{ w.localIP with o3 := 255 }, LOCAL_PORT, cstr (dotted w.localIP ++ [0]), false⟩] }
        t4 clk4 rfl).2 hn
      by_cases hwe : (w.tx w.sent.length).writeError ≠ 0
      · simp only [hwe, if_true, ne_eq, not_false_eq_true, hr1]
        exact ⟨_, rfl⟩
      · simp only [hwe, if_false, hr2]
        exact ⟨_, rfl⟩
  · simp only [ge_iff_le, hdue, if_false]
    exact ⟨_, rfl⟩

/-- `broadcastIP` when the interval has not elapsed: nothing but the clock reading. -/
theorem broadcastIP_skip (c : WifiController) (w : World) (timer t1 : Nat) (clk : List Nat)
    (hclk : w.clock = t1 :: clk) (hlt : sub32 t1 c.lastBroadcastTime < timer) :
    WifiController.broadcastIP c w timer = .ok (c, { w with clock := clk }) := by
  unfold WifiController.broadcastIP
  have hnot : ¬ (sub32 t1 c.lastBroadcastTime ≥ timer) := by omega
  simp [bind, Except.bind, pure, Except.pure, millis_cons w t1 clk hclk, hnot]

/-- `broadcastIP` when the interval has elapsed and the call returns: one transmission is
logged, and the LED status and the timestamp follow the report of the transport. -/
theorem broadcastIP_outcome (c : WifiController) (w : World) (timer t1 : Nat)
    (clk : List Nat) (c1 : WifiController) (w1 : World)
    (hclk : w.clock = t1 :: clk) (hdue : timer ≤ sub32 t1 c.lastBroadcastTime)
    (h : WifiController.broadcastIP c w timer = .ok (c1, w1)) :
    (w1.sent = w.sent ++ [⟨{ w.localIP with o3 := 255 }, LOCAL_PORT,
        cstr (dotted w.localIP ++ [0]), (w.tx w.sent.length).endPacket⟩] ∧
      w1.tx = w.tx ∧ w1.localIP = w.localIP ∧ w1.inbox = w.inbox) ∧
    ((w.tx w.sent.length).endPacket = true →
      c1.led.status = UDP_BROADCAST_SENT ∧
      ∃ t3 rest, clk = t3 :: rest ∧ c1.lastBroadcastTime = t3) ∧
    ((w.tx w.sent.length).endPacket = false →
      c1.lastBroadcastTime = c.lastBroadcastTime ∧
      c1.led.status = if (w.tx w.sent.length).writeError ≠ 0 then UDP_BROADCAST_FAILED
                      else UDP_UNKNOWN_ERROR) := by
  unfold WifiController.broadcastIP at h
  simp only [bind, Except.bind, pure, Except.pure, millis_cons w t1 clk hclk, ge_iff_le, hdue,
    if_true] at h
  cases he : (w.tx w.sent.length).endPacket with
  | true =>
    simp only [he, if_true] at h
    cases clk with
    | nil => simp [millis] at h
    | cons t3 rest =>
      simp only [millis] at h
      split at h
      · simp at h
      · rename_i v2 h2
        obtain ⟨⟨a1, a2, a3⟩, a4⟩ := SetStatus_frame _ _ _ _ _ v2.1 v2.2 h2
        have a5 := SetStatus_sent _ _ _ _ _ v2.1 v2.2 h2
        simp only [Except.ok.injEq, Prod.mk.injEq] at h
        obtain ⟨e1, e2⟩ := h
        subst e1 e2
        exact ⟨⟨by rw [a5], by rw [a1], by rw [a2], by rw [a3]⟩,
          fun _ => ⟨a4, t3, rest, rfl, rfl⟩, fun hf => by simp at hf⟩
  | false =>
    simp only [he, Bool.false_eq_true, if_false] at h
    by_cases hwe : (w.tx w.sent.length).writeError ≠ 0
    · simp only [hwe, ne_eq, not_false_eq_true, if_true] at h
      split at h
      · simp at h
      · rename_i v2 h2
        obtain ⟨⟨a1, a2, a3⟩, a4⟩ := SetStatus_frame _ _ _ _ _ v2.1 v2.2 h2
        have a5 := SetStatus_sent _ _ _ _ _ v2.1 v2.2 h2
        simp only [Except.ok.injEq, Prod.mk.injEq] at h
        obtain ⟨e1, e2⟩ := h
        subst e1 e2
        exact ⟨⟨by rw [a5], by rw [a1], by rw [a2], by rw [a3]⟩,
          fun hf => by simp at hf, fun _ => ⟨rfl, by simp [a4, hwe]⟩⟩
    · simp only [hwe, if_false] at h
      split at h
      · simp at h
      · rename_i v2 h2
        obtain ⟨⟨a1, a2, a3⟩, a4⟩ := SetStatus_frame _ _ _ _ _ v2.1 v2.2 h2
        have a5 := SetStatus_sent _ _ _ _ _ v2.1 v2.2 h2
        simp only [Except.ok.injEq, Prod.mk.injEq] at h
        obtain ⟨e1, e2⟩ := h
        subst e1 e2
        exact ⟨⟨by rw [a5], by rw [a1], by rw [a2], by rw [a3]⟩,
          fun hf => by simp at hf, fun _ => ⟨rfl, by simp [a4, hwe]⟩⟩

/-- `SetStatus(status, true, wait)` for a status other than `BOOTED` on a script on the beat:
it returns and takes the readings of one `drive`. -/
theorem SetStatus_onBeat (led : StatusLED) (w : World) (status : Int) (wait : Nat)
    (hs : status ≠ BOOTED)
    (hob : OnBeat (w.clock.take
      (readingsOf (StatusLED.pattern { led with flash := false, status := status } status))))
    (hlen : readingsOf (StatusLED.pattern { led with flash := false, status := status } status)
      ≤ w.clock.length) :
    ∃ led1 w1, StatusLED.SetStatus led w status true wait = .ok (led1, w1) ∧
      w1.clock = w.clock.drop
        (readingsOf (StatusLED.pattern { led with flash := false, status := status } status)) := by
  obtain ⟨w1, hrun, hclk⟩ := drive_onBeat _ w (pattern_wellPat _ status) hob hlen
  rw [SetStatus_eq led w status true wait hs]
  simp only [if_true, hrun]
  by_cases hw : wait ≠ 0
  · rw [if_pos hw]
    exact ⟨_, _, rfl, by simpa [delay] using hclk⟩
  · rw [if_neg hw]
    exact ⟨_, _, rfl, hclk⟩

theorem onBeat_drop (clk : List Nat) (n : Nat) (h : OnBeat clk) : OnBeat (clk.drop n) :=
  fun t ht => h t (List.mem_of_mem_drop ht)

theorem onBeat_take (clk : List Nat) (n : Nat) (h : OnBeat clk) : OnBeat (clk.take n) :=
  fun t ht => h t (List.mem_of_mem_take ht)

/-- The wait loop of `connect` when the status never becomes `WL_CONNECTED` and the first
inner check that reads `WL_CONNECT_FAILED` is the one of pass `j` (none when `j = 10`): from
pass `i` on it renders `WIFI_CONNECTING` `j - i` times, then `WIFI_FAILED`, and restarts. -/
theorem connectLoop_restart (status : Nat → Nat) (j : Nat) (hj10 : j ≤ 10)
    (hnc : ∀ k, status k ≠ WL_CONNECTED)
    (hnofail : ∀ i, i < j → status (2 * i + 1) ≠ WL_CONNECT_FAILED)
    (hj : j = 10 ∨ status (2 * j + 1) = WL_CONNECT_FAILED) :
    ∀ (d i fuel : Nat) (statuses : List Int) (c : WifiController) (w : World),
    i + d = j → d + 1 ≤ fuel → OnBeat w.clock → 2 * d + 4 ≤ w.clock.length →
    ∃ c1 w1, WifiController.connectLoop status fuel (2 * i) i statuses c w =
      .restarted (j + 1) (statuses ++ List.replicate d WIFI_CONNECTING ++ [WIFI_FAILED])
        c1 w1 := by
  intro d
  induction d with
  | zero =>
    intro i fuel statuses c w hi hfuel hob hlen
    obtain ⟨f, rfl⟩ : ∃ f, fuel = f + 1 := ⟨fuel - 1, by omega⟩
    have hij : i = j := by omega
    subst hij
    obtain ⟨led1, w1, hrun, _⟩ := SetStatus_onBeat c.led w WIFI_FAILED 1000 (by decide)
      (onBeat_take _ _ hob)
      (by
        have : readingsOf (StatusLED.pattern
          { c.led with flash := false, status := WIFI_FAILED } WIFI_FAILED) = 4 := rfl
        rw [this]; omega)
    have hcond : i ≥ 10 ∨ status (2 * i + 1) = WL_CONNECT_FAILED := by
      rcases hj with h | h
      · exact Or.inl (by omega)
      · exact Or.inr h
    unfold WifiController.connectLoop
    simp only [hnc, ne_eq, not_false_eq_true, if_true, hcond, hrun]
    exact ⟨{ c with led := led1 }, delay w1 1000, by simp⟩
  | succ d ih =>
    intro i fuel statuses c w hi hfuel hob hlen
    obtain ⟨f, rfl⟩ : ∃ f, fuel = f + 1 := ⟨fuel - 1, by omega⟩
    have hilt : i < j := by omega
    have hcond : ¬ (i ≥ 10 ∨ status (2 * i + 1) = WL_CONNECT_FAILED) := by
      intro h
      rcases h with h | h
      · omega
      · exact hnofail i hilt h
    have hr : readingsOf (StatusLED.pattern
        { c.led with flash := false, status := WIFI_CONNECTING } WIFI_CONNECTING) = 2 := rfl
    obtain ⟨led1, w1, hrun, hclk⟩ := SetStatus_onBeat c.led w WIFI_CONNECTING 0 (by decide)
      (onBeat_take _ _ hob) (by rw [hr]; omega)
    rw [hr] at hclk
    obtain ⟨c2, w2, hrec⟩ := ih (i + 1) f (statuses ++ [WIFI_CONNECTING])
      { c with led := led1 } w1 (by omega) (by omega)
      (by rw [hclk]; exact onBeat_drop _ _ hob)
      (by rw [hclk, List.length_drop]; omega)
    unfold WifiController.connectLoop
    simp only [hnc, ne_eq, not_false_eq_true, if_true, hcond, if_false, hrun]
    have h2 : 2 * i + 2 = 2 * (i + 1) := by omega
    rw [h2, hrec]
    exact ⟨c2, w2, by simp [List.replicate_succ]⟩

theorem boundedFrom_step (t : Nat) (statuses : List Int) (r : ConnectResult)
    (h : r.BoundedFrom (t + 1) (statuses ++ [WIFI_CONNECTING])) : r.BoundedFrom t statuses := by
  cases r with
  | unfinished => exact h
  | noCredentials c w => trivial
  | fault f => trivial
  | connected n lg c w =>
    obtain ⟨k, h1, h2, h3⟩ := h
    exact ⟨k + 1, by omega, h2, by rw [h3]; simp [List.replicate_succ]⟩
  | restarted n lg c w =>
    obtain ⟨k, h1, h2, h3⟩ := h
    exact ⟨k + 1, by omega, h2, by rw [h3]; simp [List.replicate_succ]⟩

/-- The wait loop of `connect` never needs more than 11 passes, whatever the statuses and
the world. -/
theorem connectLoop_bounded (status : Nat → Nat) : ∀ (fuel calls timeout : Nat)
    (statuses : List Int) (c : WifiController) (w : World),
    timeout ≤ 10 → 11 ≤ timeout + fuel →
    (WifiController.connectLoop status fuel calls timeout statuses c w).BoundedFrom
      timeout statuses := by
  intro fuel
  induction fuel with
  | zero => intro calls timeout statuses c w h1 h2; omega
  | succ f ih =>
    intro calls timeout statuses c w h1 h2
    unfold WifiController.connectLoop
    split
    · split
      · split
        · trivial
        · exact ⟨0, by omega, by omega, by simp⟩
      · rename_i hcond
        split
        · trivial
        · apply boundedFrom_step
          exact ih _ _ _ _ _ (by omega) (by omega)
    · split
      · trivial
      · exact ⟨0, by omega, h1, by simp⟩

theorem onBeat_take_le (l : List Nat) (a b : Nat) (h : a ≤ b) (hob : OnBeat (l.take b)) :
    OnBeat (l.take a) :=
  fun t ht => hob t (List.take_subset_take_left l h ht)

theorem onBeat_take_drop (l : List Nat) (a b : Nat) (hob : OnBeat (l.take (a + b))) :
    OnBeat ((l.drop a).take b) := by
  intro t ht
  apply hob t
  rw [List.take_add]
  exact List.mem_append_right _ ht

/-- For every status but `WIFI_CONNECTING` the `switch` of `SetStatus` overwrites the whole
pattern: the state before plays no part. -/
theorem pattern_indep (l1 l2 : StatusLED) (status : Int) (hs : status ≠ WIFI_CONNECTING) :
    StatusLED.pattern { l1 with flash := false, status := status } status =
      StatusLED.pattern { l2 with flash := false, status := status } status := by
  simp only [StatusLED.pattern, StatusLED.setActiveLED, hs, if_false]

/-- For every status but `WIFI_CONNECTING` a call of `SetStatus` does not depend on the state
of the LED object before it. -/
theorem SetStatus_indep (l1 l2 : StatusLED) (w : World) (status : Int) (alsoDrive : Bool)
    (wait : Nat) (hs : status ≠ WIFI_CONNECTING) :
    StatusLED.SetStatus l1 w status alsoDrive wait =
      StatusLED.SetStatus l2 w status alsoDrive wait := by
  by_cases hb : status = BOOTED
  · subst hb
    rfl
  · rw [SetStatus_eq l1 w status alsoDrive wait hb, SetStatus_eq l2 w status alsoDrive wait hb,
      pattern_indep l1 l2 status hs]

/-- Whenever `SetStatus(BOOTED, false)` returns, the pattern it leaves is the spent blue
double flash. -/
theorem SetStatus_booted_pattern (led : StatusLED) (w : World) (wait : Nat) (p : StatusLED)
    (v : World) (h : StatusLED.SetStatus led w BOOTED false wait = .ok (p, v)) :
    p = ⟨chr_b, true, 200, 1, 0, BOOTED⟩ := by
  simp only [StatusLED.SetStatus, bind, Except.bind, pure, Except.pure, if_true,
    Bool.false_eq_true, if_false] at h
  cases ha : StatusLED.drive (StatusLED.setActiveLED
      { led with flash := false, status := BOOTED } chr_r true 2 200 1) w with
  | error f => rw [ha] at h; simp at h
  | ok ra =>
    obtain ⟨a, wa⟩ := ra
    rw [ha] at h
    simp only [] at h
    have hfa := (drive_frame _ _ _ _ ha).2
    cases hb : StatusLED.drive (StatusLED.setActiveLED a chr_g true 2 200 1) wa with
    | error f => rw [hb] at h; simp at h
    | ok rb =>
      obtain ⟨b, wb⟩ := rb
      rw [hb] at h
      simp only [] at h
      have hfb := (drive_frame _ _ _ _ hb).2
      cases hc : StatusLED.drive (StatusLED.setActiveLED b chr_b true 2 200 1) wb with
      | error f => rw [hc] at h; simp at h
      | ok rc =>
        obtain ⟨c, wc⟩ := rc
        rw [hc] at h
        have hfc := (drive_frame _ _ _ _ hc).2
        simp only [Except.ok.injEq, Prod.mk.injEq] at h
        rw [← h.1, hfc, hfb, hfa]
        rfl

/-- The `default` branch of the `switch` of `SetStatus`. -/
theorem pattern_default (led : StatusLED) (status : Int)
    (hout : status ∉ LEDStatus.enumerators) :
    StatusLED.pattern led status = StatusLED.setActiveLED led chr_r true 10 1000 1 := by
  simp only [LEDStatus.enumerators, List.mem_cons, List.mem_singleton, not_or,
    List.not_mem_nil, not_false_eq_true, and_true] at hout
  obtain ⟨_, h1, h2, h3, h4, h5, h6, h7, h8, h9, h10, h11, h12, h13, h14, h15, h16, h17⟩ :=
    hout
  simp only [StatusLED.pattern, h1, h2, h3, h4, h5, h6, h7, h8, h9, h10, h11, h12, h13, h14,
    h15, h16, h17, if_false]

/-- The pattern of an enumerated status other than `BOOTED` and `UDP_UNKNOWN_ERROR` is not
the one of the `default` branch. -/
theorem pattern_enumerated (led : StatusLED) (e : Int) (he : e ∈ LEDStatus.enumerators)
    (hb : e ≠ BOOTED) (hu : e ≠ UDP_UNKNOWN_ERROR) :
    (StatusLED.pattern led e).indicator ≠ (chr_r, true, 10, 1000, 1) := by
  simp only [LEDStatus.enumerators, List.mem_cons, List.mem_singleton, List.not_mem_nil,
    or_false] at he
  rcases he with h | h | h | h | h | h | h | h | h | h | h | h | h | h | h | h | h | h
  · exact absurd h hb
  all_goals first
    | exact absurd h hu
    | (subst h
       by_cases hg : led.activeLED = chr_g <;>
         simp [StatusLED.pattern, StatusLED.setActiveLED, StatusLED.indicator, hg, BLE_INIT,
           BLE_CONNECTED, BLE_DISCONNECTED, BLE_FAILED, BLE_SEND, BLE_RECEIVE, WIFI_INIT,
           WIFI_CONNECTING, WIFI_CONNECTED, WIFI_FAILED, WIFI_SEND, WIFI_RECEIVE,
           WIFI_CONNECTION_LOST, UDP_BROADCAST_SENT, UDP_BROADCAST_FAILED,
           UDP_INVALID_ARGUMENT, UDP_UNKNOWN_ERROR, chr_a, chr_r, chr_g, chr_b])

/-- The flash loop divides by `duration / flashRate` only: with both divisors non-zero it
never stops on a division by zero. -/
theorem flashLoop_no_div (startTime onTime : Int) : ∀ (clk : List Nat) (led : StatusLED)
    (w : World), led.flashRate ≠ 0 → Int.tdiv led.duration led.flashRate ≠ 0 →
    StatusLED.flashLoop startTime onTime clk led w ≠ .error .divisionByZero := by
  intro clk
  induction clk with
  | nil =>
    intro led w _ _
    unfold StatusLED.flashLoop
    split <;> simp
  | cons t rest ih =>
    intro led w h1 h2
    unfold StatusLED.flashLoop
    split
    · simp only [if_neg h1, if_neg h2]
      split
      · exact ih _ _ h1 h2
      · exact ih _ _ h1 h2
    · simp

/-- With both divisors of a flashing pattern non-zero `drive` never stops on a division by
zero. -/
theorem drive_no_div (led : StatusLED) (w : World)
    (h : led.flash = true → led.flashRate ≠ 0 ∧ Int.tdiv led.duration led.flashRate ≠ 0) :
    StatusLED.drive led w ≠ .error .divisionByZero := by
  unfold StatusLED.drive
  split
  · simp
  · split
    · rename_i hf
      obtain ⟨h1, h2⟩ := h hf
      rw [if_neg h1]
      exact flashLoop_no_div _ _ _ _ _ h1 h2
    · simp

/-- The divisors of a pattern that `WellPat` accepts are non-zero. -/
theorem wellPat_divisors (led : StatusLED) (hp : WellPat led) :
    led.flash = true → led.flashRate ≠ 0 ∧ Int.tdiv led.duration led.flashRate ≠ 0 := by
  intro hf
  obtain ⟨_, h1, h2, _⟩ := hp hf
  refine ⟨h1, fun h0 => ?_⟩
  rw [h0] at h2
  exact absurd (zero_dvd_iff.mp h2) (by decide)

/-- No call of `SetStatus` stops on a division by zero. -/
theorem SetStatus_no_div (led : StatusLED) (w : World) (status : Int) (alsoDrive : Bool)
    (wait : Nat) : StatusLED.SetStatus led w status alsoDrive wait ≠ .error .divisionByZero := by
  have hdrive : ∀ (l : StatusLED) (v : World), WellPat l →
      ∀ r, StatusLED.drive l v = r → r ≠ .error .divisionByZero :=
    fun l v hl r hr => hr ▸ drive_no_div l v (wellPat_divisors l hl)
  by_cases hb : status = BOOTED
  · subst hb
    simp only [StatusLED.SetStatus, bind, Except.bind, pure, Except.pure, if_true]
    cases ha : StatusLED.drive (StatusLED.setActiveLED
        { led with flash := false, status := BOOTED } chr_r true 2 200 1) w with
    | error e =>
      simp only [ne_eq, Except.error.injEq]
      intro he
      exact hdrive _ _ (setActiveLED_wellPat _ _ _ _ _ _ (by decide)) _ ha (by rw [he])
    | ok ra =>
      obtain ⟨a, wa⟩ := ra
      simp only []
      cases hb : StatusLED.drive (StatusLED.setActiveLED a chr_g true 2 200 1) wa with
      | error e =>
        simp only [ne_eq, Except.error.injEq]
        intro he
        exact hdrive _ _ (setActiveLED_wellPat _ _ _ _ _ _ (by decide)) _ hb (by rw [he])
      | ok rb =>
        obtain ⟨b, wb⟩ := rb
        simp only []
        cases hc : StatusLED.drive (StatusLED.setActiveLED b chr_b true 2 200 1) wb with
        | error e =>
          simp only [ne_eq, Except.error.injEq]
          intro he
          exact hdrive _ _ (setActiveLED_wellPat _ _ _ _ _ _ (by decide)) _ hc (by rw [he])
        | ok rc =>
          obtain ⟨c, wc⟩ := rc
          have hfc := (drive_frame _ _ _ _ hc).2
          have hwc : WellPat c := by
            have hc0 : c = ⟨chr_b, true, 200, 1, 0, b.status⟩ := by rw [hfc]; rfl
            rw [hc0]
            exact setActiveLED_wellPat ⟨chr_b, true, 200, 1, 0, b.status⟩ chr_b true 0 200 1
              (by decide)
          simp only []
          cases alsoDrive with
          | false => simp
          | true =>
            simp only [if_true]
            cases hd : StatusLED.drive c wc with
            | error e =>
              simp only [ne_eq, Except.error.injEq]
              intro he
              exact hdrive _ _ hwc _ hd (by rw [he])
            | ok r => by_cases hw : wait = 0 <;> simp [hw]
  · rw [SetStatus_eq led w status alsoDrive wait hb]
    cases alsoDrive with
    | false => simp
    | true =>
      simp only [if_true]
      cases hd : StatusLED.drive
          (StatusLED.pattern { led with flash := false, status := status } status) w with
      | error e =>
        simp only [ne_eq, Except.error.injEq]
        intro he
        exact hdrive _ _ (pattern_wellPat _ status) _ hd (by rw [he])
      | ok r => obtain ⟨l2, w2⟩ := r; by_cases hw : wait = 0 <;> simp [hw]

theorem setActiveLED_positivePeriod (led : StatusLED) (color : Nat) (flash : Bool)
    (n d r : Int) (h : 1 ≤ Int.tdiv d r ∧ 1 ≤ Int.tdiv (Int.tdiv d r) 2) :
    (StatusLED.setActiveLED led color flash n d r).PositivePeriod := h

/-- Every pattern of the `switch` of `SetStatus`, the `default` one included, has a period and
an on time of at least 1 ms. -/
theorem pattern_positivePeriod (led : StatusLED) (status : Int) :
    (StatusLED.pattern led status).PositivePeriod := by
  unfold StatusLED.pattern
  repeat' apply ite_ind
  all_goals exact setActiveLED_positivePeriod _ _ _ _ _ _ (by decide)

/-- The pattern a returning call of `drive` leaves has the period it was given. -/
theorem drive_positivePeriod (led : StatusLED) (w : World) (led1 : StatusLED) (w1 : World)
    (h : StatusLED.drive led w = .ok (led1, w1)) (hp : led.PositivePeriod) :
    led1.PositivePeriod := by
  rw [(drive_frame led w led1 w1 h).2]
  exact hp

/-- The pattern a returning call of `SetStatus` leaves has a period and an on time of at
least 1 ms. -/
theorem SetStatus_positivePeriod (led : StatusLED) (w : World) (status : Int)
    (alsoDrive : Bool) (wait : Nat) (p : StatusLED) (v : World)
    (h : StatusLED.SetStatus led w status alsoDrive wait = .ok (p, v)) :
    p.PositivePeriod := by
  have hlast : ∀ (l : StatusLED) (u : World), l.PositivePeriod →
      (if alsoDrive = true then
        (match StatusLED.drive l u with
          | .error e => .error e
          | .ok r => if wait ≠ 0 then .ok (r.1, delay r.2 wait) else .ok (r.1, r.2))
       else (.ok (l, u) : Except Fault (StatusLED × World))) = .ok (p, v) →
      p.PositivePeriod := by
    intro l u hl hrun
    cases alsoDrive with
    | false =>
      simp only [Bool.false_eq_true, if_false, Except.ok.injEq, Prod.mk.injEq] at hrun
      rw [← hrun.1]; exact hl
    | true =>
      simp only [if_true] at hrun
      cases hd : StatusLED.drive l u with
      | error e => rw [hd] at hrun; simp at hrun
      | ok r =>
        obtain ⟨l2, u2⟩ := r
        rw [hd] at hrun
        have h2 := drive_positivePeriod l u l2 u2 hd hl
        by_cases hw : wait = 0
        · simp only [hw, ne_eq, not_true_eq_false, if_false, Except.ok.injEq,
            Prod.mk.injEq] at hrun
          rw [← hrun.1]; exact h2
        · simp only [hw, ne_eq, not_false_eq_true, if_true, Except.ok.injEq,
            Prod.mk.injEq] at hrun
          rw [← hrun.1]; exact h2
  by_cases hb : status = BOOTED
  · subst hb
    simp only [StatusLED.SetStatus, bind, Except.bind, pure, Except.pure, if_true] at h
    cases ha : StatusLED.drive (StatusLED.setActiveLED
        { led with flash := false, status := BOOTED } chr_r true 2 200 1) w with
    | error e => rw [ha] at h; simp at h
    | ok ra =>
      obtain ⟨a, wa⟩ := ra
      rw [ha] at h
      simp only [] at h
      cases hb : StatusLED.drive (StatusLED.setActiveLED a chr_g true 2 200 1) wa with
      | error e => rw [hb] at h; simp at h
      | ok rb =>
        obtain ⟨b, wb⟩ := rb
        rw [hb] at h
        simp only [] at h
        cases hc : StatusLED.drive (StatusLED.setActiveLED b chr_b true 2 200 1) wb with
        | error e => rw [hc] at h; simp at h
        | ok rc =>
          obtain ⟨c, wc⟩ := rc
          rw [hc] at h
          simp only [] at h
          have hpc := drive_positivePeriod _ _ _ _ hc
            (setActiveLED_positivePeriod b chr_b true 2 200 1 (by decide))
          cases alsoDrive with
          | false =>
            simp only [Bool.false_eq_true, if_false, Except.ok.injEq, Prod.mk.injEq] at h
            rw [← h.1]; exact hpc
          | true =>
            simp only [if_true] at h
            cases hd : StatusLED.drive c wc with
            | error e => rw [hd] at h; simp at h
            | ok r =>
              obtain ⟨l2, u2⟩ := r
              rw [hd] at h
              have h2 := drive_positivePeriod c wc l2 u2 hd hpc
              by_cases hw : wait = 0
              · simp only [hw, ne_eq, not_true_eq_false, if_false, Except.ok.injEq,
                  Prod.mk.injEq] at h
                rw [← h.1]; exact h2
              · simp only [hw, ne_eq, not_false_eq_true, if_true, Except.ok.injEq,
                  Prod.mk.injEq] at h
                rw [← h.1]; exact h2
  · rw [SetStatus_eq led w status alsoDrive wait hb] at h
    refine hlast (StatusLED.pattern { led with flash := false, status := status } status) w
      (pattern_positivePeriod _ status) ?_
    cases alsoDrive with
    | false => simpa using h
    | true =>
      simp only [if_true] at h ⊢
      cases hd : StatusLED.drive
          (StatusLED.pattern { led with flash := false, status := status } status) w with
      | error e => rw [hd] at h; simp at h
      | ok r =>
        obtain ⟨l2, u2⟩ := r
        rw [hd] at h
        simpa using h

/-- One of the three renders of `BOOTED`: two flashes of 100 ms on, 100 ms off in the colour
`c`, taking three readings from a script on the beat. -/
theorem drive_booted (led : StatusLED) (w : World) (c : Nat)
    (hob : OnBeat (w.clock.take 3)) (hlen : 3 ≤ w.clock.length) :
    ∃ w1, StatusLED.drive (StatusLED.setActiveLED led c true 2 200 1) w =
        .ok (⟨c, true, 200, 1, 0, led.status⟩, w1) ∧ w1.clock = w.clock.drop 3 :=
  drive_onBeat (StatusLED.setActiveLED led c true 2 200 1) w
    (setActiveLED_wellPat _ _ _ _ _ _ (by decide)) hob hlen

/-- Rendering `BOOTED` from a script on the beat: red, green and blue flash twice each (nine
readings) and, with `alsoDrive`, `drive` runs once more on the spent pattern (one reading).
The pattern left does not depend on the state before. -/
theorem SetStatus_booted_onBeat (led : StatusLED) (w : World) (alsoDrive : Bool) (wait : Nat)
    (hob : OnBeat (w.clock.take (if alsoDrive then 10 else 9)))
    (hlen : (if alsoDrive then 10 else 9) ≤ w.clock.length) :
    ∃ w1, StatusLED.SetStatus led w BOOTED alsoDrive wait =
        .ok (⟨chr_b, true, 200, 1, 0, BOOTED⟩, w1) ∧
      w1.clock = w.clock.drop (if alsoDrive then 10 else 9) := by
  have h9 : 9 ≤ w.clock.length := by cases alsoDrive <;> simp at hlen <;> omega
  have hob9 : OnBeat (w.clock.take 9) :=
    onBeat_take_le _ _ _ (by cases alsoDrive <;> simp) hob
  obtain ⟨wa, ha, hca⟩ := drive_booted { led with flash := false, status := BOOTED } w chr_r
    (onBeat_take_le _ _ _ (by omega) hob9) (by omega)
  obtain ⟨wb, hb, hcb⟩ := drive_booted ⟨chr_r, true, 200, 1, 0, BOOTED⟩ wa chr_g
    (by rw [hca]; exact onBeat_take_drop _ 3 3 (onBeat_take_le _ _ _ (by omega) hob9))
    (by rw [hca, List.length_drop]; omega)
  obtain ⟨wc, hc, hcc⟩ := drive_booted ⟨chr_g, true, 200, 1, 0, BOOTED⟩ wb chr_b
    (by
      rw [hcb, hca, List.drop_drop]
      exact onBeat_take_drop _ 6 3 hob9)
    (by rw [hcb, hca, List.drop_drop, List.length_drop]; omega)
  have hcc9 : wc.clock = w.clock.drop 9 := by
    rw [hcc, hcb, hca, List.drop_drop, List.drop_drop]
  cases alsoDrive with
  | false =>
    refine ⟨wc, ?_, by simpa using hcc9⟩
    simp only [StatusLED.SetStatus, bind, Except.bind, pure, Except.pure, if_true, ha, hb, hc,
      Bool.false_eq_true, if_false]
  | true =>
    have hr1 : readingsOf (⟨chr_b, true, 200, 1, 0, BOOTED⟩ : StatusLED) = 1 := rfl
    obtain ⟨wd, hd, hcd⟩ := drive_onBeat ⟨chr_b, true, 200, 1, 0, BOOTED⟩ wc
      (fun _ => by decide)
      (by
        rw [hr1, hcc9]
        exact onBeat_take_drop _ 9 1 (by simpa using hob))
      (by rw [hr1, hcc9, List.length_drop]; simp at hlen; omega)
    have hcd10 : wd.clock = w.clock.drop 10 := by
      rw [hcd, hr1, hcc9, List.drop_drop]
    by_cases hw : wait ≠ 0
    · refine ⟨delay wd wait, ?_, by simpa [delay] using hcd10⟩
      simp only [StatusLED.SetStatus, bind, Except.bind, pure, Except.pure, if_true, ha, hb,
        hc, hd, if_pos hw]
    · refine ⟨wd, ?_, by simpa using hcd10⟩
      simp only [StatusLED.SetStatus, bind, Except.bind, pure, Except.pure, if_true, ha, hb,
        hc, hd, if_neg hw]

/-- `BLEController::connected` on a script on the beat. -/
theorem connected_onBeat (b : BLEController) (w : World) (m : Bool)
    (hob : OnBeat (w.clock.take (connectReadings b._connected m)))
    (hlen : connectReadings b._connected m ≤ w.clock.length) :
    ∃ led w1, BLEController.connected b w m =
        .ok ({ b with _connected := m, led := led }, w1) ∧
      w1.clock = w.clock.drop (connectReadings b._connected m) := by
  obtain ⟨ssid, password, conn, led⟩ := b
  cases conn <;> cases m
  · exact ⟨led, w, rfl, by simp [connectReadings]⟩
  · have hr : readingsOf (StatusLED.pattern
        { led with flash := false, status := BLE_CONNECTED } BLE_CONNECTED) = 1 := rfl
    obtain ⟨led1, w1, hrun, hclk⟩ := SetStatus_onBeat led w BLE_CONNECTED 0 (by decide)
      (by rw [hr]; exact hob) (by rw [hr]; exact hlen)
    refine ⟨led1, w1, ?_, by rw [hclk, hr]; rfl⟩
    simp [BLEController.connected, bind, Except.bind, pure, Except.pure, hrun]
  · have hr : readingsOf (StatusLED.pattern
        { led with flash := false, status := BLE_DISCONNECTED } BLE_DISCONNECTED) = 3 := rfl
    obtain ⟨led1, w1, hrun, hclk⟩ := SetStatus_onBeat led w BLE_DISCONNECTED 0 (by decide)
      (by rw [hr]; exact hob) (by rw [hr]; exact hlen)
    refine ⟨led1, w1, ?_, by rw [hclk, hr]; rfl⟩
    simp [BLEController.connected, bind, Except.bind, pure, Except.pure, hrun]
  · exact ⟨led, w, rfl, by simp [connectReadings]⟩

/-- The LED part of one pass of the polling loop on a script on the beat. -/
theorem pollLed_onBeat (b : BLEController) (w : World) (e : BleSnapshot)
    (hob : OnBeat (w.clock.take (pollLedReadings b e)))
    (hlen : pollLedReadings b e ≤ w.clock.length) :
    ∃ led w3, BLEController.pollLed b w e =
        .ok ({ b with _connected := e.connected, led := led }, w3) ∧
      w3.clock = w.clock.drop (pollLedReadings b e) := by
  unfold pollLedReadings at hob hlen
  obtain ⟨ledA, wA, hA, hcA⟩ := connected_onBeat b w e.connected
    (onBeat_take_le _ _ _ (by omega) hob) (by omega)
  have hrR : ∀ l : StatusLED, readingsOf (StatusLED.pattern
      { l with flash := false, status := BLE_RECEIVE } BLE_RECEIVE) = 5 := fun _ => rfl
  have hrS : ∀ l : StatusLED, readingsOf (StatusLED.pattern
      { l with flash := false, status := BLE_SEND } BLE_SEND) = 5 := fun _ => rfl
  -- the `r` test
  have hR : ∃ ledR wR,
      (if e.r = true then
        (match StatusLED.SetStatus ledA wA BLE_RECEIVE true 0 with
          | .error err => .error err
          | .ok v => .ok (({ b with _connected := e.connected, led := v.1 } : BLEController), v.2))
       else .ok (({ b with _connected := e.connected, led := ledA } : BLEController), wA)) =
        (.ok (({ b with _connected := e.connected, led := ledR } : BLEController), wR) :
          Except Fault (BLEController × World)) ∧
      wR.clock = w.clock.drop
        (connectReadings b._connected e.connected + (if e.r = true then 5 else 0)) := by
    cases hr : e.r with
    | false => exact ⟨ledA, wA, by simp, by simpa using hcA⟩
    | true =>
      rw [hr] at hob hlen
      obtain ⟨led1, w1, hrun, hclk⟩ := SetStatus_onBeat ledA wA BLE_RECEIVE 0 (by decide)
        (by
          rw [hrR, hcA]
          exact onBeat_take_drop _ _ _ (onBeat_take_le _ _ _ (by simp) hob))
        (by rw [hrR, hcA, List.length_drop]; simp at hlen; omega)
      refine ⟨led1, w1, by simp [hrun], ?_⟩
      rw [hclk, hrR, hcA, List.drop_drop]
      simp
  obtain ⟨ledR, wR, hRrun, hcR⟩ := hR
  have hS : ∃ ledS wS,
      (if e.s = true then
        (match StatusLED.SetStatus ledR wR BLE_SEND true 0 with
          | .error err => .error err
          | .ok v => .ok (({ b with _connected := e.connected, led := v.1 } : BLEController), v.2))
       else .ok (({ b with _connected := e.connected, led := ledR } : BLEController), wR)) =
        (.ok (({ b with _connected := e.connected, led := ledS } : BLEController), wS) :
          Except Fault (BLEController × World)) ∧
      wS.clock = w.clock.drop
        (connectReadings b._connected e.connected + (if e.r = true then 5 else 0) +
          (if e.s = true then 5 else 0)) := by
    cases hs : e.s with
    | false => exact ⟨ledR, wR, by simp, by simpa using hcR⟩
    | true =>
      rw [hs] at hob hlen
      obtain ⟨led1, w1, hrun, hclk⟩ := SetStatus_onBeat ledR wR BLE_SEND 0 (by decide)
        (by
          rw [hrS, hcR]
          exact onBeat_take_drop _ _ _ (by simpa using hob))
        (by rw [hrS, hcR, List.length_drop]; simp at hlen; omega)
      refine ⟨led1, w1, by simp [hrun], ?_⟩
      rw [hclk, hrS, hcR, List.drop_drop]
      simp
  obtain ⟨ledS, wS, hSrun, hcS⟩ := hS
  refine ⟨ledS, wS, ?_, hcS⟩
  simp only [BLEController.pollLed, bind, Except.bind, pure, Except.pure, hA]
  rw [← hSrun]
  cases hr : e.r with
  | false =>
    simp only [hr, Bool.false_eq_true, if_false] at hRrun
    simp only [Except.ok.injEq, Prod.mk.injEq, BLEController.mk.injEq, true_and] at hRrun
    obtain ⟨h1, h2⟩ := hRrun
    subst h1 h2
    simp only [Bool.false_eq_true, if_false]
    cases e.s
    · rfl
    · simp only [if_true]
      cases StatusLED.SetStatus ledA wA BLE_SEND true 0 <;> rfl
  | true =>
    simp only [hr, if_true] at hRrun
    cases hrun : StatusLED.SetStatus ledA wA BLE_RECEIVE true 0 with
    | error err => rw [hrun] at hRrun; simp at hRrun
    | ok v =>
      rw [hrun] at hRrun
      simp only [Except.ok.injEq, Prod.mk.injEq, BLEController.mk.injEq, true_and] at hRrun
      obtain ⟨h1, h2⟩ := hRrun
      subst h1 h2
      simp only [if_true]
      cases e.s
      · rfl
      · simp only [if_true]
        cases StatusLED.SetStatus v.1 v.2 BLE_SEND true 0 <;> rfl

/-- A pass of the polling loop with a peer connected: the window is opened anew at the
reading `t` taken in this pass, the values of the two characteristics are copied, and the
timeout test compares the next reading `t'` with `t`; the `startTime` the pass was entered
with plays no part. -/
theorem pollStep_connected (b : BLEController) (st : Nat) (w : World) (e : BleSnapshot)
    (t t' : Nat) (ledClk clk' : List Nat) (hc : e.connected = true)
    (hclk : w.clock = ledClk ++ t :: t' :: clk')
    (hled : ledClk.length = pollLedReadings b e) (hob : OnBeat ledClk) :
    ∃ led w1, BLEController.pollStep b st w e =
        .ok (decide (sub32 t' t ≥ 2 * 60 * 1000),
          { b with _connected := true, ssid := e.ssid, password := e.password, led := led },
          t, w1) ∧ w1.clock = clk' := by
  obtain ⟨led, w3, hrun, hc3⟩ := pollLed_onBeat b w e
    (by rw [hclk, List.take_left' hled]; exact hob)
    (by rw [hclk, List.length_append]; omega)
  rw [hclk, List.drop_left' hled] at hc3
  refine ⟨led, { w3 with clock := clk' }, ?_, rfl⟩
  simp only [BLEController.pollStep, bind, Except.bind, pure, Except.pure, hrun, hc, if_true,
    millis_cons w3 t (t' :: clk') hc3]
  rw [millis_cons { w3 with clock := t' :: clk' } t' clk' rfl]

/-- A pass of the polling loop with no peer connected: `startTime` is kept and the timeout
test compares the reading `t'` with it. -/
theorem pollStep_idle (b : BLEController) (st : Nat) (w : World) (e : BleSnapshot)
    (t' : Nat) (ledClk clk' : List Nat) (hc : e.connected = false)
    (hclk : w.clock = ledClk ++ t' :: clk')
    (hled : ledClk.length = pollLedReadings b e) (hob : OnBeat ledClk) :
    ∃ led w1, BLEController.pollStep b st w e =
        .ok (decide (sub32 t' st ≥ 2 * 60 * 1000),
          { b with _connected := false, led := led }, st, w1) ∧ w1.clock = clk' := by
  obtain ⟨led, w3, hrun, hc3⟩ := pollLed_onBeat b w e
    (by rw [hclk, List.take_left' hled]; exact hob)
    (by rw [hclk, List.length_append]; omega)
  rw [hclk, List.drop_left' hled] at hc3
  refine ⟨led, { w3 with clock := clk' }, ?_, rfl⟩
  simp only [BLEController.pollStep, bind, Except.bind, pure, Except.pure, hrun, hc,
    Bool.false_eq_true, if_false, millis_cons w3 t' clk' hc3]

/-- One unfolding of the polling loop of `GetWiFi`. -/
theorem getWiFiLoop_eq (s : Store) (snaps : List BleSnapshot) (polls st : Nat)
    (b : BLEController) (w : World) :
    BLEController.getWiFiLoop s snaps polls st b w =
      if b.ssid = [] ∨ b.password = [] then
        match snaps with
        | [] => .polling polls st b w
        | e :: rest =>
          match BLEController.pollStep b st w e with
          | .error f => .fault f
          | .ok (true, b1, _, w1) => .timedOut (polls + 1) b1 w1
          | .ok (false, b1, st1, w1) => BLEController.getWiFiLoop s rest (polls + 1) st1 b1 w1
      else
        .saved (hasCredentials (saveCredentials s ⟨b.ssid, b.password⟩)) polls
          (saveCredentials s ⟨b.ssid, b.password⟩) b w := by
  rw [BLEController.getWiFiLoop.eq_def]

/-- A string that begins with a non-NUL character is not empty. -/
theorem ne_nil_of_beginsNonNul (l : List Nat) (h : BeginsNonNul l) : l ≠ [] := by
  intro hl
  subst hl
  exact h rfl

/-- The pass of the polling loop in which a connected peer has delivered two values that
begin with a non-NUL character is the last one: the pair is saved and the device restarts. -/
theorem getWiFiLoop_saves (s : Store) (polls st : Nat) (b : BLEController) (w : World)
    (e : BleSnapshot) (rest : List BleSnapshot) (t t' : Nat) (ledClk clk' : List Nat)
    (hb : b.ssid = [] ∨ b.password = []) (hc : e.connected = true)
    (hs : BeginsNonNul e.ssid) (hp : BeginsNonNul e.password)
    (hclk : w.clock = ledClk ++ t :: t' :: clk')
    (hled : ledClk.length = pollLedReadings b e) (hob : OnBeat ledClk)
    (hwin : sub32 t' t < 2 * 60 * 1000) :
    ∃ led w1, BLEController.getWiFiLoop s (e :: rest) polls st b w =
        .saved true (polls + 1) (saveCredentials s ⟨e.ssid, e.password⟩)
          { b with _connected := true, ssid := e.ssid, password := e.password, led := led }
          w1 ∧ w1.clock = clk' := by
  obtain ⟨led, w1, hrun, hc1⟩ := pollStep_connected b st w e t t' ledClk clk' hc hclk hled hob
  have hdec : decide (sub32 t' t ≥ 2 * 60 * 1000) = false := by
    simp only [decide_eq_false_iff_not]; omega
  rw [hdec] at hrun
  refine ⟨led, w1, ?_, hc1⟩
  rw [getWiFiLoop_eq, if_pos hb]
  simp only [hrun]
  rw [getWiFiLoop_eq, if_neg (by
    simp only [not_or]
    exact ⟨ne_nil_of_beginsNonNul _ hs, ne_nil_of_beginsNonNul _ hp⟩)]
  simp only [hasCredentials_saveCredentials s ⟨e.ssid, e.password⟩ hs hp]

/-- A pass of the polling loop with no peer connected, none seen before and no callback
flag set: one clock reading, members unchanged. -/
theorem pollStep_quiet (b : BLEController) (st : Nat) (w : World) (e : BleSnapshot)
    (t' : Nat) (clk' : List Nat) (hb : b._connected = false) (hc : e.connected = false)
    (hr : e.r = false) (hs : e.s = false) (hclk : w.clock = t' :: clk') :
    BLEController.pollStep b st w e =
      .ok (decide (sub32 t' st ≥ 2 * 60 * 1000), b, st, { w with clock := clk' }) := by
  simp only [BLEController.pollStep, BLEController.pollLed, BLEController.connected, bind,
    Except.bind, pure, Except.pure, hb, hc, hr, hs, Bool.not_false, Bool.and_false,
    Bool.false_and, Bool.false_eq_true, if_false, millis_cons w t' clk' hclk]

/-- With no peer ever connected the polling loop restarts the device at the first pass
whose reading is 120000 ms or more after `startTime`. -/
theorem getWiFiLoop_quiet (s : Store) (b : BLEController) (st : Nat)
    (hb : b.ssid = [] ∨ b.password = []) (hconn : b._connected = false) :
    ∀ (pre : List Nat) (snaps : List BleSnapshot) (polls : Nat) (w : World) (t : Nat)
      (clk' : List Nat),
      (∀ e ∈ snaps, e.connected = false ∧ e.r = false ∧ e.s = false) →
      pre.length < snaps.length → (∀ p ∈ pre, sub32 p st < 2 * 60 * 1000) →
      2 * 60 * 1000 ≤ sub32 t st → w.clock = pre ++ t :: clk' →
      BLEController.getWiFiLoop s snaps polls st b w =
        .timedOut (polls + pre.length + 1) b { w with clock := clk' } := by
  intro pre
  induction pre with
  | nil =>
    intro snaps polls w t clk' hq hlen _ ht hclk
    cases snaps with
    | nil => simp at hlen
    | cons e rest =>
      obtain ⟨h1, h2, h3⟩ := hq e (List.mem_cons_self _ _)
      rw [getWiFiLoop_eq, if_pos hb]
      simp only [pollStep_quiet b st w e t clk' hconn h1 h2 h3 (by simpa using hclk)]
      have hdec : decide (sub32 t st ≥ 2 * 60 * 1000) = true := by
        simp only [decide_eq_true_eq]; omega
      rw [hdec]
      simp
  | cons p pre ih =>
    intro snaps polls w t clk' hq hlen hpre ht hclk
    cases snaps with
    | nil => simp at hlen
    | cons e rest =>
      obtain ⟨h1, h2, h3⟩ := hq e (List.mem_cons_self _ _)
      rw [getWiFiLoop_eq, if_pos hb]
      simp only [pollStep_quiet b st w e p (pre ++ t :: clk') hconn h1 h2 h3
        (by simpa using hclk)]
      have hdec : decide (sub32 p st ≥ 2 * 60 * 1000) = false := by
        have := hpre p (List.mem_cons_self _ _)
        simp only [decide_eq_false_iff_not]; omega
      rw [hdec]
      simp only []
      rw [ih rest (polls + 1) { w with clock := pre ++ t :: clk' } t clk'
        (fun e he => hq e (List.mem_cons_of_mem _ he))
        (by simpa using hlen) (fun q hq => hpre q (List.mem_cons_of_mem _ hq)) ht rfl]
      simp only [List.length_cons]
      congr 1
      omega

/-- The part of `setup` before the branch, on a script on the beat: `BOOTED` takes ten
readings and `WIFI_INIT` two. -/
theorem setup_prefix (sled : StatusLED) (w : World) (hob : OnBeat (w.clock.take 12))
    (hlen : 12 ≤ w.clock.length) :
    ∃ w1 led2 w2, StatusLED.SetStatus sled w BOOTED true 1000 =
        .ok (⟨chr_b, true, 200, 1, 0, BOOTED⟩, w1) ∧
      StatusLED.SetStatus ⟨chr_b, true, 200, 1, 0, BOOTED⟩ (delay w1 10) WIFI_INIT true 500 =
        .ok (led2, w2) ∧ w2.clock = w.clock.drop 12 := by
  obtain ⟨w1, h1, hc1⟩ := SetStatus_booted_onBeat sled w true 1000
    (onBeat_take_le _ _ _ (by simp) hob) (by simp; omega)
  simp only [if_true] at hc1
  have hr : ∀ l : StatusLED, readingsOf (StatusLED.pattern
      { l with flash := false, status := WIFI_INIT } WIFI_INIT) = 2 := fun _ => rfl
  have hd : (delay w1 10).clock = w.clock.drop 10 := by simpa [delay] using hc1
  obtain ⟨led2, w2, h2, hc2⟩ := SetStatus_onBeat ⟨chr_b, true, 200, 1, 0, BOOTED⟩
    (delay w1 10) WIFI_INIT 500 (by decide)
    (by rw [hr, hd]; exact onBeat_take_drop _ 10 2 hob)
    (by rw [hr, hd, List.length_drop]; omega)
  refine ⟨w1, led2, w2, h1, h2, ?_⟩
  rw [hc2, hr, hd, List.drop_drop]

/-! ## Lemmas on the discovery protocol -/

theorem cstr_append_nul (l : List Nat) : cstr (l ++ [0]) = cstr l := by
  induction l with
  | nil => rfl
  | cons c cs ih =>
    simp only [cstr] at ih ⊢
    rw [List.cons_append, List.takeWhile_cons, List.takeWhile_cons, ih]

set_option maxRecDepth 100000 in
/-- For an octet `sprintf("%d")` gives the decimal text without leading zeros. -/
theorem decimal_octet : ∀ n, n < 256 → decimal n = octetText n := by
  decide

theorem octetText_length (n : Nat) :
    1 ≤ (octetText n).length ∧ (octetText n).length ≤ 3 := by
  unfold octetText
  split_ifs <;> simp

theorem octetText_nulFree (n : Nat) : NulFree (octetText n) := by
  unfold octetText
  intro c hc
  split_ifs at hc <;> simp at hc <;> omega

/-- The announce payload of an address whose octets are below 256. -/
theorem dotted_octets (ip : IPAddress) (h0 : ip.o0 < 256) (h1 : ip.o1 < 256)
    (h2 : ip.o2 < 256) (h3 : ip.o3 < 256) :
    cstr (dotted ip ++ [0]) =
      octetText ip.o0 ++ [46] ++ octetText ip.o1 ++ [46] ++ octetText ip.o2 ++ [46] ++
        octetText ip.o3 := by
  rw [cstr_append_nul]
  unfold dotted
  rw [decimal_octet _ h0, decimal_octet _ h1, decimal_octet _ h2, decimal_octet _ h3]
  apply cstr_of_nulFree
  intro c hc
  simp only [List.mem_append, List.mem_singleton] at hc
  rcases hc with ((((((h | h) | h) | h) | h) | h) | h)
  · exact octetText_nulFree _ c h
  · omega
  · exact octetText_nulFree _ c h
  · omega
  · exact octetText_nulFree _ c h
  · omega
  · exact octetText_nulFree _ c h

/-- Elapsed times on the 32-bit counter add up as long as the sum does not wrap. -/
theorem sub32_add (l t1 t2 : Nat) (h : sub32 t1 l + sub32 t2 t1 < 4294967296) :
    sub32 t2 l = sub32 t1 l + sub32 t2 t1 := by
  unfold sub32 at *
  omega

theorem receiveMessage_filtered (c : WifiController) (w : World) (d : Datagram)
    (rest : List (Option Datagram)) (msg : List Nat) (hin : w.inbox = some d :: rest)
    (hf : d.ip.o3 = 255 ∨ d.ip.o3 = w.localIP.o3) :
    WifiController.receiveMessage c w msg =
      (0, msg, { c with udp := { remoteIP := d.ip, remotePort := d.port } },
        { w with inbox := rest }) := by
  unfold WifiController.receiveMessage
  rw [hin]
  simp only
  have : ¬ (d.ip.o3 ≠ 255 ∧ d.ip.o3 ≠ w.localIP.o3) := by
    rcases hf with h | h <;> simp [h]
  simp [this]

theorem receiveMessage_accepted (c : WifiController) (w : World) (d : Datagram)
    (rest : List (Option Datagram)) (msg : List Nat) (hin : w.inbox = some d :: rest)
    (h255 : d.ip.o3 ≠ 255) (hself : d.ip.o3 ≠ w.localIP.o3) (hne : d.payload ≠ []) :
    WifiController.receiveMessage c w msg =
      (d.payload.length, cstr d.payload,
        { c with udp := { remoteIP := d.ip, remotePort := d.port } },
        { w with inbox := rest }) := by
  unfold WifiController.receiveMessage
  rw [hin]
  simp only
  have h1 : d.payload.length ≠ 0 := fun h => hne (List.length_eq_zero.1 h)
  simp [h1, h255, hself, cstr_append_nul]

theorem receiveMessage_none (c : WifiController) (w : World) (msg : List Nat)
    (hin : w.inbox.head? = none ∨ w.inbox.head? = some none) :
    WifiController.receiveMessage c w msg = (0, msg, c, { w with inbox := w.inbox.tail }) := by
  unfold WifiController.receiveMessage
  obtain ⟨clock, inbox, tx, localIP, sent, red, green, blue, delays, held⟩ := w
  cases inbox with
  | nil => rfl
  | cons e rest =>
    cases e with
    | none => rfl
    | some d => simp at hin

theorem sendMessage_world (c : WifiController) (w : World) (message : List Nat) :
    (WifiController.sendMessage c w message).2 =
      { w with sent := w.sent ++ [⟨c.client.ip, c.client.port, message,
        (w.tx w.sent.length).beginPacket && (w.tx w.sent.length).endPacket⟩] } := by
  unfold WifiController.sendMessage
  cases hb : (w.tx w.sent.length).beginPacket <;> cases he : (w.tx w.sent.length).endPacket <;>
    simp [hb, he]

/-- The reply loop when no poll finds a datagram: it ends on its condition, and `connected`
is cleared as soon as one poll was made. -/
theorem pongLoop_no_reply (startTime : Nat) : ∀ (clk : List Nat) (msg : List Nat)
    (c : WifiController) (w : World),
    (∃ t ∈ clk, ¬ sub32 t startTime < 1000) →
    (∀ e ∈ w.inbox.take (pollCount startTime clk), e = none) →
    WifiController.pongLoop startTime clk msg c w =
      .ok (msg, (if pollCount startTime clk = 0 then c else { c with connected := false }),
        { w with inbox := w.inbox.drop (pollCount startTime clk),
                 clock := afterWindow startTime clk }) := by
  intro clk
  induction clk with
  | nil => intro msg c w hend _; simp at hend
  | cons t rest ih =>
    intro msg c w hend hnone
    unfold WifiController.pongLoop
    by_cases hin : sub32 t startTime < 1000
    · have hpc : pollCount startTime (t :: rest) = pollCount startTime rest + 1 := by
        simp [pollCount, List.takeWhile_cons, hin]
      have haw : afterWindow startTime (t :: rest) = afterWindow startTime rest := by
        simp [afterWindow, List.dropWhile_cons, hin]
      have hend1 : ∃ u ∈ rest, ¬ sub32 u startTime < 1000 := by
        obtain ⟨u, hu, hnu⟩ := hend
        rcases List.mem_cons.1 hu with h | h
        · subst h; exact absurd hin hnu
        · exact ⟨u, h, hnu⟩
      rw [hpc] at hnone
      have hhead : w.inbox.head? = none ∨ w.inbox.head? = some none := by
        cases hi : w.inbox with
        | nil => simp
        | cons e es =>
          have := hnone e (by rw [hi]; simp)
          subst this
          simp
      have hnone1 : ∀ e ∈ w.inbox.tail.take (pollCount startTime rest), e = none := by
        intro e he
        apply hnone e
        cases hi : w.inbox with
        | nil => rw [hi] at he; simp at he
        | cons x xs =>
          rw [hi] at he
          simp only [List.tail_cons] at he
          simp [List.take_succ_cons, he]
      rw [if_pos hin, receiveMessage_none c w msg hhead]
      simp only [gt_iff_lt, Nat.lt_irrefl, false_and, if_false]
      rw [ih msg _ _ hend1 hnone1, hpc, haw]
      simp
    · have hpc : pollCount startTime (t :: rest) = 0 := by
        simp [pollCount, List.takeWhile_cons, hin]
      have haw : afterWindow startTime (t :: rest) = rest := by
        simp [afterWindow, List.dropWhile_cons, hin]
      rw [if_neg hin, hpc, haw]
      simp

/-- What `receiveMessage` leaves alone: every member of the controller but `udp`, and every
part of the world but the inbox, of which it takes the head. -/
theorem receiveMessage_frame (c : WifiController) (w : World) (msg : List Nat) :
    (WifiController.receiveMessage c w msg).2.2.1.client = c.client ∧
      (WifiController.receiveMessage c w msg).2.2.1.connected = c.connected ∧
      (WifiController.receiveMessage c w msg).2.2.1.lastPingTime = c.lastPingTime ∧
      (WifiController.receiveMessage c w msg).2.2.1.led = c.led ∧
      (WifiController.receiveMessage c w msg).2.2.1.lastBroadcastTime = c.lastBroadcastTime ∧
      (WifiController.receiveMessage c w msg).2.2.2.sent = w.sent ∧
      (WifiController.receiveMessage c w msg).2.2.2.localIP = w.localIP ∧
      (WifiController.receiveMessage c w msg).2.2.2.tx = w.tx ∧
      (WifiController.receiveMessage c w msg).2.2.2.inbox = w.inbox.tail := by
  unfold WifiController.receiveMessage
  cases hi : w.inbox with
  | nil => simp [hi]
  | cons e rest =>
    cases e with
    | none => simp
    | some d =>
      simp only
      split_ifs <;> simp

/-- The reply loop when one of its polls finds an accepted datagram that reads `"pong"`: it
ends with `connected` set and the rest of the session untouched. -/
theorem pongLoop_pong (startTime : Nat) : ∀ (clk : List Nat) (msg : List Nat)
    (c : WifiController) (w : World) (i : Nat) (d : Datagram),
    i < pollCount startTime clk → w.inbox[i]? = some (some d) →
    d.ip.o3 ≠ 255 → d.ip.o3 ≠ w.localIP.o3 → d.payload ≠ [] →
    strEq (cstr d.payload) msgPong = true →
    ∃ msg1 c1 w1, WifiController.pongLoop startTime clk msg c w = .ok (msg1, c1, w1) ∧
      c1.connected = true ∧ c1.client = c.client ∧ c1.lastPingTime = c.lastPingTime ∧
      c1.led = c.led ∧ c1.lastBroadcastTime = c.lastBroadcastTime ∧
      w1.sent = w.sent ∧ w1.localIP = w.localIP ∧ w1.tx = w.tx := by
  intro clk
  induction clk with
  | nil => intro msg c w i d hi; simp [pollCount] at hi
  | cons t rest ih =>
    intro msg c w i d hi hd h255 hself hne hpong
    have hin : sub32 t startTime < 1000 := by
      by_contra hn
      simp [pollCount, List.takeWhile_cons, hn] at hi
    have hpc : pollCount startTime (t :: rest) = pollCount startTime rest + 1 := by
      simp [pollCount, List.takeWhile_cons, hin]
    obtain ⟨f1, f2, f3, f4, f5, f6, f7, f8, f9⟩ := receiveMessage_frame c w msg
    unfold WifiController.pongLoop
    rw [if_pos hin]
    by_cases hbrk : (WifiController.receiveMessage c w msg).1 > 0 ∧
        strEq (WifiController.receiveMessage c w msg).2.1 msgPong = true
    · simp only [hbrk, and_self, if_true]
      exact ⟨_, _, _, rfl, rfl, f1, f3, f4, f5, f6, f7, f8⟩
    · simp only [hbrk, if_false]
      cases i with
      | zero =>
        exfalso
        apply hbrk
        cases hw : w.inbox with
        | nil => rw [hw] at hd; simp at hd
        | cons e es =>
          rw [hw] at hd
          simp only [List.getElem?_cons_zero, Option.some.injEq] at hd
          subst hd
          rw [receiveMessage_accepted c w d es msg hw h255 hself hne]
          exact ⟨Nat.pos_of_ne_zero (fun h => hne (List.length_eq_zero.1 h)), hpong⟩
      | succ k =>
        have hd1 : (WifiController.receiveMessage c w msg).2.2.2.inbox[k]? = some (some d) := by
          rw [f9]
          cases hw : w.inbox with
          | nil => rw [hw] at hd; simp at hd
          | cons e es => rw [hw] at hd; simpa using hd
        obtain ⟨m1, c1, w1, hrun, g1, g2, g3, g4, g5, g6, g7, g8⟩ :=
          ih (WifiController.receiveMessage c w msg).2.1
            { (WifiController.receiveMessage c w msg).2.2.1 with connected := false }
            (WifiController.receiveMessage c w msg).2.2.2 k d (by omega) hd1 h255
            (by rw [f7]; exact hself) hne hpong
        exact ⟨m1, c1, w1, hrun, g1, by rw [g2]; exact f1, by rw [g3]; exact f3,
          by rw [g4]; exact f4, by rw [g5]; exact f5, by rw [g6]; exact f6,
          by rw [g7]; exact f7, by rw [g8]; exact f8⟩

/-- Taking the C string of a C string gives it back. -/
theorem cstr_cstr (l : List Nat) : cstr (cstr l) = cstr l := by
  induction l with
  | nil => rfl
  | cons a t ih =>
    unfold cstr at ih ⊢
    by_cases h : (a != 0) = true
    · simp only [List.takeWhile_cons, h, if_true]
      rw [ih]
    · simp [List.takeWhile_cons, h]

/-- The comparison against a literal without NUL is the comparison of the C string. -/
theorem strEq_cstr (p lit : List Nat) (hl : cstr lit = lit) :
    strEq (cstr p) lit = decide (cstr p = lit) := by
  unfold strEq
  rw [cstr_cstr, hl]
  by_cases h : cstr p = lit <;> simp [h]

/-- An inbound datagram of no bytes is not accepted. -/
theorem receiveMessage_empty (c : WifiController) (w : World) (d : Datagram)
    (rest : List (Option Datagram)) (msg : List Nat) (hin : w.inbox = some d :: rest)
    (he : d.payload = []) :
    WifiController.receiveMessage c w msg =
      (0, msg, { c with udp := { remoteIP := d.ip, remotePort := d.port } },
        { w with inbox := rest }) := by
  unfold WifiController.receiveMessage
  rw [hin]
  simp [he]

/-- A poll that does not find an accepted datagram reading `lit` does not satisfy the test
`bytesReceived > 0 && message == lit`. -/
theorem receive_not_lit (c : WifiController) (w : World) (msg lit : List Nat)
    (hl : cstr lit = lit)
    (hbad : ∀ d, w.inbox[0]? = some (some d) →
      d.ip.o3 = 255 ∨ d.ip.o3 = w.localIP.o3 ∨ cstr d.payload ≠ lit) :
    ¬ ((WifiController.receiveMessage c w msg).1 > 0 ∧
      strEq (WifiController.receiveMessage c w msg).2.1 lit = true) := by
  cases hin : w.inbox with
  | nil => rw [receiveMessage_none c w msg (by simp [hin])]; simp
  | cons e rest =>
    cases e with
    | none => rw [receiveMessage_none c w msg (by simp [hin])]; simp
    | some d =>
      have hb := hbad d (by rw [hin]; simp)
      by_cases hf : d.ip.o3 = 255 ∨ d.ip.o3 = w.localIP.o3
      · rw [receiveMessage_filtered c w d rest msg hin hf]; simp
      · by_cases he : d.payload = []
        · rw [receiveMessage_empty c w d rest msg hin he]; simp
        · have hne : cstr d.payload ≠ lit := by
            rcases hb with h | h | h
            · exact absurd (Or.inl h) hf
            · exact absurd (Or.inr h) hf
            · exact h
          rw [receiveMessage_accepted c w d rest msg hin (fun h => hf (Or.inl h))
            (fun h => hf (Or.inr h)) he]
          simp only [strEq_cstr _ _ hl, decide_eq_true_eq]
          exact fun h => hne h.2

/-- The reply loop when no poll of the window finds an accepted datagram reading `"pong"`:
it ends on its condition with `connected` cleared as soon as one poll was made, and the rest
of the session untouched. -/
theorem pongLoop_no_pong (startTime : Nat) : ∀ (clk : List Nat) (msg : List Nat)
    (c : WifiController) (w : World),
    (∃ t ∈ clk, ¬ sub32 t startTime < 1000) →
    (∀ j, j < pollCount startTime clk → ∀ e, w.inbox[j]? = some (some e) →
      e.ip.o3 = 255 ∨ e.ip.o3 = w.localIP.o3 ∨ cstr e.payload ≠ msgPong) →
    ∃ msg1 c1 w1, WifiController.pongLoop startTime clk msg c w = .ok (msg1, c1, w1) ∧
      c1.connected = (if pollCount startTime clk = 0 then c.connected else false) ∧
      c1.client = c.client ∧ c1.lastPingTime = c.lastPingTime ∧ c1.led = c.led ∧
      c1.lastBroadcastTime = c.lastBroadcastTime ∧ w1.sent = w.sent ∧
      w1.localIP = w.localIP ∧ w1.tx = w.tx ∧
      w1.inbox = w.inbox.drop (pollCount startTime clk) ∧
      w1.clock = afterWindow startTime clk := by
  intro clk
  induction clk with
  | nil => intro msg c w hend _; simp at hend
  | cons t rest ih =>
    intro msg c w hend hbad
    unfold WifiController.pongLoop
    by_cases hin : sub32 t startTime < 1000
    · have hpc : pollCount startTime (t :: rest) = pollCount startTime rest + 1 := by
        simp [pollCount, List.takeWhile_cons, hin]
      have haw : afterWindow startTime (t :: rest) = afterWindow startTime rest := by
        simp [afterWindow, List.dropWhile_cons, hin]
      have hend1 : ∃ u ∈ rest, ¬ sub32 u startTime < 1000 := by
        obtain ⟨u, hu, hnu⟩ := hend
        rcases List.mem_cons.1 hu with h | h
        · subst h; exact absurd hin hnu
        · exact ⟨u, h, hnu⟩
      obtain ⟨f1, f2, f3, f4, f5, f6, f7, f8, f9⟩ := receiveMessage_frame c w msg
      have hbrk := receive_not_lit c w msg msgPong (by decide)
        (fun d hd => hbad 0 (by omega) d hd)
      rw [if_pos hin]
      simp only [hbrk, if_false]
      obtain ⟨m1, c1, w1, hrun, g1, g2, g3, g4, g5, g6, g7, g8, g9, g10⟩ :=
        ih (WifiController.receiveMessage c w msg).2.1
          { (WifiController.receiveMessage c w msg).2.2.1 with connected := false }
          (WifiController.receiveMessage c w msg).2.2.2 hend1 (by
            intro j hj e he
            rw [f9] at he
            rw [f7]
            refine hbad (j + 1) (by omega) e ?_
            cases hw : w.inbox with
            | nil => rw [hw] at he; simp at he
            | cons x xs => rw [hw] at he; simpa using he)
      refine ⟨m1, c1, w1, hrun, ?_, by rw [g2]; exact f1, by rw [g3]; exact f3,
        by rw [g4]; exact f4, by rw [g5]; exact f5, by rw [g6]; exact f6,
        by rw [g7]; exact f7, by rw [g8]; exact f8, ?_, by rw [g10, haw]⟩
      · rw [g1, hpc]
        simp
      · rw [g9, f9, hpc]
        cases w.inbox <;> simp
    · have hpc : pollCount startTime (t :: rest) = 0 := by
        simp [pollCount, List.takeWhile_cons, hin]
      have haw : afterWindow startTime (t :: rest) = rest := by
        simp [afterWindow, List.dropWhile_cons, hin]
      rw [if_neg hin, hpc, haw]
      exact ⟨_, _, _, rfl, by simp, rfl, rfl, rfl, rfl, rfl, rfl, rfl, by simp, rfl⟩

/-- The reply loop never changes the peer session record or last-liveness. -/
theorem pongLoop_client (startTime : Nat) : ∀ (clk : List Nat) (msg : List Nat)
    (c : WifiController) (w : World) (msg1 : List Nat) (c1 : WifiController) (w1 : World),
    WifiController.pongLoop startTime clk msg c w = .ok (msg1, c1, w1) →
    c1.client = c.client ∧ c1.lastPingTime = c.lastPingTime := by
  intro clk
  induction clk with
  | nil => intro msg c w msg1 c1 w1 h; simp [WifiController.pongLoop] at h
  | cons t rest ih =>
    intro msg c w msg1 c1 w1 h
    obtain ⟨f1, _, f3, _⟩ := receiveMessage_frame c w msg
    unfold WifiController.pongLoop at h
    by_cases hin : sub32 t startTime < 1000
    · rw [if_pos hin] at h
      by_cases hbrk : (WifiController.receiveMessage c w msg).1 > 0 ∧
          strEq (WifiController.receiveMessage c w msg).2.1 msgPong = true
      · simp only [hbrk, and_self, if_true, Except.ok.injEq, Prod.mk.injEq] at h
        rw [← h.2.1]
        exact ⟨f1, f3⟩
      · simp only [hbrk, if_false] at h
        obtain ⟨g1, g2⟩ := ih _ _ _ _ _ _ h
        exact ⟨by rw [g1]; exact f1, by rw [g2]; exact f3⟩
    · rw [if_neg hin] at h
      simp only [Except.ok.injEq, Prod.mk.injEq] at h
      rw [← h.2.1]
      exact ⟨rfl, rfl⟩

/-- No call of `isClientConnected` changes the peer session record. -/
theorem isClientConnected_client (c : WifiController) (w : World) (r : Bool)
    (c1 : WifiController) (w1 : World)
    (h : WifiController.isClientConnected c w = .ok (r, c1, w1)) : c1.client = c.client := by
  unfold WifiController.isClientConnected at h
  by_cases hc : c.connected = true
  · rw [if_pos hc] at h
    cases hm : millis w with
    | error e => rw [hm] at h; simp at h
    | ok r1 =>
      obtain ⟨cur, wa⟩ := r1
      rw [hm] at h
      try simp only [] at h
      by_cases hdue : sub32 cur c.lastPingTime ≥ 60000
      · rw [if_pos hdue] at h
        try simp only [] at h
        cases hm2 : millis (WifiController.sendMessage c wa msgPing).2 with
        | error e => rw [hm2] at h; simp at h
        | ok r2 =>
          obtain ⟨st, wb⟩ := r2
          rw [hm2] at h
          try simp only [] at h
          cases hp : WifiController.pongLoop st wb.clock msgPing c wb with
          | error e => rw [hp] at h; simp at h
          | ok r3 =>
            obtain ⟨m3, c3, w3⟩ := r3
            rw [hp] at h
            have hcl := (pongLoop_client st wb.clock msgPing c wb m3 c3 w3 hp).1
            try simp only [] at h
            by_cases hc3 : c3.connected = true
            · simp only [hc3, Bool.not_true, Bool.false_eq_true, if_false, Except.ok.injEq,
                Prod.mk.injEq] at h
              rw [← h.2.1]
              exact hcl
            · have hc3' : c3.connected = false := by simpa using hc3
              simp only [hc3', Bool.not_false, if_true, Except.ok.injEq, Prod.mk.injEq] at h
              rw [← h.2.1]
              exact hcl
      · rw [if_neg hdue] at h
        simp only [Except.ok.injEq, Prod.mk.injEq] at h
        rw [← h.2.1]
  · rw [if_neg hc] at h
    simp only [Except.ok.injEq, Prod.mk.injEq] at h
    rw [← h.2.1]

/-- What `receiveMessage` does to the controller and the world when a datagram is pending,
accepted or not. -/
theorem receiveMessage_some (c : WifiController) (w : World) (d : Datagram)
    (rest : List (Option Datagram)) (msg : List Nat) (hin : w.inbox = some d :: rest) :
    (WifiController.receiveMessage c w msg).2.2 =
      ({ c with udp := { remoteIP := d.ip, remotePort := d.port } },
        { w with inbox := rest }) := by
  by_cases hf : d.ip.o3 = 255 ∨ d.ip.o3 = w.localIP.o3
  · rw [receiveMessage_filtered c w d rest msg hin hf]
  · by_cases he : d.payload = []
    · rw [receiveMessage_empty c w d rest msg hin he]
    · rw [receiveMessage_accepted c w d rest msg hin (fun h => hf (Or.inl h))
        (fun h => hf (Or.inr h)) he]

/-- When the pending datagram, if any, is not an accepted one that reads as the pass-phrase,
`checkIncomingClients` only consumes it and runs the broadcast. -/
theorem checkIncomingClients_no_pair (c : WifiController) (w : World)
    (hbad : ∀ d, w.inbox[0]? = some (some d) →
      d.ip.o3 = 255 ∨ d.ip.o3 = w.localIP.o3 ∨ cstr d.payload ≠ cstr PASS_PHRASE) :
    WifiController.checkIncomingClients c w =
      WifiController.broadcastIP (WifiController.receiveMessage c w []).2.2.1
        (WifiController.receiveMessage c w []).2.2.2 1000 := by
  have hnot := receive_not_lit c w [] (cstr PASS_PHRASE) (by decide) hbad
  have hstr : ∀ x, strEq x (cstr PASS_PHRASE) = strEq x PASS_PHRASE := fun x => by
    unfold strEq; rw [cstr_cstr]
  rw [hstr] at hnot
  unfold WifiController.checkIncomingClients
  by_cases h0 : (WifiController.receiveMessage c w []).1 ≠ 0
  · have hs : strEq (WifiController.receiveMessage c w []).2.1 PASS_PHRASE = false := by
      cases hv : strEq (WifiController.receiveMessage c w []).2.1 PASS_PHRASE with
      | false => rfl
      | true => exact absurd ⟨Nat.pos_of_ne_zero h0, hv⟩ hnot
    simp only [h0, ne_eq, not_false_eq_true, if_true, hs, Bool.false_eq_true, if_false]
  · simp only [h0, if_false]

/-- When the pending datagram is an accepted one that reads as the pass-phrase,
`checkIncomingClients` makes its sender the peer, replies `"Hello"`, records the clock
reading and runs the broadcast. -/
theorem checkIncomingClients_pair (c : WifiController) (w : World) (d : Datagram)
    (rest : List (Option Datagram)) (t : Nat) (clk : List Nat)
    (hin : w.inbox = some d :: rest) (hclk : w.clock = t :: clk)
    (hpay : cstr d.payload = cstr PASS_PHRASE)
    (h255 : d.ip.o3 ≠ 255) (hself : d.ip.o3 ≠ w.localIP.o3) :
    WifiController.checkIncomingClients c w =
      WifiController.broadcastIP
        { c with udp := ⟨d.ip, d.port⟩, client := ⟨d.ip, d.port⟩, connected := true,
                 lastPingTime := t }
        { w with inbox := rest, clock := clk,
                 sent := w.sent ++ [⟨d.ip, d.port, msgHello,
                   (w.tx w.sent.length).beginPacket && (w.tx w.sent.length).endPacket⟩] }
        1000 := by
  have hne : d.payload ≠ [] := by
    intro h
    rw [h] at hpay
    exact absurd hpay (by decide)
  have hrecv := receiveMessage_accepted c w d rest [] hin h255 hself hne
  have hlen : d.payload.length ≠ 0 := fun h => hne (List.length_eq_zero.1 h)
  have hstr : strEq (cstr d.payload) PASS_PHRASE = true := by
    unfold strEq
    rw [cstr_cstr, hpay]
    simp
  unfold WifiController.checkIncomingClients
  rw [hrecv]
  simp only [hlen, ne_eq, not_false_eq_true, if_true, hstr]
  unfold WifiController.sendMessage
  cases hb : (w.tx w.sent.length).beginPacket <;> cases he : (w.tx w.sent.length).endPacket <;>
    simp [hb, he, millis, hclk]

/-- With the network up and the LED already showing `WIFI_CONNECTED`, `isWiFiConnected`
returns true and changes nothing. -/
theorem isWiFiConnected_up (c : WifiController) (w : World)
    (hled : c.led.status = WIFI_CONNECTED) :
    WifiController.isWiFiConnected c w WL_CONNECTED = .ok (true, c, w) := by
  unfold WifiController.isWiFiConnected
  simp [hled]

/-- `isWiFiConnected` changes no member of the controller but the LED. -/
theorem isWiFiConnected_frame (c : WifiController) (w : World) (wifiStatus : Nat) (up : Bool)
    (c0 : WifiController) (w0 : World)
    (h : WifiController.isWiFiConnected c w wifiStatus = .ok (up, c0, w0)) :
    ∃ led, c0 = { c with led := led } := by
  unfold WifiController.isWiFiConnected at h
  split at h
  · split at h
    · cases hs : StatusLED.SetStatus c.led w WIFI_CONNECTED true 1000 with
      | error e => rw [hs] at h; simp at h
      | ok r =>
        rw [hs] at h
        simp only [Except.ok.injEq, Prod.mk.injEq] at h
        exact ⟨r.1, h.2.1.symm⟩
    · simp only [Except.ok.injEq, Prod.mk.injEq] at h
      exact ⟨c.led, h.2.1.symm⟩
  · cases hs : StatusLED.SetStatus c.led w WIFI_CONNECTION_LOST true 0 with
    | error e => rw [hs] at h; simp at h
    | ok r =>
      rw [hs] at h
      simp only [Except.ok.injEq, Prod.mk.injEq] at h
      exact ⟨r.1, h.2.1.symm⟩

/-- An iteration of `loop` in which `isWiFiConnected` returned true: what follows the
liveness check. -/
theorem loop_after_up (c : WifiController) (w : World) (wifiStatus : Nat)
    (c0 : WifiController) (w0 : World)
    (h : WifiController.isWiFiConnected c w wifiStatus = .ok (true, c0, w0)) :
    loop c w wifiStatus =
      match WifiController.isClientConnected c0 w0 with
      | .error e => .error e
      | .ok (live, c2, w2) =>
        if !live then WifiController.checkIncomingClients c2 w2
        else
          if (WifiController.receiveMessage c2 w2 []).1 > 0 then
            .ok ((WifiController.receiveMessage c2 w2 []).2.2.1,
              (WifiController.sendMessage (WifiController.receiveMessage c2 w2 []).2.2.1
                (WifiController.receiveMessage c2 w2 []).2.2.2 msgOK).2)
          else .ok ((WifiController.receiveMessage c2 w2 []).2.2.1,
            (WifiController.receiveMessage c2 w2 []).2.2.2) := by
  unfold loop
  rw [h]
  simp only [if_true]

/-- An iteration of `loop` with the network up and the LED already showing
`WIFI_CONNECTED`. -/
theorem loop_up (c : WifiController) (w : World) (hled : c.led.status = WIFI_CONNECTED) :
    loop c w WL_CONNECTED =
      match WifiController.isClientConnected c w with
      | .error e => .error e
      | .ok (live, c2, w2) =>
        if !live then WifiController.checkIncomingClients c2 w2
        else
          if (WifiController.receiveMessage c2 w2 []).1 > 0 then
            .ok ((WifiController.receiveMessage c2 w2 []).2.2.1,
              (WifiController.sendMessage (WifiController.receiveMessage c2 w2 []).2.2.1
                (WifiController.receiveMessage c2 w2 []).2.2.2 msgOK).2)
          else .ok ((WifiController.receiveMessage c2 w2 []).2.2.1,
            (WifiController.receiveMessage c2 w2 []).2.2.2) :=
  loop_after_up c w WL_CONNECTED c w (isWiFiConnected_up c w hled)

/-- The reply loop sends nothing. -/
theorem pongLoop_sent (startTime : Nat) : ∀ (clk : List Nat) (msg : List Nat)
    (c : WifiController) (w : World) (msg1 : List Nat) (c1 : WifiController) (w1 : World),
    WifiController.pongLoop startTime clk msg c w = .ok (msg1, c1, w1) → w1.sent = w.sent := by
  intro clk
  induction clk with
  | nil => intro msg c w msg1 c1 w1 h; simp [WifiController.pongLoop] at h
  | cons t rest ih =>
    intro msg c w msg1 c1 w1 h
    obtain ⟨_, _, _, _, _, f6, _⟩ := receiveMessage_frame c w msg
    unfold WifiController.pongLoop at h
    by_cases hin : sub32 t startTime < 1000
    · rw [if_pos hin] at h
      by_cases hbrk : (WifiController.receiveMessage c w msg).1 > 0 ∧
          strEq (WifiController.receiveMessage c w msg).2.1 msgPong = true
      · simp only [hbrk, and_self, if_true, Except.ok.injEq, Prod.mk.injEq] at h
        rw [← h.2.2]
        exact f6
      · simp only [hbrk, if_false] at h
        rw [ih _ _ _ _ _ _ h]
        exact f6
    · rw [if_neg hin] at h
      simp only [Except.ok.injEq, Prod.mk.injEq] at h
      rw [← h.2.2]

/-- A liveness check that is due hands exactly one `"ping"` for the peer to the transport. -/
theorem isClientConnected_due (c : WifiController) (w : World) (cur : Nat) (clk : List Nat)
    (hconn : c.connected = true) (hclk : w.clock = cur :: clk)
    (hdue : sub32 cur c.lastPingTime ≥ 60000) (r : Bool) (c1 : WifiController) (w1 : World)
    (h : WifiController.isClientConnected c w = .ok (r, c1, w1)) :
    w1.sent = w.sent ++ [⟨c.client.ip, c.client.port, msgPing,
      (w.tx w.sent.length).beginPacket && (w.tx w.sent.length).endPacket⟩] := by
  unfold WifiController.isClientConnected at h
  rw [if_pos hconn, millis_cons w cur clk hclk] at h
  simp only [hdue, ge_iff_le, if_true, sendMessage_world] at h
  cases hm2 : millis { w with clock := clk, sent := w.sent ++ [⟨c.client.ip, c.client.port,
      msgPing, (w.tx w.sent.length).beginPacket && (w.tx w.sent.length).endPacket⟩] } with
  | error e => rw [hm2] at h; simp at h
  | ok r2 =>
    obtain ⟨st, wb⟩ := r2
    obtain ⟨clk2, _, hwb⟩ := millis_ok _ _ _ hm2
    rw [hm2] at h
    simp only [] at h
    cases hp : WifiController.pongLoop st wb.clock msgPing c wb with
    | error e => rw [hp] at h; simp at h
    | ok r3 =>
      obtain ⟨m3, c3, w3⟩ := r3
      rw [hp] at h
      have hs := pongLoop_sent st wb.clock msgPing c wb m3 c3 w3 hp
      have hw3 : w3.sent = w.sent ++ [⟨c.client.ip, c.client.port, msgPing,
          (w.tx w.sent.length).beginPacket && (w.tx w.sent.length).endPacket⟩] := by
        rw [hs, hwb]
      simp only [] at h
      cases hc3 : c3.connected with
      | false =>
        simp only [hc3, Bool.not_false, if_true, Except.ok.injEq, Prod.mk.injEq] at h
        rw [← h.2.2]
        exact hw3
      | true =>
        simp only [hc3, Bool.not_true, Bool.false_eq_true, if_false, Except.ok.injEq,
          Prod.mk.injEq] at h
        rw [← h.2.2]
        exact hw3

/-! ## Lemmas on the recording text -/

/-- The accumulator of `decimalAux` is a suffix of its result. -/
theorem decimalAux_acc : ∀ (fuel n : Nat) (acc : List Nat),
    decimalAux fuel n acc = decimalAux fuel n [] ++ acc := by
  intro fuel
  induction fuel with
  | zero => intro n acc; simp [decimalAux]
  | succ f ih =>
    intro n acc
    unfold decimalAux
    by_cases h : n / 10 = 0
    · simp [h]
    · simp only [h, if_false]
      rw [ih (n / 10) ((48 + n % 10) :: acc), ih (n / 10) [48 + n % 10]]
      simp

/-- Any fuel above `n` gives the same digits. -/
theorem decimalAux_fuel : ∀ (f1 f2 n : Nat) (acc : List Nat), n < f1 → n < f2 →
    decimalAux f1 n acc = decimalAux f2 n acc := by
  intro f1
  induction f1 with
  | zero => intro f2 n acc h; omega
  | succ k ih =>
    intro f2 n acc h1 h2
    obtain ⟨j, rfl⟩ : ∃ j, f2 = j + 1 := ⟨f2 - 1, by omega⟩
    unfold decimalAux
    by_cases h : n / 10 = 0
    · simp [h]
    · simp only [h, if_false]
      exact ih j (n / 10) _ (by omega) (by omega)

theorem decimal_small (n : Nat) (h : n / 10 = 0) : decimal n = [48 + n % 10] := by
  unfold decimal decimalAux
  simp [h]

theorem decimal_step (n : Nat) (h : n / 10 ≠ 0) :
    decimal n = decimal (n / 10) ++ [48 + n % 10] := by
  have h1 : decimal n = decimalAux n (n / 10) [48 + n % 10] := by
    unfold decimal
    rw [decimalAux]
    simp only [h, if_false]
  rw [h1, decimalAux_acc]
  unfold decimal
  rw [decimalAux_fuel n (n / 10 + 1) (n / 10) [] (by omega) (by omega)]

/-- The text of `"%d"` is a non-empty string of digits. -/
theorem decimal_digits (n : Nat) : IsDigits (decimal n) ∧ decimal n ≠ [] := by
  induction n using Nat.strong_induction_on with
  | _ n ih =>
    by_cases h : n / 10 = 0
    · rw [decimal_small n h]
      refine ⟨?_, by simp⟩
      intro c hc
      simp only [List.mem_singleton] at hc
      omega
    · rw [decimal_step n h]
      obtain ⟨hd, _⟩ := ih (n / 10) (by omega)
      refine ⟨?_, by simp⟩
      intro c hc
      rcases List.mem_append.1 hc with hc | hc
      · exact hd c hc
      · simp only [List.mem_singleton] at hc
        omega

/-- The digit loop of `atoi` runs through a string of digits. -/
theorem atoiDigits_append : ∀ (l r : List Nat) (acc : Int), IsDigits l →
    atoiDigits acc (l ++ r) = atoiDigits (atoiDigits acc l) r := by
  intro l
  induction l with
  | nil => intro r acc _; rfl
  | cons c t ih =>
    intro r acc hd
    have hc := hd c (List.mem_cons_self _ _)
    simp only [List.cons_append, atoiDigits, hc, and_self, if_true]
    exact ih r _ (fun x hx => hd x (List.mem_cons_of_mem _ hx))

/-- The digit loop of `atoi` reads back what `"%d"` printed. -/
theorem atoiDigits_decimal (n : Nat) : atoiDigits 0 (decimal n) = (n : Int) := by
  induction n using Nat.strong_induction_on with
  | _ n ih =>
    by_cases h : n / 10 = 0
    · rw [decimal_small n h]
      have h1 : 48 ≤ 48 + n % 10 ∧ 48 + n % 10 ≤ 57 := by omega
      simp only [atoiDigits, h1, and_self, if_true]
      omega
    · rw [decimal_step n h, atoiDigits_append _ _ _ (decimal_digits (n / 10)).1,
        ih (n / 10) (by omega)]
      have h1 : 48 ≤ 48 + n % 10 ∧ 48 + n % 10 ≤ 57 := by omega
      simp only [atoiDigits, h1, and_self, if_true]
      omega

/-- `atoi` reads back what `"%d"` printed for a non-negative value. -/
theorem atoi_decimal (n : Nat) : atoi (decimal n) = (n : Int) := by
  obtain ⟨hd, hne⟩ := decimal_digits n
  have hval := atoiDigits_decimal n
  cases hdec : decimal n with
  | nil => exact absurd hdec hne
  | cons c t =>
    rw [hdec] at hd hval
    have hc := hd c (List.mem_cons_self _ _)
    have hsp : isspace c = false := by
      unfold isspace
      have h1 : (c == 32) = false := by simp; omega
      have h2 : decide (c ≤ 13) = false := by simp; omega
      simp [h1, h2]
    unfold atoi
    rw [List.dropWhile_cons, hsp]
    simp only [Bool.false_eq_true, if_false]
    split
    · rename_i heq
      have : c = 45 := by injection heq
      omega
    · rename_i heq
      have : c = 43 := by injection heq
      omega
    · exact hval

/-- The loop of `makeText` appends the comma-separated decimal texts. -/
theorem makeTextLoop_eq : ∀ (vs text : List Nat),
    IRController.makeTextLoop vs text = text ++ joinDecimal vs := by
  intro vs
  induction vs with
  | nil => intro text; simp [IRController.makeTextLoop, joinDecimal]
  | cons v rest ih =>
    intro text
    unfold IRController.makeTextLoop joinDecimal
    simp only
    rw [ih]
    cases rest with
    | nil => simp [joinDecimal]
    | cons x xs => simp

/-- Between the brackets there are only digits and commas. -/
theorem joinDecimal_chars : ∀ (vs : List Nat), ∀ c ∈ joinDecimal vs,
    (48 ≤ c ∧ c ≤ 57) ∨ c = 44 := by
  intro vs
  induction vs with
  | nil => intro c hc; simp [joinDecimal] at hc
  | cons v rest ih =>
    intro c hc
    unfold joinDecimal at hc
    rcases List.mem_append.1 hc with h | h
    · exact Or.inl ((decimal_digits _).1 c h)
    · cases rest with
      | nil => simp at h
      | cons x xs =>
        simp only [List.isEmpty_cons, Bool.false_eq_true, if_false, List.mem_cons] at h
        rcases h with h | h
        · exact Or.inr h
        · exact ih c h

theorem beginsWith_append : ∀ (l x : List Nat), beginsWith (l ++ x) l = true := by
  intro l
  induction l with
  | nil => intro x; cases x <;> rfl
  | cons a t ih => intro x; simp [beginsWith, ih]

/-- `strstr` finds a string at the start of a string that begins with it. -/
theorem strstr_begins (l x : List Nat) : strstr (l ++ x) l = some 0 := by
  cases h : l ++ x with
  | nil =>
    have := beginsWith_append l x
    rw [h] at this
    simp [strstr, this]
  | cons c rest =>
    have := beginsWith_append l x
    rw [h] at this
    simp [strstr, this]

/-- `strstr(s, "]")` returns the first `']'`. -/
theorem strstr_bracket : ∀ (l r : List Nat), (∀ c ∈ l, c ≠ 93) →
    strstr (l ++ 93 :: r) [93] = some l.length := by
  intro l
  induction l with
  | nil => intro r _; simp [strstr, beginsWith]
  | cons a t ih =>
    intro r h
    have ha : a ≠ 93 := h a (List.mem_cons_self _ _)
    have hb : beginsWith (a :: (t ++ 93 :: r)) [93] = false := by
      simp [beginsWith, ha]
    simp only [List.cons_append, strstr, List.append_eq, hb, Bool.false_eq_true, if_false]
    rw [ih r (fun c hc => h c (List.mem_cons_of_mem _ hc))]
    simp

/-- `strtok` runs through characters that are not the delimiter. -/
theorem strtokAll_run : ∀ (ds rest cur : List Nat), (∀ c ∈ ds, c ≠ 44) →
    strtokAll (ds ++ rest) cur = strtokAll rest (cur ++ ds) := by
  intro ds
  induction ds with
  | nil => intro rest cur _; simp
  | cons a t ih =>
    intro rest cur h
    have ha : a ≠ 44 := h a (List.mem_cons_self _ _)
    simp only [List.cons_append, strtokAll, List.append_eq, ha, if_false]
    rw [ih rest (cur ++ [a]) (fun c hc => h c (List.mem_cons_of_mem _ hc))]
    simp

/-- The tokens of the text between the brackets are the decimal texts of the elements. -/
theorem strtokAll_joinDecimal : ∀ (vs : List Nat),
    strtokAll (joinDecimal vs) [] = vs.map (fun v => decimal (v % 65536)) := by
  intro vs
  induction vs with
  | nil => simp [joinDecimal, strtokAll]
  | cons v rest ih =>
    obtain ⟨hd, hne⟩ := decimal_digits (v % 65536)
    have hnc : ∀ c ∈ decimal (v % 65536), c ≠ 44 := fun c hc => by
      have := hd c hc
      omega
    have hemp : (decimal (v % 65536)).isEmpty = false := by
      cases h : decimal (v % 65536) with
      | nil => exact absurd h hne
      | cons _ _ => rfl
    unfold joinDecimal
    rw [strtokAll_run _ _ _ hnc]
    cases rest with
    | nil => simp [strtokAll, hemp]
    | cons x xs =>
      simp only [List.isEmpty_cons, Bool.false_eq_true, if_false, List.nil_append, strtokAll,
        if_true, hemp, List.map_cons]
      rw [ih]
      simp

/-! ## Claims on the credential store -/

/-- C1 (as stated) fails: the network name `"a\0b"` has 3 characters, and after
`saveCredentials` on an all-zero store `loadCredentials` returns the name `"a"`. -/
theorem C1_roundtrip_fails_on_nul :
    ([97, 0, 98] : List Nat).length ≤ 31 ∧ ([120] : List Nat).length ≤ 63 ∧
      loadCredentials (saveCredentials zeroStore ⟨[97, 0, 98], [120]⟩) = ⟨[97], [120]⟩ ∧
      loadCredentials (saveCredentials zeroStore ⟨[97, 0, 98], [120]⟩) ≠
        ⟨[97, 0, 98], [120]⟩ := by
  decide

/-- C1 (amended): for every store state and every credentials pair whose network name has at
most 31 characters and whose secret has at most 63 characters, neither containing a NUL
character, `loadCredentials` after `saveCredentials` returns exactly the pair. -/
theorem C1_roundtrip (s : Store) (cred : WiFiCredentials)
    (h1 : cred.ssid.length ≤ 31) (h2 : cred.password.length ≤ 63)
    (hc1 : IsChars cred.ssid) (hc2 : IsChars cred.password)
    (hn1 : NulFree cred.ssid) (hn2 : NulFree cred.password) :
    loadCredentials (saveCredentials s cred) = cred := by
  rw [load_save, List.take_of_length_le h1, List.take_of_length_le h2,
    map_mod_of_isChars _ hc1, map_mod_of_isChars _ hc2, cstr_of_nulFree _ hn1,
    cstr_of_nulFree _ hn2]

/-- Witness of C1: the pair ("home-net", "s3cr3t") over a store full of 0xFF bytes. -/
theorem C1_roundtrip_witness :
    loadCredentials (saveCredentials (fun _ => 255)
        ⟨[104, 111, 109, 101, 45, 110, 101, 116], [115, 51, 99, 114, 51, 116]⟩) =
      ⟨[104, 111, 109, 101, 45, 110, 101, 116], [115, 51, 99, 114, 51, 116]⟩ :=
  C1_roundtrip (fun _ => 255)
    ⟨[104, 111, 109, 101, 45, 110, 101, 116], [115, 51, 99, 114, 51, 116]⟩
    (by decide) (by decide) (by decide) (by decide) (by decide) (by decide)

/-- C2 (as stated) fails: a 32-character network name whose second character is NUL is
longer than the limit, and `loadCredentials` after `saveCredentials` returns `"a"`, not its
first 31 characters. -/
theorem C2_truncation_fails_on_nul :
    31 < (97 :: 0 :: List.replicate 30 98).length ∧
      (loadCredentials (saveCredentials zeroStore
        ⟨97 :: 0 :: List.replicate 30 98, [120]⟩)).ssid = [97] ∧
      (loadCredentials (saveCredentials zeroStore
        ⟨97 :: 0 :: List.replicate 30 98, [120]⟩)).ssid ≠
        (97 :: 0 :: List.replicate 30 98).take 31 := by
  decide

/-- C2 (amended): for every store state and every credentials pair whose network name is
longer than 31 characters or whose secret is longer than 63 characters, and whose first 31
name characters and first 63 secret characters contain no NUL, `loadCredentials` after
`saveCredentials` returns the first 31 characters of the name and the first 63 characters of
the secret; a field within its limit is returned whole. -/
theorem C2_truncation (s : Store) (cred : WiFiCredentials)
    (_hlong : 31 < cred.ssid.length ∨ 63 < cred.password.length)
    (hc1 : IsChars cred.ssid) (hc2 : IsChars cred.password)
    (hn1 : NulFree (cred.ssid.take 31)) (hn2 : NulFree (cred.password.take 63)) :
    loadCredentials (saveCredentials s cred) =
        ⟨cred.ssid.take 31, cred.password.take 63⟩ ∧
      (cred.ssid.length ≤ 31 → (loadCredentials (saveCredentials s cred)).ssid = cred.ssid) ∧
      (cred.password.length ≤ 63 →
        (loadCredentials (saveCredentials s cred)).password = cred.password) := by
  have h : loadCredentials (saveCredentials s cred) =
      ⟨cred.ssid.take 31, cred.password.take 63⟩ := by
    rw [load_save, map_mod_of_isChars _ (isChars_take _ _ hc1),
      map_mod_of_isChars _ (isChars_take _ _ hc2), cstr_of_nulFree _ hn1,
      cstr_of_nulFree _ hn2]
  refine ⟨h, fun hl => ?_, fun hl => ?_⟩
  · rw [h]; exact List.take_of_length_le hl
  · rw [h]; exact List.take_of_length_le hl

/-- Witness of C2: a 33-character network name and a 3-character secret. -/
theorem C2_truncation_witness :
    loadCredentials (saveCredentials zeroStore ⟨List.replicate 33 97, [120, 121, 122]⟩) =
        ⟨List.replicate 31 97, [120, 121, 122]⟩ :=
  (C2_truncation zeroStore ⟨List.replicate 33 97, [120, 121, 122]⟩
    (by decide) (by decide) (by decide) (by decide) (by decide)).1

/-- C3 (as stated) fails: both strings are non-empty, the name starts with a NUL character,
and `hasCredentials` is false after `saveCredentials`. -/
theorem C3_save_nul_name_not_has :
    ([0, 97] : List Nat) ≠ [] ∧ ([120] : List Nat) ≠ [] ∧
      hasCredentials (saveCredentials zeroStore ⟨[0, 97], [120]⟩) = false := by
  decide

/-- C3 (amended): for every store state and every credentials pair in which both the network
name and the secret begin with a non-NUL character (so both are non-empty),
`hasCredentials` returns true after `saveCredentials`. -/
theorem C3_has_after_save (s : Store) (cred : WiFiCredentials)
    (h1 : BeginsNonNul cred.ssid) (h2 : BeginsNonNul cred.password) :
    hasCredentials (saveCredentials s cred) = true :=
  hasCredentials_saveCredentials s cred h1 h2

/-- Witness of C3: the pair ("a", "x") over a store full of 0xFF bytes. -/
theorem C3_has_after_save_witness :
    hasCredentials (saveCredentials (fun _ => 255) ⟨[97], [120]⟩) = true :=
  C3_has_after_save (fun _ => 255) ⟨[97], [120]⟩ (by decide) (by decide)

/-- C4: on a store whose bytes are all zero `hasCredentials` is false and `loadCredentials`
returns two empty strings; and for every store state, after `clearCredentials` every byte at
offsets 0..95 and the flag byte at offset 96 is zero, `hasCredentials` is false and
`loadCredentials` returns two empty strings. -/
theorem C4_zero_and_clear (s : Store) :
    ((∀ a, s a = 0) → hasCredentials s = false ∧ loadCredentials s = ⟨[], []⟩) ∧
      (∀ a, a ≤ 96 → clearCredentials s a = 0) ∧
      hasCredentials (clearCredentials s) = false ∧
      loadCredentials (clearCredentials s) = ⟨[], []⟩ := by
  have hfalse : ∀ t : Store, t 96 = 0 → hasCredentials t = false := by
    intro t ht
    cases hh : hasCredentials t with
    | false => rfl
    | true => exact absurd ht ((hasCredentials_iff t).1 hh).1
  have hclr : ∀ a, a ≤ 96 → clearCredentials s a = 0 := by
    intro a ha
    rw [clearCredentials_apply, if_pos ha]
  exact ⟨fun hz => ⟨hfalse s (hz 96), loadCredentials_of_zero s (hz 0) (hz 32)⟩, hclr,
    hfalse _ (hclr 96 (by omega)),
    loadCredentials_of_zero _ (hclr 0 (by omega)) (hclr 32 (by omega))⟩

/-- Witness of C4: the all-zero store. -/
theorem C4_zero_and_clear_witness :
    hasCredentials zeroStore = false ∧ loadCredentials zeroStore = ⟨[], []⟩ :=
  (C4_zero_and_clear zeroStore).1 (fun _ => rfl)

/-- C5: for every store state, `hasCredentials` returns true if and only if the initialized
flag is set and both fields returned by `loadCredentials` have length greater than 0; the flag
read by `get_initialized` is set exactly when the byte at offset 96 is not zero. -/
theorem C5_hasCredentials_iff (s : Store) :
    (hasCredentials s = true ↔
      get_initialized s = true ∧ (loadCredentials s).ssid.length > 0 ∧
        (loadCredentials s).password.length > 0) ∧
      (get_initialized s = true ↔ s 96 ≠ 0) := by
  have hr : EEPROM.read s INIT_ADDRESS = s 96 :=
    read_eq s _ (by simp [INIT_ADDRESS, PASS_ADDRESS, SSID_ADDRESS, SSID_LENGTH, PASS_LENGTH,
      EEPROM_SIZE])
  have hg : get_initialized s = true ↔ s 96 ≠ 0 := by
    simp [get_initialized, hr]
  exact ⟨by rw [hg]; exact hasCredentials_iff s, hg⟩

/-- C6 (as stated) fails: from the all-zero store, one `saveCredentials` with an empty network
name sets the initialized flag although `loadCredentials` returns an empty name. -/
theorem C6_flag_set_with_empty_name :
    get_initialized (runOps zeroStore [StoreOp.save ⟨[], [120]⟩]) = true ∧
      (loadCredentials (runOps zeroStore [StoreOp.save ⟨[], [120]⟩])).ssid = [] := by
  decide

/-- C6 (amended): in every store state reachable from an all-zero store by any sequence of
`clearCredentials` calls and of `saveCredentials` calls whose network name and secret both
begin with a non-NUL character, the initialized flag is true only if both fields returned by
`loadCredentials` are non-empty. -/
theorem C6_store_invariant (ops : List StoreOp)
    (hops : ∀ op ∈ ops, ∀ cred, op = StoreOp.save cred →
      BeginsNonNul cred.ssid ∧ BeginsNonNul cred.password)
    (hflag : get_initialized (runOps zeroStore ops) = true) :
    (loadCredentials (runOps zeroStore ops)).ssid ≠ [] ∧
      (loadCredentials (runOps zeroStore ops)).password ≠ [] := by
  have h96 : runOps zeroStore ops 96 ≠ 0 := by
    have hr : EEPROM.read (runOps zeroStore ops) INIT_ADDRESS = runOps zeroStore ops 96 :=
      read_eq _ _ (by simp [INIT_ADDRESS, PASS_ADDRESS, SSID_ADDRESS, SSID_LENGTH, PASS_LENGTH,
        EEPROM_SIZE])
    simpa [get_initialized, hr] using hflag
  have hhas := runOps_flag_inv ops zeroStore hops (fun h => absurd rfl h) h96
  obtain ⟨_, h1, h2⟩ := (hasCredentials_iff _).1 hhas
  exact ⟨List.ne_nil_of_length_pos h1, List.ne_nil_of_length_pos h2⟩

/-- Witness of C6: save ("a", "x"), clear, save ("b", "y"). -/
theorem C6_store_invariant_witness :
    (loadCredentials (runOps zeroStore
        [StoreOp.save ⟨[97], [120]⟩, StoreOp.clear, StoreOp.save ⟨[98], [121]⟩])).ssid ≠ [] ∧
      (loadCredentials (runOps zeroStore
        [StoreOp.save ⟨[97], [120]⟩, StoreOp.clear, StoreOp.save ⟨[98], [121]⟩])).password ≠
        [] :=
  C6_store_invariant [StoreOp.save ⟨[97], [120]⟩, StoreOp.clear, StoreOp.save ⟨[98], [121]⟩]
    (by
      intro op hop cred hc
      subst hc
      simp only [List.mem_cons, StoreOp.save.injEq, List.mem_singleton, reduceCtorEq,
        or_false, false_or, List.not_mem_nil] at hop
      rcases hop with h | h <;> subst h <;> decide)
    (by decide)

/-- C7: for every store state and every credentials pair, `saveCredentials` writes the
truncated network name at offsets 0, 1, ... followed by one zero byte, the truncated secret at
offsets 32, 33, ... followed by one zero byte, and a true flag at offset 96; the name writes
(terminator included) stay in [0,32), the secret writes (terminator included) stay in
[32,96); every other byte of the store, in particular every byte at offset 97 or above, is
unchanged. -/
theorem C7_save_layout_frame (s : Store) (cred : WiFiCredentials) :
    (∀ j (h : j < (cred.ssid.take 31).length),
        saveCredentials s cred (0 + j) = (cred.ssid.take 31)[j] % 256) ∧
      saveCredentials s cred (0 + (cred.ssid.take 31).length) = 0 ∧
      (∀ j (h : j < (cred.password.take 63).length),
        saveCredentials s cred (32 + j) = (cred.password.take 63)[j] % 256) ∧
      saveCredentials s cred (32 + (cred.password.take 63).length) = 0 ∧
      saveCredentials s cred 96 = 1 ∧
      0 + (cred.ssid.take 31).length < 32 ∧
      32 + (cred.password.take 63).length < 96 ∧
      (∀ a, ((cred.ssid.take 31).length < a ∧ a < 32) ∨
          (32 + (cred.password.take 63).length < a ∧ a < 96) ∨ 97 ≤ a →
        saveCredentials s cred a = s a) := by
  have hn : (cred.ssid.take 31).length ≤ 31 := by
    rw [List.length_take]; exact Nat.min_le_left _ _
  have hp : (cred.password.take 63).length ≤ 63 := by
    rw [List.length_take]; exact Nat.min_le_left _ _
  refine ⟨fun j h => ?_, ?_, fun j h => ?_, ?_, ?_, by omega, by omega, fun a ha => ?_⟩
  · rw [saveCredentials_apply, Nat.zero_add, ← List.getD_eq_getElem _ 0 h]
    split_ifs <;> first | rfl | omega
  · rw [saveCredentials_apply, Nat.zero_add]
    split_ifs <;> first | rfl | omega
  · rw [saveCredentials_apply, ← List.getD_eq_getElem _ 0 h]
    have : 32 + j - 32 = j := by omega
    split_ifs <;> first | omega | simp [this]
  · rw [saveCredentials_apply]
    split_ifs <;> first | rfl | omega
  · rw [saveCredentials_apply]
    simp
  · rw [saveCredentials_apply]
    split_ifs <;> first | rfl | omega

/-- Witness of C7: saving ("ab", "x") over a store full of 0xFF bytes. -/
theorem C7_save_layout_frame_witness :
    saveCredentials (fun _ => 255) ⟨[97, 98], [120]⟩ (0 + 1) = 98 ∧
      saveCredentials (fun _ => 255) ⟨[97, 98], [120]⟩ (32 + 0) = 120 ∧
      saveCredentials (fun _ => 255) ⟨[97, 98], [120]⟩ 200 = 255 :=
  ⟨(C7_save_layout_frame (fun _ => 255) ⟨[97, 98], [120]⟩).1 1 (by decide),
    (C7_save_layout_frame (fun _ => 255) ⟨[97, 98], [120]⟩).2.2.1 0 (by decide),
    (C7_save_layout_frame (fun _ => 255) ⟨[97, 98], [120]⟩).2.2.2.2.2.2.2 200
      (Or.inr (Or.inr (by decide)))⟩

/-- C27 (as stated) fails: on a store whose bytes are all 0xFF, as after an erase and never
written by `saveCredentials`, `loadCredentials` returns a network name of 32 characters and a
secret of 64 characters. -/
theorem C27_erased_store_fills_fields :
    (loadCredentials (fun _ => 255)).ssid.length = 32 ∧
      (loadCredentials (fun _ => 255)).password.length = 64 := by
  decide

/-- C27 (amended): for every store state `loadCredentials` returns a network name of at most
32 characters and a secret of at most 64 characters, the sizes of the two fields; a zero byte
at offset `k` of a field bounds the string read from it by `k`, so the name has at most 31
and the secret at most 63 characters when byte 31 resp. byte 95 of the store is zero, and in
particular after every `saveCredentials`. -/
theorem C27_load_length_bound (s : Store) :
    (loadCredentials s).ssid.length ≤ 32 ∧ (loadCredentials s).password.length ≤ 64 ∧
      (∀ k, k < 32 → s k = 0 → (loadCredentials s).ssid.length ≤ k) ∧
      (∀ k, k < 64 → s (32 + k) = 0 → (loadCredentials s).password.length ≤ k) ∧
      (∀ cred, (loadCredentials (saveCredentials s cred)).ssid.length ≤ 31 ∧
        (loadCredentials (saveCredentials s cred)).password.length ≤ 63) := by
  refine ⟨readString_length_le s SSID_ADDRESS SSID_LENGTH 0,
    readString_length_le s PASS_ADDRESS PASS_LENGTH 0, ?_, ?_, ?_⟩
  · intro k hk hz
    have hr : EEPROM.read s (SSID_ADDRESS + k) = 0 := by
      rw [read_eq _ _ (by simp only [SSID_ADDRESS, EEPROM_SIZE]; omega)]
      simpa [SSID_ADDRESS] using hz
    have := readString_length_le_zero s SSID_ADDRESS SSID_LENGTH 0 k (Nat.zero_le k)
      (by simp only [SSID_LENGTH]; omega) hr
    simpa [loadCredentials] using this
  · intro k hk hz
    have hr : EEPROM.read s (PASS_ADDRESS + k) = 0 := by
      rw [read_eq _ _ (by
        simp only [PASS_ADDRESS, SSID_ADDRESS, SSID_LENGTH, EEPROM_SIZE]; omega)]
      simpa [PASS_ADDRESS, SSID_ADDRESS, SSID_LENGTH] using hz
    have := readString_length_le_zero s PASS_ADDRESS PASS_LENGTH 0 k (Nat.zero_le k)
      (by simp only [PASS_LENGTH]; omega) hr
    simpa [loadCredentials] using this
  · intro cred
    rw [load_save]
    constructor
    · refine Nat.le_trans (cstr_length_le _) ?_
      rw [List.length_map, List.length_take]
      exact Nat.min_le_left _ _
    · refine Nat.le_trans (cstr_length_le _) ?_
      rw [List.length_map, List.length_take]
      exact Nat.min_le_left _ _

/-! ## Claims on the discovery protocol -/

/-- C8: for every prior protocol state, when `checkIncomingClients` receives a datagram whose
payload equals the pass-phrase from a sender whose last address octet is neither 255 nor the
local one, it sets the peer session to the sender's address and port, sets `connected`,
records the clock reading as last-liveness and hands exactly one datagram, `"Hello"`, for that
address and port to the transport, then runs `broadcastIP(1000)`: (1) the state in which the
broadcast starts; (2) whenever the call returns, the session is as set and the log has grown
by the reply followed by at most one transmission, which is not addressed to the peer;
(3) when no broadcast is due the call returns that state; (4) the call returns whenever the
clock script holds the readings the trailing broadcast takes. -/
theorem C8_pairing (c : WifiController) (w : World) (d : Datagram)
    (rest : List (Option Datagram)) (t : Nat) (clk : List Nat)
    (hin : w.inbox = some d :: rest) (hclk : w.clock = t :: clk)
    (hpay : d.payload = cstr PASS_PHRASE)
    (h255 : d.ip.o3 ≠ 255) (hself : d.ip.o3 ≠ w.localIP.o3) :
    WifiController.checkIncomingClients c w =
        WifiController.broadcastIP
          { c with udp := ⟨d.ip, d.port⟩, client := ⟨d.ip, d.port⟩, connected := true,
                   lastPingTime := t }
          { w with inbox := rest, clock := clk,
                   sent := w.sent ++ [⟨d.ip, d.port, msgHello,
                     (w.tx w.sent.length).beginPacket && (w.tx w.sent.length).endPacket⟩] }
          1000 ∧
      (∀ c2 w2, WifiController.checkIncomingClients c w = .ok (c2, w2) →
        c2.client = ⟨d.ip, d.port⟩ ∧ c2.connected = true ∧ c2.lastPingTime = t ∧
        ∃ extra, w2.sent = w.sent ++ ⟨d.ip, d.port, msgHello,
            (w.tx w.sent.length).beginPacket && (w.tx w.sent.length).endPacket⟩ :: extra ∧
          extra.length ≤ 1 ∧ ∀ e ∈ extra, e.ip ≠ d.ip) ∧
      (∀ t2 clk2, clk = t2 :: clk2 → sub32 t2 c.lastBroadcastTime < 1000 →
        WifiController.checkIncomingClients c w = .ok
          ({ c with udp := ⟨d.ip, d.port⟩, client := ⟨d.ip, d.port⟩, connected := true,
                    lastPingTime := t },
           { w with inbox := rest, clock := clk2,
                    sent := w.sent ++ [⟨d.ip, d.port, msgHello,
                      (w.tx w.sent.length).beginPacket && (w.tx w.sent.length).endPacket⟩] })) ∧
      (∀ t2 clk2, clk = t2 :: clk2 →
        (1000 ≤ sub32 t2 c.lastBroadcastTime →
          ((w.tx (w.sent.length + 1)).endPacket = true →
            ∃ t3 t4 clk4, clk2 = t3 :: t4 :: clk4 ∧ 2 ≤ onReadings 100 t4 clk4) ∧
          ((w.tx (w.sent.length + 1)).endPacket = false →
            ∃ t4 clk4, clk2 = t4 :: clk4 ∧ 10 ≤ onReadings 1000 t4 clk4)) →
        ∃ c2 w2, WifiController.checkIncomingClients c w = .ok (c2, w2)) := by
  have hne : d.payload ≠ [] := by rw [hpay]; decide
  have hrecv := receiveMessage_accepted c w d rest [] hin h255 hself hne
  have hlen : d.payload.length ≠ 0 := by rw [hpay]; decide
  have hstr : strEq (cstr d.payload) PASS_PHRASE = true := by rw [hpay]; decide
  have hmain : WifiController.checkIncomingClients c w =
      WifiController.broadcastIP
        { c with udp := ⟨d.ip, d.port⟩, client := ⟨d.ip, d.port⟩, connected := true,
                 lastPingTime := t }
        { w with inbox := rest, clock := clk,
                 sent := w.sent ++ [⟨d.ip, d.port, msgHello,
                   (w.tx w.sent.length).beginPacket && (w.tx w.sent.length).endPacket⟩] }
        1000 := by
    unfold WifiController.checkIncomingClients
    rw [hrecv]
    simp only [hlen, ne_eq, not_false_eq_true, if_true, hstr]
    unfold WifiController.sendMessage
    cases hb : (w.tx w.sent.length).beginPacket <;> cases he : (w.tx w.sent.length).endPacket <;>
      simp [hb, he, millis, hclk]
  refine ⟨hmain, ?_, ?_, ?_⟩
  · intro c2 w2 hrun
    rw [hmain] at hrun
    obtain ⟨h1, h2, h3, _, h5⟩ := broadcastIP_frame _ _ _ _ _ hrun
    refine ⟨h1, h2, h3, ?_⟩
    rcases h5 with h5 | ⟨dl, h5⟩
    · exact ⟨[], by simpa using h5, by simp, by simp⟩
    · refine ⟨[_], by simpa using h5, by simp, ?_⟩
      intro e he hip
      simp only [List.mem_singleton] at he
      subst he
      have : (255 : Nat) = d.ip.o3 := congrArg IPAddress.o3 hip
      exact h255 this.symm
  · intro t2 clk2 hclk2 hlim
    rw [hmain]
    unfold WifiController.broadcastIP
    have hnot : ¬ (sub32 t2 c.lastBroadcastTime ≥ 1000) := by omega
    simp [bind, Except.bind, pure, Except.pure, millis, hclk2, hnot]
  · intro t2 clk2 hclk2 hscript
    rw [hmain]
    obtain ⟨r, hr⟩ := broadcastIP_returns
      { c with udp := ⟨d.ip, d.port⟩, client := ⟨d.ip, d.port⟩, connected := true,
               lastPingTime := t }
      { w with inbox := rest, clock := clk,
               sent := w.sent ++ [⟨d.ip, d.port, msgHello,
                 (w.tx w.sent.length).beginPacket && (w.tx w.sent.length).endPacket⟩] }
      1000 t2 clk2 hclk2 (by simpa using hscript)
    exact ⟨r.1, r.2, hr⟩

/-- Witness of C8: a controller paired with 192.0.2.77:1234 receives `"abc"` from
192.0.2.10:9000 at time 5000, first 501 ms after the last broadcast (no broadcast follows),
then 1100 ms after it (a broadcast and two LED flashes follow, and the call returns). -/
theorem C8_pairing_witness :
    WifiController.checkIncomingClients sampleController
        (sampleWorld [5000, 5001] [some ⟨samplePeer, 9000, [97, 98, 99]⟩]) =
      .ok ({ sampleController with udp := ⟨samplePeer, 9000⟩, client := ⟨samplePeer, 9000⟩,
                                   connected := true, lastPingTime := 5000 },
           { sampleWorld [] [] with sent := [⟨samplePeer, 9000, msgHello, true⟩] }) ∧
      (WifiController.checkIncomingClients sampleController
        (sampleWorld [5000, 5600, 5601, 5602, 5602, 5702]
          [some ⟨samplePeer, 9000, [97, 98, 99]⟩])).toBool = true :=
  ⟨(C8_pairing sampleController
      (sampleWorld [5000, 5001] [some ⟨samplePeer, 9000, [97, 98, 99]⟩])
      ⟨samplePeer, 9000, [97, 98, 99]⟩ [] 5000 [5001] rfl rfl (by decide) (by decide)
      (by decide)).2.2.1 5001 [] rfl (by decide),
    match (C8_pairing sampleController
      (sampleWorld [5000, 5600, 5601, 5602, 5602, 5702]
        [some ⟨samplePeer, 9000, [97, 98, 99]⟩])
      ⟨samplePeer, 9000, [97, 98, 99]⟩ [] 5000 [5600, 5601, 5602, 5602, 5702] rfl rfl
      (by decide) (by decide) (by decide)).2.2.2 5600 [5601, 5602, 5602, 5702] rfl
      (fun _ => ⟨fun _ => ⟨5601, 5602, [5602, 5702], rfl, by decide⟩,
        fun h => absurd h (by decide)⟩) with
    | ⟨_, _, h⟩ => by rw [h]; rfl⟩

/-- C9 (as stated) fails: an accepted datagram with payload `"a\0b"` makes `receiveMessage`
return 3 and set the message to `"a"`, not to the payload. -/
theorem C9_message_cut_at_nul :
    samplePeer.o3 ≠ 255 ∧ samplePeer.o3 ≠ sampleLocalIP.o3 ∧
      (WifiController.receiveMessage sampleController
        (sampleWorld [] [some ⟨samplePeer, 9000, [97, 0, 98]⟩]) [120]).1 = 3 ∧
      (WifiController.receiveMessage sampleController
        (sampleWorld [] [some ⟨samplePeer, 9000, [97, 0, 98]⟩]) [120]).2.1 = [97] ∧
      (WifiController.receiveMessage sampleController
        (sampleWorld [] [some ⟨samplePeer, 9000, [97, 0, 98]⟩]) [120]).2.1 ≠ [97, 0, 98] := by
  decide

/-- C9 (amended): for every inbound datagram, `receiveMessage` returns 0 and leaves the
caller's message unchanged when the sender's last address octet is 255 or equals the local
address's last octet; for every other non-empty datagram it returns the datagram's size and
sets the message to the payload bytes before the first NUL byte, which is the whole payload
when it contains no NUL byte. -/
theorem C9_sender_filter (c : WifiController) (w : World) (d : Datagram)
    (rest : List (Option Datagram)) (msg : List Nat) (hin : w.inbox = some d :: rest) :
    ((d.ip.o3 = 255 ∨ d.ip.o3 = w.localIP.o3) →
        (WifiController.receiveMessage c w msg).1 = 0 ∧
        (WifiController.receiveMessage c w msg).2.1 = msg) ∧
      (¬ (d.ip.o3 = 255 ∨ d.ip.o3 = w.localIP.o3) → d.payload ≠ [] →
        (WifiController.receiveMessage c w msg).1 = d.payload.length ∧
        (WifiController.receiveMessage c w msg).2.1 = cstr d.payload ∧
        (NulFree d.payload → (WifiController.receiveMessage c w msg).2.1 = d.payload)) := by
  constructor
  · intro hf
    rw [receiveMessage_filtered c w d rest msg hin hf]
    exact ⟨rfl, rfl⟩
  · intro hf hne
    have h255 : d.ip.o3 ≠ 255 := fun h => hf (Or.inl h)
    have hself : d.ip.o3 ≠ w.localIP.o3 := fun h => hf (Or.inr h)
    rw [receiveMessage_accepted c w d rest msg hin h255 hself hne]
    exact ⟨rfl, rfl, fun hn => cstr_of_nulFree _ hn⟩

/-- Witness of C9: `"pong"` from 192.0.2.10 is accepted, `"pong"` from x.x.x.255 is not. -/
theorem C9_sender_filter_witness :
    ((WifiController.receiveMessage sampleController
        (sampleWorld [] [some ⟨⟨192, 168, 1, 255⟩, 9000, msgPong⟩]) msgPing).1 = 0 ∧
      (WifiController.receiveMessage sampleController
        (sampleWorld [] [some ⟨⟨192, 168, 1, 255⟩, 9000, msgPong⟩]) msgPing).2.1 = msgPing) ∧
      (WifiController.receiveMessage sampleController
        (sampleWorld [] [some ⟨samplePeer, 9000, msgPong⟩]) msgPing).1 = 4 ∧
      (WifiController.receiveMessage sampleController
        (sampleWorld [] [some ⟨samplePeer, 9000, msgPong⟩]) msgPing).2.1 = msgPong :=
  ⟨(C9_sender_filter sampleController (sampleWorld [] [some ⟨⟨192, 168, 1, 255⟩, 9000, msgPong⟩])
      ⟨⟨192, 168, 1, 255⟩, 9000, msgPong⟩ [] msgPing rfl).1 (Or.inl rfl),
    ((C9_sender_filter sampleController (sampleWorld [] [some ⟨samplePeer, 9000, msgPong⟩])
      ⟨samplePeer, 9000, msgPong⟩ [] msgPing rfl).2 (by decide) (by decide)).1,
    ((C9_sender_filter sampleController (sampleWorld [] [some ⟨samplePeer, 9000, msgPong⟩])
      ⟨samplePeer, 9000, msgPong⟩ [] msgPing rfl).2 (by decide) (by decide)).2.2 (by decide)⟩

/-- C10: for every paired state (`connected = true`) in which at least 60000 ms have elapsed
since last-liveness, if the reply loop polls at least once, the clock leaves the 1000 ms
window, and no poll of the window finds a datagram, `isClientConnected` hands one `"ping"`
for the current peer to the transport, clears `connected`, returns false, and leaves the peer
address, port and last-liveness unchanged. -/
theorem C10_liveness_failure (c : WifiController) (w : World) (cur start : Nat)
    (clk : List Nat) (hconn : c.connected = true) (hclk : w.clock = cur :: start :: clk)
    (hdue : sub32 cur c.lastPingTime ≥ 60000)
    (hpoll : 0 < pollCount start clk)
    (hend : ∃ t ∈ clk, ¬ sub32 t start < 1000)
    (hnone : ∀ e ∈ w.inbox.take (pollCount start clk), e = none) :
    WifiController.isClientConnected c w =
      .ok (false, { c with connected := false },
        { w with clock := afterWindow start clk,
                 inbox := w.inbox.drop (pollCount start clk),
                 sent := w.sent ++ [⟨c.client.ip, c.client.port, msgPing,
                   (w.tx w.sent.length).beginPacket && (w.tx w.sent.length).endPacket⟩] }) := by
  unfold WifiController.isClientConnected
  rw [if_pos hconn, millis_cons w cur (start :: clk) hclk]
  simp only [hdue, ge_iff_le, if_true]
  have hpc0 : pollCount start clk ≠ 0 := by omega
  simp only [sendMessage_world, millis]
  rw [pongLoop_no_reply start clk msgPing c _ hend (by simpa using hnone)]
  simp [hpc0]

/-- Witness of C10: paired with 192.0.2.77:1234, last liveness at 1000, checked at 61000;
the loop polls at 61002 and 61500 and ends at 62001; nothing arrives. -/
theorem C10_liveness_failure_witness :
    WifiController.isClientConnected
        { sampleController with connected := true, lastPingTime := 1000 }
        (sampleWorld [61000, 61001, 61002, 61500, 62001, 62002] [none]) =
      .ok (false, { sampleController with connected := false, lastPingTime := 1000 },
        { sampleWorld [62002] [] with
            sent := [⟨⟨192, 0, 2, 77⟩, 1234, msgPing, true⟩] }) :=
  C10_liveness_failure { sampleController with connected := true, lastPingTime := 1000 }
    (sampleWorld [61000, 61001, 61002, 61500, 62001, 62002] [none]) 61000 61001
    [61002, 61500, 62001, 62002] rfl rfl (by decide) (by decide) (by decide) (by decide)

/-- C11: in a paired state in which at least 60000 ms have elapsed since last-liveness, when
one of the polls of the 1000 ms window finds an accepted datagram whose payload is exactly
`"pong"`, `isClientConnected` returns true, keeps `connected = true` and the peer session
unchanged, hands one `"ping"` to the transport and sets last-liveness to the clock reading
taken when the check began; a later call whose reading is less than 60000 ms after that
reading sends nothing and returns true. -/
theorem C11_liveness_success (c : WifiController) (w : World) (cur start : Nat)
    (clk : List Nat) (i : Nat) (d : Datagram)
    (hconn : c.connected = true) (hclk : w.clock = cur :: start :: clk)
    (hdue : sub32 cur c.lastPingTime ≥ 60000)
    (hi : i < pollCount start clk) (hd : w.inbox[i]? = some (some d))
    (h255 : d.ip.o3 ≠ 255) (hself : d.ip.o3 ≠ w.localIP.o3) (hpay : d.payload = msgPong) :
    ∃ c1 w1, WifiController.isClientConnected c w = .ok (true, c1, w1) ∧
      c1.connected = true ∧ c1.client = c.client ∧ c1.lastPingTime = cur ∧
      w1.sent = w.sent ++ [⟨c.client.ip, c.client.port, msgPing,
        (w.tx w.sent.length).beginPacket && (w.tx w.sent.length).endPacket⟩] ∧
      (∀ (w2 : World) (t2 : Nat) (clk2 : List Nat), w2.clock = t2 :: clk2 →
        sub32 t2 cur < 60000 →
        WifiController.isClientConnected c1 w2 = .ok (true, c1, { w2 with clock := clk2 })) := by
  have hne : d.payload ≠ [] := by rw [hpay]; decide
  have hpong : strEq (cstr d.payload) msgPong = true := by rw [hpay]; decide
  obtain ⟨m1, c1, w1, hrun, g1, g2, g3, _, _, g6, _, _⟩ :=
    pongLoop_pong start clk msgPing c
      { w with clock := clk, sent := w.sent ++ [⟨c.client.ip, c.client.port, msgPing,
        (w.tx w.sent.length).beginPacket && (w.tx w.sent.length).endPacket⟩] }
      i d hi hd h255 hself hne hpong
  refine ⟨{ c1 with lastPingTime := cur }, w1, ?_, g1, g2, rfl, g6, ?_⟩
  · unfold WifiController.isClientConnected
    rw [if_pos hconn, millis_cons w cur (start :: clk) hclk]
    simp only [hdue, ge_iff_le, if_true, sendMessage_world, millis]
    rw [hrun]
    simp [g1]
  · intro w2 t2 clk2 hclk2 hlt
    unfold WifiController.isClientConnected
    have hnot : ¬ (sub32 t2 cur ≥ 60000) := by omega
    simp [g1, millis_cons w2 t2 clk2 hclk2, hnot]

/-- Witness of C11: paired with 192.0.2.77:1234, last liveness at 1000, checked at 61000;
the first poll (61002) finds nothing, the second (61500) finds `"pong"`. -/
theorem C11_liveness_success_witness :
    Except.map (fun r => (r.1, r.2.1.connected, r.2.1.client, r.2.1.lastPingTime))
        (WifiController.isClientConnected
          { sampleController with connected := true, lastPingTime := 1000 }
          (sampleWorld [61000, 61001, 61002, 61500, 62001]
            [none, some ⟨⟨192, 0, 2, 77⟩, 1234, msgPong⟩])) =
      .ok (true, true, ⟨⟨192, 0, 2, 77⟩, 1234⟩, 61000) :=
  match C11_liveness_success { sampleController with connected := true, lastPingTime := 1000 }
      (sampleWorld [61000, 61001, 61002, 61500, 62001]
        [none, some ⟨⟨192, 0, 2, 77⟩, 1234, msgPong⟩])
      61000 61001 [61002, 61500, 62001] 1 ⟨⟨192, 0, 2, 77⟩, 1234, msgPong⟩
      rfl rfl (by decide) (by decide) rfl (by decide) (by decide) rfl with
  | ⟨_, _, h, h1, h2, h3, _⟩ => by rw [h]; simp [Except.map, h1, h2, h3, sampleController]

/-- C12: `isClientConnected` hands a datagram to the transport only when `connected` is true
and at least 60000 ms have elapsed since last-liveness. When `connected` is false it returns
false and changes nothing at all; when `connected` is true and less than 60000 ms have
elapsed it returns true, takes one clock reading and changes nothing else (nothing sent, no
datagram read, no protocol state changed). -/
theorem C12_quiet_period (c : WifiController) (w : World) :
    (c.connected = false → WifiController.isClientConnected c w = .ok (false, c, w)) ∧
      (∀ t clk, c.connected = true → w.clock = t :: clk → sub32 t c.lastPingTime < 60000 →
        WifiController.isClientConnected c w = .ok (true, c, { w with clock := clk })) ∧
      (∀ b c1 w1, WifiController.isClientConnected c w = .ok (b, c1, w1) →
        w1.sent ≠ w.sent →
        c.connected = true ∧ ∃ t clk, w.clock = t :: clk ∧ 60000 ≤ sub32 t c.lastPingTime) := by
  have h1 : c.connected = false → WifiController.isClientConnected c w = .ok (false, c, w) := by
    intro h
    unfold WifiController.isClientConnected
    simp [h]
  have h2 : ∀ t clk, c.connected = true → w.clock = t :: clk →
      sub32 t c.lastPingTime < 60000 →
      WifiController.isClientConnected c w = .ok (true, c, { w with clock := clk }) := by
    intro t clk hc hclk hlt
    unfold WifiController.isClientConnected
    have hnot : ¬ (sub32 t c.lastPingTime ≥ 60000) := by omega
    simp [hc, millis_cons w t clk hclk, hnot]
  refine ⟨h1, h2, ?_⟩
  intro b c1 w1 hrun hsent
  cases hc : c.connected with
  | false =>
    rw [h1 hc] at hrun
    simp only [Except.ok.injEq, Prod.mk.injEq] at hrun
    exact absurd (by rw [← hrun.2.2]) hsent
  | true =>
    refine ⟨rfl, ?_⟩
    cases hclk : w.clock with
    | nil =>
      unfold WifiController.isClientConnected at hrun
      simp [hc, millis, hclk] at hrun
    | cons t clk =>
      refine ⟨t, clk, rfl, ?_⟩
      by_contra hlt
      rw [h2 t clk hc hclk (by omega)] at hrun
      simp only [Except.ok.injEq, Prod.mk.injEq] at hrun
      exact absurd (by rw [← hrun.2.2]) hsent

/-- Witness of C12: a not-connected session stays not connected; a session checked 59999 ms
after last-liveness is left alone. -/
theorem C12_quiet_period_witness :
    WifiController.isClientConnected sampleController
        (sampleWorld [70000] [some ⟨samplePeer, 9000, msgPong⟩]) =
      .ok (false, sampleController, sampleWorld [70000] [some ⟨samplePeer, 9000, msgPong⟩]) ∧
    WifiController.isClientConnected
        { sampleController with connected := true, lastPingTime := 1000 }
        (sampleWorld [60999, 61000] [some ⟨samplePeer, 9000, msgPong⟩]) =
      .ok (true, { sampleController with connected := true, lastPingTime := 1000 },
        sampleWorld [61000] [some ⟨samplePeer, 9000, msgPong⟩]) :=
  ⟨(C12_quiet_period sampleController
      (sampleWorld [70000] [some ⟨samplePeer, 9000, msgPong⟩])).1 rfl,
    (C12_quiet_period { sampleController with connected := true, lastPingTime := 1000 }
      (sampleWorld [60999, 61000] [some ⟨samplePeer, 9000, msgPong⟩])).2.1 60999 [61000]
      rfl rfl (by decide)⟩

/-- C13 (as stated) fails: the first call tests the interval at 5000 and, after its send,
stores the reading 5001; the second call at 6000 is 1000 ms after the first, but only 999 ms
after the stored reading, so it is skipped and one datagram is sent in total. -/
theorem C13_skipped_at_1000 :
    5000 ≤ 6000 ∧ 6000 - 5000 ≥ 1000 ∧
      ((WifiController.broadcastIP { sampleController with lastBroadcastTime := 0 }
          (sampleWorld [5000, 5001, 5001, 5001, 5101, 6000] []) 1000 >>=
        fun r => WifiController.broadcastIP r.1 r.2 1000).toOption.map
          (fun r => (r.1.lastBroadcastTime, r.2.sent.length, r.2.clock))) =
        some (5001, 1, []) := by
  decide

/-- C13 (amended): for two consecutive calls of `broadcastIP(1000)` of which the first sends
with the transport reporting success, the interval runs from the reading `t3` of `millis()`
that the first call stores after its send: if the reading `t2` of the second call has
`t2 - t3 < 1000` the second call is skipped and exactly one datagram is sent in total; if
`t2 - t3 >= 1000` the second call sends and two datagrams are sent in total. -/
theorem C13_rate_limit (c : WifiController) (w : World) (t1 t3 : Nat) (clk : List Nat)
    (c1 : WifiController) (w1 : World) (t2 : Nat) (clk2 : List Nat)
    (hclk : w.clock = t1 :: t3 :: clk) (hdue : 1000 ≤ sub32 t1 c.lastBroadcastTime)
    (hok : (w.tx w.sent.length).endPacket = true)
    (hfirst : WifiController.broadcastIP c w 1000 = .ok (c1, w1))
    (hclk2 : w1.clock = t2 :: clk2) :
    w1.sent = w.sent ++ [⟨{ w.localIP with o3 := 255 }, LOCAL_PORT,
        cstr (dotted w.localIP ++ [0]), true⟩] ∧
      c1.lastBroadcastTime = t3 ∧
      (sub32 t2 t3 < 1000 →
        WifiController.broadcastIP c1 w1 1000 = .ok (c1, { w1 with clock := clk2 })) ∧
      (1000 ≤ sub32 t2 t3 →
        (∀ c2 w2, WifiController.broadcastIP c1 w1 1000 = .ok (c2, w2) →
          w2.sent = w.sent ++
            [⟨{ w.localIP with o3 := 255 }, LOCAL_PORT, cstr (dotted w.localIP ++ [0]), true⟩,
             ⟨{ w.localIP with o3 := 255 }, LOCAL_PORT, cstr (dotted w.localIP ++ [0]),
               (w.tx (w.sent.length + 1)).endPacket⟩]) ∧
        (((w.tx (w.sent.length + 1)).endPacket = true →
            ∃ u3 u4 clk4, clk2 = u3 :: u4 :: clk4 ∧ 2 ≤ onReadings 100 u4 clk4) →
          ((w.tx (w.sent.length + 1)).endPacket = false →
            ∃ u4 clk4, clk2 = u4 :: clk4 ∧ 10 ≤ onReadings 1000 u4 clk4) →
          ∃ c2 w2, WifiController.broadcastIP c1 w1 1000 = .ok (c2, w2))) := by
  obtain ⟨⟨a1, a2, a3, _⟩, hs, _⟩ := broadcastIP_outcome c w 1000 t1 (t3 :: clk) c1 w1 hclk hdue hfirst
  obtain ⟨_, u3, rest, hu, hst⟩ := hs hok
  have ht3 : c1.lastBroadcastTime = t3 := by
    rw [hst]; simp only [List.cons.injEq] at hu; exact hu.1.symm
  rw [hok] at a1
  refine ⟨a1, ht3, ?_, ?_⟩
  · intro hlt
    exact broadcastIP_skip c1 w1 1000 t2 clk2 hclk2 (by rw [ht3]; exact hlt)
  · intro hge
    refine ⟨?_, ?_⟩
    · intro c2 w2 h2
      obtain ⟨⟨b1, _, _, _⟩, _, _⟩ :=
        broadcastIP_outcome c1 w1 1000 t2 clk2 c2 w2 hclk2 (by rw [ht3]; exact hge) h2
      rw [b1, a1, a2, a3]
      simp
    · intro hs1 hs2
      obtain ⟨r, hr⟩ := broadcastIP_returns c1 w1 1000 t2 clk2 hclk2
        (fun _ => by
          rw [a1, a2]
          simpa using And.intro hs1 hs2)
      exact ⟨r.1, r.2, hr⟩

/-- Witness of C13: first call at 5000 (stamp 5001, flashes at 5001 and 5101), second call at
6000, which is 999 ms after the stamp: skipped. -/
theorem C13_rate_limit_witness :
    (sampleAnnounced [6000]).sent = [sampleAnnounce] ∧
      WifiController.broadcastIP
          { sampleController with lastBroadcastTime := 5001, led := sampleSentLED }
          (sampleAnnounced [6000]) 1000 =
        .ok ({ sampleController with lastBroadcastTime := 5001, led := sampleSentLED },
          sampleAnnounced []) :=
  ⟨(C13_rate_limit { sampleController with lastBroadcastTime := 0 }
      (sampleWorld [5000, 5001, 5001, 5001, 5101, 6000] []) 5000 5001 [5001, 5001, 5101, 6000]
      { sampleController with lastBroadcastTime := 5001, led := sampleSentLED }
      (sampleAnnounced [6000]) 6000 [] rfl (by decide) rfl rfl rfl).1,
    (C13_rate_limit { sampleController with lastBroadcastTime := 0 }
      (sampleWorld [5000, 5001, 5001, 5001, 5101, 6000] []) 5000 5001 [5001, 5001, 5101, 6000]
      { sampleController with lastBroadcastTime := 5001, led := sampleSentLED }
      (sampleAnnounced [6000]) 6000 [] rfl (by decide) rfl rfl rfl).2.2.1 (by decide)⟩

/-- C14: whenever `broadcastIP` attempts a send (the interval has elapsed at its reading
`t1`) and returns: if the transport reports success the LED status is `UDP_BROADCAST_SENT`
and the last-broadcast timestamp is the next reading of `millis()`; if it reports failure
the status is `UDP_BROADCAST_FAILED` when a write error is recorded and `UDP_UNKNOWN_ERROR`
otherwise, the timestamp is unchanged, and the next call, at any reading `t2` that is not a
whole turn of the counter later, attempts a send again. The call returns whenever the clock
script lets the LED flash. -/
theorem C14_broadcast_outcome (c : WifiController) (w : World) (timer t1 : Nat)
    (clk : List Nat) (hclk : w.clock = t1 :: clk)
    (hdue : timer ≤ sub32 t1 c.lastBroadcastTime) :
    (∀ c1 w1, WifiController.broadcastIP c w timer = .ok (c1, w1) →
      ((w.tx w.sent.length).endPacket = true →
        c1.led.status = UDP_BROADCAST_SENT ∧
        ∃ t3 rest, clk = t3 :: rest ∧ c1.lastBroadcastTime = t3) ∧
      ((w.tx w.sent.length).endPacket = false →
        ((w.tx w.sent.length).writeError ≠ 0 → c1.led.status = UDP_BROADCAST_FAILED) ∧
        ((w.tx w.sent.length).writeError = 0 → c1.led.status = UDP_UNKNOWN_ERROR) ∧
        c1.lastBroadcastTime = c.lastBroadcastTime ∧
        (∀ t2 clk2 c2 w2, w1.clock = t2 :: clk2 →
          sub32 t1 c.lastBroadcastTime + sub32 t2 t1 < 4294967296 →
          WifiController.broadcastIP c1 w1 timer = .ok (c2, w2) →
          ∃ e, w2.sent = w1.sent ++ [e]))) ∧
      ((((w.tx w.sent.length).endPacket = true →
          ∃ t3 t4 clk4, clk = t3 :: t4 :: clk4 ∧ 2 ≤ onReadings 100 t4 clk4) ∧
        ((w.tx w.sent.length).endPacket = false →
          ∃ t4 clk4, clk = t4 :: clk4 ∧ 10 ≤ onReadings 1000 t4 clk4)) →
        ∃ c1 w1, WifiController.broadcastIP c w timer = .ok (c1, w1)) := by
  constructor
  · intro c1 w1 h
    obtain ⟨_, hs, hf⟩ := broadcastIP_outcome c w timer t1 clk c1 w1 hclk hdue h
    refine ⟨hs, fun he => ?_⟩
    obtain ⟨hl, hst⟩ := hf he
    refine ⟨fun hwe => by rw [hst, if_pos hwe], fun hwe => by rw [hst]; simp [hwe], hl, ?_⟩
    intro t2 clk2 c2 w2 hclk2 hwrap h2
    have hdue2 : timer ≤ sub32 t2 c1.lastBroadcastTime := by
      rw [hl, sub32_add _ _ _ hwrap]; omega
    obtain ⟨⟨b1, _, _, _⟩, _, _⟩ := broadcastIP_outcome c1 w1 timer t2 clk2 c2 w2 hclk2 hdue2 h2
    exact ⟨_, b1⟩
  · intro hscript
    obtain ⟨r, hr⟩ := broadcastIP_returns c w timer t1 clk hclk (fun _ => hscript)
    exact ⟨r.1, r.2, hr⟩

/-- Witness of C14: the announce of 192.168.1.50 at 5000, accepted by the transport, with the
stamp 5001 and two flashes. -/
theorem C14_broadcast_outcome_witness :
    ({ sampleController with lastBroadcastTime := 5001, led := sampleSentLED } :
        WifiController).led.status = UDP_BROADCAST_SENT ∧
      (WifiController.broadcastIP { sampleController with lastBroadcastTime := 0 }
        (sampleWorld [5000, 5001, 5001, 5001, 5101, 6000] []) 1000).toBool = true :=
  ⟨(((C14_broadcast_outcome { sampleController with lastBroadcastTime := 0 }
      (sampleWorld [5000, 5001, 5001, 5001, 5101, 6000] []) 1000 5000
      [5001, 5001, 5001, 5101, 6000] rfl (by decide)).1
    { sampleController with lastBroadcastTime := 5001, led := sampleSentLED }
    (sampleAnnounced [6000]) rfl).1 rfl).1,
    match (C14_broadcast_outcome { sampleController with lastBroadcastTime := 0 }
      (sampleWorld [5000, 5001, 5001, 5001, 5101, 6000] []) 1000 5000
      [5001, 5001, 5001, 5101, 6000] rfl (by decide)).2
      ⟨fun _ => ⟨5001, 5001, [5001, 5101, 6000], rfl, by decide⟩,
        fun h => absurd h (by decide)⟩ with
    | ⟨_, _, h⟩ => by rw [h]; rfl⟩

/-- C15: for every local address a.b.c.d with octets below 256, a broadcast that
`broadcastIP` logs is addressed to a.b.c.255 on port 8181 and carries the text of the four
octets in decimal without leading zeros separated by dots; that text has between 7 and 15
characters, so with its terminator it fits the 32-byte buffer. -/
theorem C15_announce_payload (c : WifiController) (w : World) (timer : Nat)
    (c1 : WifiController) (w1 : World)
    (h0 : w.localIP.o0 < 256) (h1 : w.localIP.o1 < 256) (h2 : w.localIP.o2 < 256)
    (h3 : w.localIP.o3 < 256)
    (hrun : WifiController.broadcastIP c w timer = .ok (c1, w1)) :
    (w1.sent = w.sent ∨ ∃ dl, w1.sent = w.sent ++
        [⟨⟨w.localIP.o0, w.localIP.o1, w.localIP.o2, 255⟩, 8181,
          octetText w.localIP.o0 ++ [46] ++ octetText w.localIP.o1 ++ [46] ++
            octetText w.localIP.o2 ++ [46] ++ octetText w.localIP.o3, dl⟩]) ∧
      7 ≤ (octetText w.localIP.o0 ++ [46] ++ octetText w.localIP.o1 ++ [46] ++
            octetText w.localIP.o2 ++ [46] ++ octetText w.localIP.o3).length ∧
      (octetText w.localIP.o0 ++ [46] ++ octetText w.localIP.o1 ++ [46] ++
            octetText w.localIP.o2 ++ [46] ++ octetText w.localIP.o3).length ≤ 15 ∧
      (octetText w.localIP.o0 ++ [46] ++ octetText w.localIP.o1 ++ [46] ++
            octetText w.localIP.o2 ++ [46] ++ octetText w.localIP.o3).length + 1 ≤ 32 ∧
      dotted w.localIP = octetText w.localIP.o0 ++ [46] ++ octetText w.localIP.o1 ++ [46] ++
            octetText w.localIP.o2 ++ [46] ++ octetText w.localIP.o3 := by
  obtain ⟨_, _, _, _, hs⟩ := broadcastIP_frame c w timer c1 w1 hrun
  have l0 := octetText_length w.localIP.o0
  have l1 := octetText_length w.localIP.o1
  have l2 := octetText_length w.localIP.o2
  have l3 := octetText_length w.localIP.o3
  refine ⟨?_, ?_, ?_, ?_, ?_⟩
  · rcases hs with hs | ⟨dl, hs⟩
    · exact Or.inl hs
    · refine Or.inr ⟨dl, ?_⟩
      rw [hs, dotted_octets _ h0 h1 h2 h3]
      rfl
  · simp only [List.length_append, List.length_singleton]; omega
  · simp only [List.length_append, List.length_singleton]; omega
  · simp only [List.length_append, List.length_singleton]; omega
  · unfold dotted
    rw [decimal_octet _ h0, decimal_octet _ h1, decimal_octet _ h2, decimal_octet _ h3]

/-- Witness of C15: the announce of 192.168.1.50 is `"192.168.1.50"`, 12 characters, for
192.168.1.255:8181. -/
theorem C15_announce_payload_witness :
    dotted sampleLocalIP = [49, 57, 50, 46, 49, 54, 56, 46, 49, 46, 53, 48] ∧
      7 ≤ ([49, 57, 50, 46, 49, 54, 56, 46, 49, 46, 53, 48] : List Nat).length :=
  ⟨(C15_announce_payload { sampleController with lastBroadcastTime := 0 }
      (sampleWorld [5000, 5001, 5001, 5001, 5101, 6000] []) 1000
      { sampleController with lastBroadcastTime := 5001, led := sampleSentLED }
      (sampleAnnounced [6000]) (by decide) (by decide) (by decide) (by decide) rfl).2.2.2.2,
    (C15_announce_payload { sampleController with lastBroadcastTime := 0 }
      (sampleWorld [5000, 5001, 5001, 5001, 5101, 6000] []) 1000
      { sampleController with lastBroadcastTime := 5001, led := sampleSentLED }
      (sampleAnnounced [6000]) (by decide) (by decide) (by decide) (by decide) rfl).2.1⟩

/-- C24 (as stated) fails: the payload `"abc\0\x01"` (five bytes) is not the pass-phrase as a
byte sequence, and `checkIncomingClients` makes its sender the peer, sets `connected`,
records the clock reading 5000 and replies `"Hello"`. -/
theorem C24_nul_suffix_pairs :
    ([97, 98, 99, 0, 1] : List Nat) ≠ PASS_PHRASE ∧
      ([97, 98, 99, 0, 1] : List Nat) ≠ [97, 98, 99] ∧
      (WifiController.checkIncomingClients sampleController
          (sampleWorld [5000, 5001] [some ⟨samplePeer, 9000, [97, 98, 99, 0, 1]⟩])).toOption.map
          (fun r => (r.1.client, r.1.connected, r.1.lastPingTime, r.2.sent)) =
        some (⟨samplePeer, 9000⟩, true, 5000, [⟨samplePeer, 9000, msgHello, true⟩]) := by
  decide

/-- C24 (amended): for every inbound datagram whose payload, read up to its first NUL byte,
differs from the pass-phrase `"abc"`, `checkIncomingClients` only consumes the datagram and
runs `broadcastIP(1000)`: whenever it returns, the peer session, the `connected` flag and
last-liveness are unchanged and the only datagram it may have sent is the announce for the
broadcast address; it returns at once when no broadcast is due, and whenever the clock script
holds the readings of the broadcast. -/
theorem C24_no_pairing (c : WifiController) (w : World) (d : Datagram)
    (rest : List (Option Datagram)) (hin : w.inbox = some d :: rest)
    (hpay : cstr d.payload ≠ cstr PASS_PHRASE) :
    WifiController.checkIncomingClients c w =
        WifiController.broadcastIP { c with udp := ⟨d.ip, d.port⟩ } { w with inbox := rest }
          1000 ∧
      (∀ c2 w2, WifiController.checkIncomingClients c w = .ok (c2, w2) →
        c2.client = c.client ∧ c2.connected = c.connected ∧
        c2.lastPingTime = c.lastPingTime ∧
        (w2.sent = w.sent ∨ ∃ dl, w2.sent = w.sent ++
          [⟨{ w.localIP with o3 := 255 }, LOCAL_PORT, cstr (dotted w.localIP ++ [0]), dl⟩])) ∧
      (∀ t clk, w.clock = t :: clk → sub32 t c.lastBroadcastTime < 1000 →
        WifiController.checkIncomingClients c w =
          .ok ({ c with udp := ⟨d.ip, d.port⟩ }, { w with inbox := rest, clock := clk })) ∧
      (∀ t clk, w.clock = t :: clk →
        (1000 ≤ sub32 t c.lastBroadcastTime →
          ((w.tx w.sent.length).endPacket = true →
            ∃ t3 t4 clk4, clk = t3 :: t4 :: clk4 ∧ 2 ≤ onReadings 100 t4 clk4) ∧
          ((w.tx w.sent.length).endPacket = false →
            ∃ t4 clk4, clk = t4 :: clk4 ∧ 10 ≤ onReadings 1000 t4 clk4)) →
        ∃ r, WifiController.checkIncomingClients c w = .ok r) := by
  have hmain : WifiController.checkIncomingClients c w =
      WifiController.broadcastIP { c with udp := ⟨d.ip, d.port⟩ } { w with inbox := rest }
        1000 := by
    rw [checkIncomingClients_no_pair c w (by
      intro e he
      rw [hin] at he
      simp only [List.getElem?_cons_zero, Option.some.injEq] at he
      subst he
      exact Or.inr (Or.inr hpay))]
    rw [receiveMessage_some c w d rest [] hin]
  refine ⟨hmain, ?_, ?_, ?_⟩
  · intro c2 w2 hrun
    rw [hmain] at hrun
    obtain ⟨h1, h2, h3, _, h5⟩ := broadcastIP_frame _ _ _ _ _ hrun
    exact ⟨h1, h2, h3, h5⟩
  · intro t clk hclk hlt
    rw [hmain]
    exact broadcastIP_skip _ _ 1000 t clk hclk hlt
  · intro t clk hclk hscript
    rw [hmain]
    exact broadcastIP_returns _ _ 1000 t clk hclk hscript

/-- Witness of C24: `"abd"` from 192.0.2.10:9000 at 5000, 500 ms after the last broadcast:
the datagram is consumed and nothing else changes. -/
theorem C24_no_pairing_witness :
    WifiController.checkIncomingClients sampleController
        (sampleWorld [5000] [some ⟨samplePeer, 9000, [97, 98, 100]⟩]) =
      .ok ({ sampleController with udp := ⟨samplePeer, 9000⟩ }, sampleWorld [] []) :=
  (C24_no_pairing sampleController
    (sampleWorld [5000] [some ⟨samplePeer, 9000, [97, 98, 100]⟩])
    ⟨samplePeer, 9000, [97, 98, 100]⟩ [] rfl (by decide)).2.2.1 5000 [] rfl (by decide)

/-- C25 (as stated) fails: in one liveness check the first poll of the window receives the
reply `"nope"` and the second receives `"pong"`; `isClientConnected` returns true with
`connected` set. -/
theorem C25_wrong_then_pong :
    (WifiController.isClientConnected
        { sampleController with connected := true, lastPingTime := 1000 }
        (sampleWorld [61000, 61001, 61002, 61500, 62001]
          [some ⟨⟨192, 0, 2, 77⟩, 1234, [110, 111, 112, 101]⟩,
           some ⟨⟨192, 0, 2, 77⟩, 1234, msgPong⟩])).toOption.map
        (fun r => (r.1, r.2.1.connected)) =
      some (true, true) := by
  decide

/-- C25 (amended): for every liveness check (paired state, at least 60000 ms since
last-liveness) in which a poll of the 1000 ms window receives an accepted reply that does not
read `"pong"` up to its first NUL byte, and no poll of the window receives an accepted reply
that does, once the clock leaves the window `isClientConnected` returns false with
`connected = false`, having sent one `"ping"`; the peer session record and last-liveness are
unchanged. -/
theorem C25_wrong_reply (c : WifiController) (w : World) (cur start : Nat) (clk : List Nat)
    (i : Nat) (d : Datagram)
    (hconn : c.connected = true) (hclk : w.clock = cur :: start :: clk)
    (hdue : sub32 cur c.lastPingTime ≥ 60000)
    (hi : i < pollCount start clk) (_hd : w.inbox[i]? = some (some d))
    (_h255 : d.ip.o3 ≠ 255) (_hself : d.ip.o3 ≠ w.localIP.o3) (_hne : d.payload ≠ [])
    (_hwrong : cstr d.payload ≠ msgPong)
    (hend : ∃ t ∈ clk, ¬ sub32 t start < 1000)
    (hnopong : ∀ j, j < pollCount start clk → ∀ e, w.inbox[j]? = some (some e) →
      e.ip.o3 = 255 ∨ e.ip.o3 = w.localIP.o3 ∨ cstr e.payload ≠ msgPong) :
    ∃ c1 w1, WifiController.isClientConnected c w = .ok (false, c1, w1) ∧
      c1.connected = false ∧ c1.client = c.client ∧ c1.lastPingTime = c.lastPingTime ∧
      w1.sent = w.sent ++ [⟨c.client.ip, c.client.port, msgPing,
        (w.tx w.sent.length).beginPacket && (w.tx w.sent.length).endPacket⟩] ∧
      w1.inbox = w.inbox.drop (pollCount start clk) := by
  have hpc0 : pollCount start clk ≠ 0 := by omega
  obtain ⟨m1, c1, w1, hrun, g1, g2, g3, _, _, g6, _, _, g9, _⟩ :=
    pongLoop_no_pong start clk msgPing c
      { w with clock := clk, sent := w.sent ++ [⟨c.client.ip, c.client.port, msgPing,
        (w.tx w.sent.length).beginPacket && (w.tx w.sent.length).endPacket⟩] }
      hend hnopong
  rw [if_neg hpc0] at g1
  refine ⟨c1, w1, ?_, g1, g2, g3, g6, g9⟩
  unfold WifiController.isClientConnected
  rw [if_pos hconn, millis_cons w cur (start :: clk) hclk]
  simp only [hdue, ge_iff_le, if_true, sendMessage_world, millis]
  rw [hrun]
  simp [g1]

/-- Witness of C25: paired with 192.0.2.77:1234, last liveness at 1000, checked at 61000;
the first poll (61002) receives `"nope"`, the second (61500) nothing, and the window ends at
62001. -/
theorem C25_wrong_reply_witness :
    Except.map (fun r => (r.1, r.2.1.connected, r.2.1.client, r.2.1.lastPingTime))
        (WifiController.isClientConnected
          { sampleController with connected := true, lastPingTime := 1000 }
          (sampleWorld [61000, 61001, 61002, 61500, 62001]
            [some ⟨⟨192, 0, 2, 77⟩, 1234, [110, 111, 112, 101]⟩])) =
      .ok (false, false, ⟨⟨192, 0, 2, 77⟩, 1234⟩, 1000) :=
  match C25_wrong_reply { sampleController with connected := true, lastPingTime := 1000 }
      (sampleWorld [61000, 61001, 61002, 61500, 62001]
        [some ⟨⟨192, 0, 2, 77⟩, 1234, [110, 111, 112, 101]⟩])
      61000 61001 [61002, 61500, 62001] 0 ⟨⟨192, 0, 2, 77⟩, 1234, [110, 111, 112, 101]⟩
      rfl rfl (by decide) (by decide) rfl (by decide) (by decide) (by decide) (by decide)
      (by decide) (by
        intro j hj e he
        have hj2 : j < 2 := hj
        rcases Nat.lt_succ_iff_lt_or_eq.1 hj2 with h | h
        · have h0 : j = 0 := by omega
          subst h0
          simp only [sampleWorld, List.getElem?_cons_zero, Option.some.injEq] at he
          subst he
          exact Or.inr (Or.inr (by decide))
        · subst h
          simp [sampleWorld] at he) with
  | ⟨_, _, h, h1, h2, h3, _⟩ => by rw [h]; simp [Except.map, h1, h2, h3, sampleController]

/-- C26 (as stated) fails: the controller is paired with 192.0.2.77:1234 and live (last
liveness 1000, clock 2000), the network is up, and `"abc"` arrives from 192.0.2.10:9000; after
the iteration of `loop` the peer session is still 192.0.2.77:1234, to which `"OK"` was
sent. -/
theorem C26_live_peer_keeps_session :
    (⟨samplePeer, 9000⟩ : UdpClient) ≠ sampleController.client ∧
      (loop { sampleController with connected := true, lastPingTime := 1000 }
          (sampleWorld [2000] [some ⟨samplePeer, 9000, [97, 98, 99]⟩])
          WL_CONNECTED).toOption.map (fun r => (r.1.client, r.1.connected, r.2.sent)) =
        some (⟨⟨192, 0, 2, 77⟩, 1234⟩, true, [⟨⟨192, 0, 2, 77⟩, 1234, msgOK, true⟩]) := by
  decide

/-- C26 (amended): in an iteration of `loop` with the network connected,
`checkIncomingClients` runs only when `isClientConnected` returns false. When a peer is paired
and live (`isClientConnected` returns true) the peer session is unchanged, whatever arrives:
an inbound datagram carrying the pass-phrase from another (non-broadcast, non-self) address is
read as data and answered with `"OK"` to the current peer. When `isClientConnected` returns
false the iteration continues as `checkIncomingClients`; in particular, with no session
connected, that datagram makes its sender the new peer session. The two worked cases are
stated for an LED already showing `WIFI_CONNECTED`, which `isWiFiConnected` does not render
again. -/
theorem C26_takeover (c : WifiController) (w : World) (d : Datagram)
    (rest : List (Option Datagram)) (t : Nat) (clk : List Nat)
    (hin : w.inbox = some d :: rest) (hclk : w.clock = t :: clk)
    (hpay : cstr d.payload = cstr PASS_PHRASE)
    (h255 : d.ip.o3 ≠ 255) (hself : d.ip.o3 ≠ w.localIP.o3) :
    (∀ c0 w0 c1 w1 c2 w2,
        WifiController.isWiFiConnected c w WL_CONNECTED = .ok (true, c0, w0) →
        WifiController.isClientConnected c0 w0 = .ok (true, c1, w1) →
        loop c w WL_CONNECTED = .ok (c2, w2) → c2.client = c.client) ∧
      (c.led.status = WIFI_CONNECTED → c.connected = true →
        sub32 t c.lastPingTime < 60000 →
        loop c w WL_CONNECTED =
          .ok ({ c with udp := ⟨d.ip, d.port⟩ },
            { w with clock := clk, inbox := rest,
                     sent := w.sent ++ [⟨c.client.ip, c.client.port, msgOK,
                       (w.tx w.sent.length).beginPacket && (w.tx w.sent.length).endPacket⟩] })) ∧
      (∀ c0 w0 c1 w1,
        WifiController.isWiFiConnected c w WL_CONNECTED = .ok (true, c0, w0) →
        WifiController.isClientConnected c0 w0 = .ok (false, c1, w1) →
        loop c w WL_CONNECTED = WifiController.checkIncomingClients c1 w1) ∧
      (c.led.status = WIFI_CONNECTED → c.connected = false →
        loop c w WL_CONNECTED =
          WifiController.broadcastIP
            { c with udp := ⟨d.ip, d.port⟩, client := ⟨d.ip, d.port⟩, connected := true,
                     lastPingTime := t }
            { w with inbox := rest, clock := clk,
                     sent := w.sent ++ [⟨d.ip, d.port, msgHello,
                       (w.tx w.sent.length).beginPacket && (w.tx w.sent.length).endPacket⟩] }
            1000 ∧
        ∀ c2 w2, loop c w WL_CONNECTED = .ok (c2, w2) →
          c2.client = ⟨d.ip, d.port⟩ ∧ c2.connected = true) := by
  have hne : d.payload ≠ [] := by
    intro h
    rw [h] at hpay
    exact absurd hpay (by decide)
  refine ⟨?_, ?_, ?_, ?_⟩
  · intro c0 w0 c1 w1 c2 w2 hup hlive hrun
    rw [loop_after_up c w WL_CONNECTED c0 w0 hup, hlive] at hrun
    simp only [Bool.not_true, Bool.false_eq_true, if_false] at hrun
    obtain ⟨led, hc0⟩ := isWiFiConnected_frame c w WL_CONNECTED true c0 w0 hup
    have hc1 := isClientConnected_client c0 w0 true c1 w1 hlive
    have hf := (receiveMessage_frame c1 w1 []).1
    have hcl : c0.client = c.client := by rw [hc0]
    split at hrun
    · simp only [Except.ok.injEq, Prod.mk.injEq] at hrun
      rw [← hrun.1, hf, hc1, hcl]
    · simp only [Except.ok.injEq, Prod.mk.injEq] at hrun
      rw [← hrun.1, hf, hc1, hcl]
  · intro hled hconn hlt
    have hnot : ¬ (sub32 t c.lastPingTime ≥ 60000) := by omega
    have hlive : WifiController.isClientConnected c w = .ok (true, c, { w with clock := clk }) := by
      unfold WifiController.isClientConnected
      simp [hconn, millis_cons w t clk hclk, hnot]
    rw [loop_up c w hled, hlive]
    simp only [Bool.not_true, Bool.false_eq_true, if_false]
    rw [receiveMessage_accepted c { w with clock := clk } d rest [] hin h255 hself hne]
    have hpos : d.payload.length > 0 :=
      Nat.pos_of_ne_zero (fun h => hne (List.length_eq_zero.1 h))
    simp only [hpos, if_true, sendMessage_world]
  · intro c0 w0 c1 w1 hup hdead
    rw [loop_after_up c w WL_CONNECTED c0 w0 hup, hdead]
    simp
  · intro hled hconn
    have hdead : WifiController.isClientConnected c w = .ok (false, c, w) := by
      unfold WifiController.isClientConnected
      simp [hconn]
    have hmain : loop c w WL_CONNECTED = WifiController.checkIncomingClients c w := by
      rw [loop_up c w hled, hdead]
      simp
    rw [hmain, checkIncomingClients_pair c w d rest t clk hin hclk hpay h255 hself]
    refine ⟨rfl, ?_⟩
    intro c2 w2 hrun
    obtain ⟨h1, h2, _⟩ := broadcastIP_frame _ _ _ _ _ hrun
    exact ⟨h1, h2⟩

/-- Witness of C26: the sample controller, not connected, receives `"abc"` from
192.0.2.10:9000 at 5000 with no broadcast due; the iteration makes that sender the peer. And
the same controller, connected and live, keeps its peer. -/
theorem C26_takeover_witness :
    (loop sampleController (sampleWorld [5000, 5001] [some ⟨samplePeer, 9000, [97, 98, 99]⟩])
        WL_CONNECTED).toOption.map (fun r => (r.1.client, r.1.connected)) =
        some (⟨samplePeer, 9000⟩, true) ∧
      (loop { sampleController with connected := true, lastPingTime := 1000 }
        (sampleWorld [2000] [some ⟨samplePeer, 9000, [97, 98, 99]⟩])
        WL_CONNECTED).toOption.map (fun r => r.1.client) = some ⟨⟨192, 0, 2, 77⟩, 1234⟩ :=
  ⟨by
    have h := (C26_takeover sampleController
      (sampleWorld [5000, 5001] [some ⟨samplePeer, 9000, [97, 98, 99]⟩])
      ⟨samplePeer, 9000, [97, 98, 99]⟩ [] 5000 [5001] rfl rfl (by decide) (by decide)
      (by decide)).2.2.2 rfl rfl
    rw [h.1]
    rfl,
   by
    rw [(C26_takeover { sampleController with connected := true, lastPingTime := 1000 }
      (sampleWorld [2000] [some ⟨samplePeer, 9000, [97, 98, 99]⟩])
      ⟨samplePeer, 9000, [97, 98, 99]⟩ [] 2000 [] rfl rfl (by decide) (by decide)
      (by decide)).2.1 rfl rfl (by decide)]
    rfl⟩

/-- C30: the elapsed-time tests compute `(now - last) mod 2^32`, which is the true elapsed
time `e` whenever `e < 2^32`, also when the counter wrapped between `last` and `now`:
`broadcastIP(timer)` skips when `e < timer` and attempts a send when `e >= timer`;
`isClientConnected` stays quiet when `e < 60000` and sends a `"ping"` when `e >= 60000`; and
a reading taken `e` ms after the start of the reply window is a poll of the window exactly
when `e < 1000`. -/
theorem C30_clock_wrap (last e : Nat) (he : e < 4294967296) :
    sub32 ((last + e) % 4294967296) last = e ∧
      (∀ (c : WifiController) (w : World) (timer : Nat) (clk : List Nat),
        c.lastBroadcastTime = last → w.clock = (last + e) % 4294967296 :: clk →
        (e < timer → WifiController.broadcastIP c w timer = .ok (c, { w with clock := clk })) ∧
        (timer ≤ e →
          (∀ c1 w1, WifiController.broadcastIP c w timer = .ok (c1, w1) →
            w1.sent = w.sent ++ [⟨{ w.localIP with o3 := 255 }, LOCAL_PORT,
              cstr (dotted w.localIP ++ [0]), (w.tx w.sent.length).endPacket⟩]) ∧
          ((((w.tx w.sent.length).endPacket = true →
              ∃ t3 t4 clk4, clk = t3 :: t4 :: clk4 ∧ 2 ≤ onReadings 100 t4 clk4) ∧
            ((w.tx w.sent.length).endPacket = false →
              ∃ t4 clk4, clk = t4 :: clk4 ∧ 10 ≤ onReadings 1000 t4 clk4)) →
            ∃ r, WifiController.broadcastIP c w timer = .ok r))) ∧
      (∀ (c : WifiController) (w : World) (clk : List Nat),
        c.connected = true → c.lastPingTime = last →
        w.clock = (last + e) % 4294967296 :: clk →
        (e < 60000 →
          WifiController.isClientConnected c w = .ok (true, c, { w with clock := clk })) ∧
        (60000 ≤ e → ∀ r c1 w1, WifiController.isClientConnected c w = .ok (r, c1, w1) →
          w1.sent = w.sent ++ [⟨c.client.ip, c.client.port, msgPing,
            (w.tx w.sent.length).beginPacket && (w.tx w.sent.length).endPacket⟩])) ∧
      (∀ clk : List Nat, pollCount last ((last + e) % 4294967296 :: clk) =
        if e < 1000 then pollCount last clk + 1 else 0) := by
  have hsub : sub32 ((last + e) % 4294967296) last = e := by
    unfold sub32
    omega
  refine ⟨hsub, ?_, ?_, ?_⟩
  · intro c w timer clk hl hclk
    constructor
    · intro hlt
      exact broadcastIP_skip c w timer _ clk hclk (by rw [hl, hsub]; exact hlt)
    · intro hge
      have hdue : timer ≤ sub32 ((last + e) % 4294967296) c.lastBroadcastTime := by
        rw [hl, hsub]; exact hge
      constructor
      · intro c1 w1 hrun
        exact (broadcastIP_outcome c w timer _ clk c1 w1 hclk hdue hrun).1.1
      · intro hscript
        exact broadcastIP_returns c w timer _ clk hclk (fun _ => hscript)
  · intro c w clk hconn hl hclk
    constructor
    · intro hlt
      have hnot : ¬ (sub32 ((last + e) % 4294967296) c.lastPingTime ≥ 60000) := by
        rw [hl, hsub]; omega
      unfold WifiController.isClientConnected
      simp [hconn, millis_cons w _ clk hclk, hnot]
    · intro hge r c1 w1 hrun
      exact isClientConnected_due c w _ clk hconn hclk (by rw [hl, hsub]; exact hge) r c1 w1
        hrun
  · intro clk
    by_cases hlt : e < 1000
    · simp [pollCount, List.takeWhile_cons, hsub, hlt]
    · simp [pollCount, List.takeWhile_cons, hsub, hlt]

/-- Witness of C30: the last broadcast was at `2^32 - 500`; at 600 the elapsed time is 1100
and `broadcastIP(1000)` sends, at 400 it is 900 and the broadcast is skipped. -/
theorem C30_clock_wrap_witness :
    sub32 600 4294966796 = 1100 ∧ sub32 400 4294966796 = 900 ∧
      WifiController.broadcastIP { sampleController with lastBroadcastTime := 4294966796 }
          (sampleWorld [400] []) 1000 =
        .ok ({ sampleController with lastBroadcastTime := 4294966796 }, sampleWorld [] []) ∧
      (WifiController.broadcastIP { sampleController with lastBroadcastTime := 4294966796 }
          (sampleWorld [600, 601, 602, 602, 702] []) 1000).toOption.map (fun r => r.2.sent) =
        some [sampleAnnounce] :=
  ⟨(C30_clock_wrap 4294966796 1100 (by decide)).1,
    (C30_clock_wrap 4294966796 900 (by decide)).1,
    ((C30_clock_wrap 4294966796 900 (by decide)).2.1
      { sampleController with lastBroadcastTime := 4294966796 } (sampleWorld [400] []) 1000 []
      rfl rfl).1 (by decide),
    match (((C30_clock_wrap 4294966796 1100 (by decide)).2.1
      { sampleController with lastBroadcastTime := 4294966796 }
      (sampleWorld [600, 601, 602, 602, 702] []) 1000 [601, 602, 602, 702] rfl rfl).2
      (by decide)).2 ⟨fun _ => ⟨601, 602, [602, 702], rfl, by decide⟩,
        fun h => absurd h (by decide)⟩ with
    | ⟨r, h⟩ => by
      have hs := (((C30_clock_wrap 4294966796 1100 (by decide)).2.1
        { sampleController with lastBroadcastTime := 4294966796 }
        (sampleWorld [600, 601, 602, 602, 702] []) 1000 [601, 602, 602, 702] rfl rfl).2
        (by decide)).1 r.1 r.2 h
      rw [h]
      simp only [Except.toOption, Option.map, hs]
      rfl⟩

/-! ## Claims on joining the network -/

/-- C19: for no sequence of network statuses does the wait loop of `connect` run more than 11
passes, and it renders `WIFI_CONNECTING` at most 10 times (`BoundedFrom 0 []`, for every fuel
of at least 11); when stored credentials exist and the status never becomes `WL_CONNECTED`,
`connect` renders `WIFI_CONNECTING` `j` times, then sets `WIFI_FAILED` and restarts, where
`j <= 10` is the pass whose check first reads `WL_CONNECT_FAILED` (`j = 10` when none does),
provided the clock script lets the LED flash. -/
theorem C19_bounded_retry (s : Store) (status : Nat → Nat) (c : WifiController) (w : World)
    (fuel : Nat) (hfuel : 11 ≤ fuel) :
    (WifiController.connect s status fuel c w).BoundedFrom 0 [] ∧
      (hasCredentials s = true → (∀ k, status k ≠ WL_CONNECTED) →
        ∀ j, j ≤ 10 → (∀ i, i < j → status (2 * i + 1) ≠ WL_CONNECT_FAILED) →
          (j = 10 ∨ status (2 * j + 1) = WL_CONNECT_FAILED) →
          OnBeat w.clock → 2 * j + 4 ≤ w.clock.length →
          ∃ c1 w1, WifiController.connect s status fuel c w =
            .restarted (j + 1) (List.replicate j WIFI_CONNECTING ++ [WIFI_FAILED]) c1 w1) := by
  constructor
  · unfold WifiController.connect
    split
    · split
      · trivial
      · trivial
    · exact connectLoop_bounded status fuel 0 0 [] c _ (by omega) (by omega)
  · intro hhas hnc j hj10 hnofail hj hob hlen
    unfold WifiController.connect
    simp only [hhas, Bool.not_true, Bool.false_eq_true, if_false]
    obtain ⟨c1, w1, h⟩ := connectLoop_restart status j hj10 hnc hnofail hj j 0 fuel [] c
      (delay w 100) (by omega) (by omega) (by simpa [delay] using hob)
      (by simpa [delay] using hlen)
    exact ⟨c1, w1, by simpa using h⟩

/-- Witness of C19: credentials ("a", "x") are stored, the status is `WL_DISCONNECTED` (6)
except at the eighth call, the check of the fourth pass, where it is `WL_CONNECT_FAILED`:
three renders of `WIFI_CONNECTING`, then `WIFI_FAILED` and a restart in the fourth pass. -/
theorem C19_bounded_retry_witness :
    (WifiController.connect (saveCredentials zeroStore ⟨[97], [120]⟩)
        (fun k => if k = 7 then 4 else 6) 11 sampleController
        (sampleWorld [0, 0, 2000, 2000, 4000, 4000, 6000, 6000, 8000, 10000] [])).summary =
      some (true, 4, [WIFI_CONNECTING, WIFI_CONNECTING, WIFI_CONNECTING, WIFI_FAILED]) :=
  match (C19_bounded_retry (saveCredentials zeroStore ⟨[97], [120]⟩)
      (fun k => if k = 7 then 4 else 6) sampleController
      (sampleWorld [0, 0, 2000, 2000, 4000, 4000, 6000, 6000, 8000, 10000] []) 11
      (by decide)).2 (by decide) (by intro k; by_cases h : k = 7 <;> simp [h, WL_CONNECTED])
      3 (by decide) (by decide) (Or.inr (by decide)) (by decide) (by decide) with
  | ⟨_, _, h⟩ => by rw [h]; rfl

/-! ## Claims on provisioning and boot -/

/-- C17 (as stated) fails: on the all-zero store a connected peer delivers the non-empty
name `"\0a"` and the non-empty secret `"x"`; `GetWiFi` leaves its loop after one pass and
saves, but `hasCredentials` is then false, `loadCredentials` returns an empty name, and the
device does not restart. -/
theorem C17_nul_name_no_restart :
    sampleNulPeer.ssid ≠ [] ∧ sampleNulPeer.password ≠ [] ∧
      (BLEController.GetWiFi zeroStore [sampleNulPeer] sampleProvisioner
        (sampleWorld [0, 10, 20, 30] [])).restarted = false ∧
      (BLEController.GetWiFi zeroStore [sampleNulPeer] sampleProvisioner
        (sampleWorld [0, 10, 20, 30] [])).store?.map hasCredentials = some false ∧
      (BLEController.GetWiFi zeroStore [sampleNulPeer] sampleProvisioner
        (sampleWorld [0, 10, 20, 30] [])).store?.map loadCredentials = some ⟨[], [120]⟩ := by
  decide

/-- C17 (amended): for every store state, in particular the all-zero one, when a connected
peer has delivered a network name and a secret that both begin with a non-NUL character,
`GetWiFi` leaves its polling loop in that pass (the first one of the run, or a later one
entered with any counter and window), saves the pair and restarts the device;
`hasCredentials` is then true and `loadCredentials` returns the first 31 and 63 characters
up to the first NUL, which is the truncated pair when the values hold no NUL. The clock
script is `t0` for the start of `GetWiFi`, the readings of the LED on the beat, and the two
adjacent readings `t`, `t'` of the pass, less than 120000 ms apart. -/
theorem C17_provisioning (s : Store) (b : BLEController) (w : World) (e : BleSnapshot)
    (rest : List BleSnapshot) (t0 t t' : Nat) (ledClk clk' : List Nat)
    (hb : b.ssid = [] ∨ b.password = []) (hc : e.connected = true)
    (hs : BeginsNonNul e.ssid) (hp : BeginsNonNul e.password)
    (hclk : w.clock = t0 :: (ledClk ++ t :: t' :: clk'))
    (hled : ledClk.length = pollLedReadings b e) (hob : OnBeat ledClk)
    (hwin : sub32 t' t < 2 * 60 * 1000) :
    (∃ led w1, BLEController.GetWiFi s (e :: rest) b w =
        .saved true 1 (saveCredentials s ⟨e.ssid, e.password⟩)
          { b with _connected := true, ssid := e.ssid, password := e.password, led := led }
          w1 ∧ w1.clock = clk') ∧
      (∀ polls st, ∃ led w1, BLEController.getWiFiLoop s (e :: rest) polls st b
          { w with clock := ledClk ++ t :: t' :: clk' } =
        .saved true (polls + 1) (saveCredentials s ⟨e.ssid, e.password⟩)
          { b with _connected := true, ssid := e.ssid, password := e.password, led := led }
          w1 ∧ w1.clock = clk') ∧
      hasCredentials (saveCredentials s ⟨e.ssid, e.password⟩) = true ∧
      loadCredentials (saveCredentials s ⟨e.ssid, e.password⟩) =
        ⟨cstr ((e.ssid.take 31).map (fun c => c % 256)),
          cstr ((e.password.take 63).map (fun c => c % 256))⟩ ∧
      (IsChars e.ssid → IsChars e.password → NulFree e.ssid → NulFree e.password →
        loadCredentials (saveCredentials s ⟨e.ssid, e.password⟩) =
          ⟨e.ssid.take 31, e.password.take 63⟩) := by
  have hloop : ∀ polls st, ∃ led w1, BLEController.getWiFiLoop s (e :: rest) polls st b
        { w with clock := ledClk ++ t :: t' :: clk' } =
      .saved true (polls + 1) (saveCredentials s ⟨e.ssid, e.password⟩)
        { b with _connected := true, ssid := e.ssid, password := e.password, led := led }
        w1 ∧ w1.clock = clk' := fun polls st =>
    getWiFiLoop_saves s polls st b _ e rest t t' ledClk clk' hb hc hs hp rfl hled hob hwin
  refine ⟨?_, hloop, hasCredentials_saveCredentials s ⟨e.ssid, e.password⟩ hs hp,
    load_save s ⟨e.ssid, e.password⟩, fun hc1 hc2 hn1 hn2 => ?_⟩
  · obtain ⟨led, w1, h, hc1⟩ := hloop 0 t0
    refine ⟨led, w1, ?_, hc1⟩
    rw [← h]
    simp only [BLEController.GetWiFi, millis_cons w t0 _ hclk]
  · rw [load_save, map_mod_of_isChars _ (isChars_take _ _ hc1),
      map_mod_of_isChars _ (isChars_take _ _ hc2),
      cstr_of_nulFree _ (fun c h => hn1 c (List.mem_of_mem_take h)),
      cstr_of_nulFree _ (fun c h => hn2 c (List.mem_of_mem_take h))]

/-- Witness of C17: on the all-zero store a peer connects and writes ("home-net",
"s3cr3t"); the LED takes one reading for `BLE_CONNECTED` and five for `BLE_RECEIVE`; the
run restarts the device and the saved store loads as the pair. -/
theorem C17_provisioning_witness :
    (BLEController.GetWiFi zeroStore [sampleHomePeer] sampleProvisioner
        (sampleWorld [0, 0, 0, 2000, 4000, 6000, 8000, 8000, 8001, 7] [])).restarted = true ∧
      (BLEController.GetWiFi zeroStore [sampleHomePeer] sampleProvisioner
        (sampleWorld [0, 0, 0, 2000, 4000, 6000, 8000, 8000, 8001, 7] [])).store?.map
          loadCredentials =
        some ⟨[104, 111, 109, 101, 45, 110, 101, 116], [115, 51, 99, 114, 51, 116]⟩ :=
  match C17_provisioning zeroStore sampleProvisioner
      (sampleWorld [0, 0, 0, 2000, 4000, 6000, 8000, 8000, 8001, 7] []) sampleHomePeer []
      0 8000 8001 [0, 0, 2000, 4000, 6000, 8000] [7] (Or.inl rfl) rfl (by decide) (by decide)
      rfl rfl (by decide) (by decide) with
  | ⟨⟨_, _, h, _⟩, _, _, _, hload⟩ => by
    rw [h]
    exact ⟨rfl, congrArg some
      (hload (by decide) (by decide) (by decide) (by decide))⟩

/-- C18 (as stated) fails: a peer connects in the first pass (clock 1000) and stays
connected without writing a value; the test of the second pass reads the clock at 130001,
more than 120000 ms after the connect, and the device does not restart: the loop is still
polling, its window opened anew at 130000 by the second, idle pass. -/
theorem C18_idle_pass_reopens_window :
    120000 ≤ sub32 130001 1000 ∧
      (BLEController.GetWiFi zeroStore [sampleSilentPeer, sampleSilentPeer] sampleProvisioner
        (sampleWorld [0, 1000, 1000, 1001, 130000, 130001, 7] [])).restarted = false ∧
      (BLEController.GetWiFi zeroStore [sampleSilentPeer, sampleSilentPeer] sampleProvisioner
        (sampleWorld [0, 1000, 1000, 1001, 130000, 130001, 7] [])).openedAt? =
          some 130000 := by
  decide

/-- C18 (amended): in `GetWiFi` the 2-minute window is opened anew by every pass of the
polling loop in which a peer is connected, idle passes included: such a pass sets
`startTime` to its own clock reading `t` and restarts the device exactly when the next
reading `t'` is 120000 ms or more after `t`, whatever `startTime` was before, so the time
since the peer connected plays no part. If no peer ever connects, the device restarts at the
first pass whose clock reading is 120000 ms or more after the reading taken when `GetWiFi`
began. -/
theorem C18_timeout_window (s : Store) (b : BLEController) (w : World) (e : BleSnapshot)
    (st t t' : Nat) (ledClk clk' : List Nat) (hc : e.connected = true)
    (hclk : w.clock = ledClk ++ t :: t' :: clk')
    (hled : ledClk.length = pollLedReadings b e) (hob : OnBeat ledClk) :
    (∃ led w1, BLEController.pollStep b st w e =
        .ok (decide (sub32 t' t ≥ 2 * 60 * 1000),
          { b with _connected := true, ssid := e.ssid, password := e.password, led := led },
          t, w1) ∧ w1.clock = clk') ∧
      (∀ (snaps : List BleSnapshot) (pre : List Nat) (t0 tq : Nat) (clkq : List Nat)
        (wq : World), (b.ssid = [] ∨ b.password = []) → b._connected = false →
        (∀ q ∈ snaps, q.connected = false ∧ q.r = false ∧ q.s = false) →
        pre.length < snaps.length → (∀ p ∈ pre, sub32 p t0 < 2 * 60 * 1000) →
        2 * 60 * 1000 ≤ sub32 tq t0 → wq.clock = t0 :: (pre ++ tq :: clkq) →
        BLEController.GetWiFi s snaps b wq =
          .timedOut (pre.length + 1) b { wq with clock := clkq }) := by
  refine ⟨pollStep_connected b st w e t t' ledClk clk' hc hclk hled hob, ?_⟩
  intro snaps pre t0 tq clkq wq hb hconn hq hlen hpre htq hclkq
  simp only [BLEController.GetWiFi, millis_cons wq t0 _ hclkq]
  rw [getWiFiLoop_quiet s b t0 hb hconn pre snaps 0 _ tq clkq hq hlen hpre htq rfl]
  simp

/-- Witness of C18: a pass entered with a peer connected since 1000 and the window opened
at 1000 reads the clock at 130000 and 130001: no restart, window now at 130000. And with no
peer for three passes read at 1000, 119999 and 120000 after a start at 0, the third pass
restarts the device. -/
theorem C18_timeout_window_witness :
    ((BLEController.pollStep { sampleProvisioner with _connected := true } 1000
        (sampleWorld [130000, 130001, 7] []) sampleSilentPeer).toOption.map
          (fun r => (r.1, r.2.2.1))) = some (false, 130000) ∧
      (BLEController.GetWiFi zeroStore [sampleNoPeer, sampleNoPeer, sampleNoPeer]
        sampleProvisioner (sampleWorld [0, 1000, 119999, 120000, 7] [])).timedOutAt? =
          some 3 :=
  match C18_timeout_window zeroStore { sampleProvisioner with _connected := true }
      (sampleWorld [130000, 130001, 7] []) sampleSilentPeer 1000 130000 130001 [] [7]
      rfl rfl rfl (by decide) with
  | ⟨⟨_, _, h, _⟩, _⟩ => by
    constructor
    · rw [h]; rfl
    · exact congrArg ProvisionResult.timedOutAt?
        ((C18_timeout_window zeroStore sampleProvisioner
          (sampleWorld [2000, 130000, 130001, 7] []) sampleSilentPeer 1000 130000 130001
          [2000] [7] rfl rfl rfl (by decide)).2
          [sampleNoPeer, sampleNoPeer, sampleNoPeer] [1000, 119999] 0 120000 [7]
          (sampleWorld [0, 1000, 119999, 120000, 7] []) (Or.inl rfl) rfl (by decide)
          (by decide) (by decide) (by decide) rfl)

/-- C16: `setup` calls `WifiController::connect` only when `hasCredentials` is true and
`BLEController::init` with `GetWiFi` only when it is false; when the clock script lets the
LED render `BOOTED` and `WIFI_INIT` (twelve readings on the beat) and `hasCredentials` is
true it does call `connect`, and when `hasCredentials` is false and the script also lets
`BLE_INIT` render (fifteen readings) it does call `GetWiFi`; in a boot on the all-zero store
`connect` is never called. -/
theorem C16_boot_branch (s : Store) (status : Nat → Nat) (fuel : Nat)
    (snaps : List BleSnapshot) (sled : StatusLED) (c : WifiController) (b : BLEController)
    (w : World) :
    (∀ r, setup s status fuel snaps sled c b w = .operational r → hasCredentials s = true) ∧
      (∀ r, setup s status fuel snaps sled c b w = .provisioning r →
        hasCredentials s = false) ∧
      (hasCredentials s = true → OnBeat (w.clock.take 12) → 12 ≤ w.clock.length →
        ∃ led2 w2, setup s status fuel snaps sled c b w =
          .operational (WifiController.connect s status fuel { c with led := led2 } w2) ∧
          w2.clock = w.clock.drop 12) ∧
      (hasCredentials s = false → OnBeat (w.clock.take 15) → 15 ≤ w.clock.length →
        ∃ led3 w3, setup s status fuel snaps sled c b w =
          .provisioning (BLEController.GetWiFi s snaps { b with led := led3 } w3) ∧
          w3.clock = w.clock.drop 15) ∧
      (∀ r, setup zeroStore status fuel snaps sled c b w ≠ .operational r) := by
  have hop : ∀ (s : Store) r, setup s status fuel snaps sled c b w = .operational r →
      hasCredentials s = true := by
    intro s r h
    unfold setup at h
    cases h1 : StatusLED.SetStatus sled w BOOTED true 1000 with
    | error f => rw [h1] at h; simp at h
    | ok r1 =>
      obtain ⟨led1, w1⟩ := r1
      rw [h1] at h
      simp only [] at h
      cases h2 : StatusLED.SetStatus led1 (delay w1 10) WIFI_INIT true 500 with
      | error f => rw [h2] at h; simp at h
      | ok r2 =>
        obtain ⟨led2, w2⟩ := r2
        rw [h2] at h
        simp only [] at h
        by_cases hh : hasCredentials s = true
        · exact hh
        · rw [if_neg hh] at h
          cases h3 : StatusLED.SetStatus led2 w2 BLE_INIT true 0 with
          | error f => rw [h3] at h; simp at h
          | ok r3 => rw [h3] at h; simp at h
  refine ⟨hop s, ?_, ?_, ?_, ?_⟩
  · intro r h
    unfold setup at h
    cases h1 : StatusLED.SetStatus sled w BOOTED true 1000 with
    | error f => rw [h1] at h; simp at h
    | ok r1 =>
      obtain ⟨led1, w1⟩ := r1
      rw [h1] at h
      simp only [] at h
      cases h2 : StatusLED.SetStatus led1 (delay w1 10) WIFI_INIT true 500 with
      | error f => rw [h2] at h; simp at h
      | ok r2 =>
        obtain ⟨led2, w2⟩ := r2
        rw [h2] at h
        simp only [] at h
        by_cases hh : hasCredentials s = true
        · rw [if_pos hh] at h; simp at h
        · simpa using hh
  · intro hh hob hlen
    obtain ⟨w1, led2, w2, h1, h2, hc2⟩ := setup_prefix sled w hob hlen
    refine ⟨led2, w2, ?_, hc2⟩
    simp only [setup, h1, h2, hh, if_true]
  · intro hh hob hlen
    obtain ⟨w1, led2, w2, h1, h2, hc2⟩ := setup_prefix sled w
      (onBeat_take_le _ _ _ (by omega) hob) (by omega)
    have hr : readingsOf (StatusLED.pattern
        { led2 with flash := false, status := BLE_INIT } BLE_INIT) = 3 := rfl
    obtain ⟨led3, w3, h3, hc3⟩ := SetStatus_onBeat led2 w2 BLE_INIT 0 (by decide)
      (by rw [hr, hc2]; exact onBeat_take_drop _ 12 3 hob)
      (by rw [hr, hc2, List.length_drop]; omega)
    refine ⟨led3, w3, ?_, ?_⟩
    · simp only [setup, h1, h2, hh, Bool.false_eq_true, if_false, h3]
    · rw [hc3, hr, hc2, List.drop_drop]
  · intro r h
    have := hop zeroStore r h
    revert this
    decide

/-- Witness of C16: with fifteen clock readings on the beat, a boot on a store holding
("a", "x") calls `connect` and a boot on the all-zero store calls `GetWiFi`. -/
theorem C16_boot_branch_witness :
    (setup (saveCredentials zeroStore ⟨[97], [120]⟩) (fun _ => 3) 11 [] sampleLED
        sampleController sampleProvisioner
        (sampleWorld (List.replicate 15 0) [])).calledConnect? = some true ∧
      (setup zeroStore (fun _ => 3) 11 [] sampleLED sampleController sampleProvisioner
        (sampleWorld (List.replicate 15 0) [])).calledConnect? = some false :=
  ⟨match (C16_boot_branch (saveCredentials zeroStore ⟨[97], [120]⟩) (fun _ => 3) 11 []
      sampleLED sampleController sampleProvisioner
      (sampleWorld (List.replicate 15 0) [])).2.2.1 (by decide) (by decide) (by decide) with
    | ⟨_, _, h, _⟩ => by rw [h]; rfl,
   match (C16_boot_branch zeroStore (fun _ => 3) 11 [] sampleLED sampleController
      sampleProvisioner (sampleWorld (List.replicate 15 0) [])).2.2.2.1 (by decide)
      (by decide) (by decide) with
    | ⟨_, _, h, _⟩ => by rw [h]; rfl⟩

/-! ## Claims on the status LED -/

/-- C20 (as stated) fails for the status `WIFI_CONNECTING`: given it without rendering, an
LED whose colour was green ends with the colour `'a'` and one whose colour was red ends with
green. -/
theorem C20_connecting_depends_on_colour :
    (StatusLED.SetStatus sampleLED (sampleWorld [] []) WIFI_CONNECTING false 0).toOption.map
        (fun r => r.1.activeLED) = some chr_a ∧
      (StatusLED.SetStatus { sampleLED with activeLED := chr_r } (sampleWorld [] [])
        WIFI_CONNECTING false 0).toOption.map (fun r => r.1.activeLED) = some chr_g ∧
      chr_a ≠ chr_g := by
  decide

/-- C20 (amended): for every status value other than `WIFI_CONNECTING`, the pattern that
`SetStatus(status, false)` establishes depends on the status alone: from two arbitrary prior
states the call has the same outcome in the same world, and in any two worlds the patterns
are equal whenever both calls return. For a status other than `BOOTED` the call returns at
once with the pattern of the `switch`; for `BOOTED` it renders three double flashes, returns
when the clock script is on the beat for nine readings, and leaves the spent blue flash. For
`WIFI_CONNECTING` the colour is `'a'` when the prior colour was green and green otherwise,
with one flash, duration 1000 and rate divisor 1. -/
theorem C20_pattern_determinism (l1 l2 : StatusLED) (w1 w2 : World) (status : Int)
    (wait : Nat) (hs : status ≠ WIFI_CONNECTING) :
    StatusLED.SetStatus l1 w1 status false wait =
        StatusLED.SetStatus l2 w1 status false wait ∧
      (∀ p1 v1 p2 v2, StatusLED.SetStatus l1 w1 status false wait = .ok (p1, v1) →
        StatusLED.SetStatus l2 w2 status false wait = .ok (p2, v2) → p1 = p2) ∧
      (status ≠ BOOTED → StatusLED.SetStatus l1 w1 status false wait =
        .ok (StatusLED.pattern { l1 with flash := false, status := status } status, w1)) ∧
      (status = BOOTED → OnBeat (w1.clock.take 9) → 9 ≤ w1.clock.length →
        ∃ v, StatusLED.SetStatus l1 w1 status false wait =
          .ok (⟨chr_b, true, 200, 1, 0, BOOTED⟩, v)) ∧
      StatusLED.SetStatus l1 w1 WIFI_CONNECTING false wait =
        .ok (⟨if l1.activeLED = chr_g then chr_a else chr_g, true, 1000, 1, 1,
          WIFI_CONNECTING⟩, w1) := by
  refine ⟨SetStatus_indep l1 l2 w1 status false wait hs, ?_, ?_, ?_, rfl⟩
  · intro p1 v1 p2 v2 h1 h2
    by_cases hb : status = BOOTED
    · subst hb
      rw [SetStatus_booted_pattern l1 w1 wait p1 v1 h1,
        SetStatus_booted_pattern l2 w2 wait p2 v2 h2]
    · rw [SetStatus_eq l1 w1 status false wait hb] at h1
      rw [SetStatus_eq l2 w2 status false wait hb] at h2
      simp only [Bool.false_eq_true, if_false, Except.ok.injEq, Prod.mk.injEq] at h1 h2
      rw [← h1.1, ← h2.1]
      exact pattern_indep l1 l2 status hs
  · intro hb
    rw [SetStatus_eq l1 w1 status false wait hb]
    simp
  · intro hb hob hlen
    subst hb
    obtain ⟨v, h, _⟩ := SetStatus_booted_onBeat l1 w1 false wait (by simpa using hob)
      (by simpa using hlen)
    exact ⟨v, h⟩

/-- Witness of C20: `UDP_BROADCAST_SENT` given to an LED showing green `WIFI_CONNECTED` and
to one showing a spent blue flash establishes the same pattern: blue, two flashes, duration
100, rate divisor 1. -/
theorem C20_pattern_determinism_witness :
    StatusLED.SetStatus sampleLED (sampleWorld [] []) UDP_BROADCAST_SENT false 0 =
        StatusLED.SetStatus sampleSentLED (sampleWorld [] []) UDP_BROADCAST_SENT false 0 ∧
      (StatusLED.SetStatus sampleLED (sampleWorld [] []) UDP_BROADCAST_SENT false
        0).toOption.map (fun r => r.1) = some ⟨chr_b, true, 100, 1, 2, UDP_BROADCAST_SENT⟩ :=
  ⟨(C20_pattern_determinism sampleLED sampleSentLED (sampleWorld [] []) (sampleWorld [] [])
      UDP_BROADCAST_SENT 0 (by decide)).1,
    by decide⟩

/-- C21 (as stated) fails: the pattern that `SetStatus` establishes for the status value 99,
outside the enumeration, is the pattern it establishes for the enumerated status
`UDP_UNKNOWN_ERROR`. -/
theorem C21_default_same_as_udp_unknown :
    (99 : Int) ∉ LEDStatus.enumerators ∧ UDP_UNKNOWN_ERROR ∈ LEDStatus.enumerators ∧
      (StatusLED.SetStatus sampleLED (sampleWorld [] []) 99 false 0).toOption.map
          (fun r => r.1.indicator) = some (chr_r, true, 10, 1000, 1) ∧
      (StatusLED.SetStatus sampleLED (sampleWorld [] []) UDP_UNKNOWN_ERROR false
          0).toOption.map (fun r => r.1.indicator) = some (chr_r, true, 10, 1000, 1) := by
  decide

/-- C21 (amended): for every status value outside the `LEDStatus` enumeration `SetStatus`
establishes the failure pattern (red, flashing, 10 flashes, duration 1000, divisor 1); this
pattern differs from the pattern established for every enumerated status other than
`UDP_UNKNOWN_ERROR`, for which `SetStatus` establishes the same pattern. -/
theorem C21_unknown_status (led : StatusLED) (w : World) (status : Int) (wait : Nat)
    (hout : status ∉ LEDStatus.enumerators) :
    StatusLED.SetStatus led w status false wait =
        .ok (⟨chr_r, true, 1000, 1, 10, status⟩, w) ∧
      (∀ e ∈ LEDStatus.enumerators, e ≠ UDP_UNKNOWN_ERROR →
        ∀ (led2 : StatusLED) (w2 : World) (wait2 : Nat) (p : StatusLED) (v : World),
          StatusLED.SetStatus led2 w2 e false wait2 = .ok (p, v) →
          p.indicator ≠ (chr_r, true, 10, 1000, 1)) ∧
      (∀ (led2 : StatusLED) (w2 : World) (wait2 : Nat),
        StatusLED.SetStatus led2 w2 UDP_UNKNOWN_ERROR false wait2 =
          .ok (⟨chr_r, true, 1000, 1, 10, UDP_UNKNOWN_ERROR⟩, w2)) := by
  have hb : status ≠ BOOTED := by
    intro h
    exact hout (by rw [h]; decide)
  refine ⟨?_, ?_, fun led2 w2 wait2 => rfl⟩
  · rw [SetStatus_eq led w status false wait hb, pattern_default _ status hout]
    rfl
  · intro e he hu led2 w2 wait2 p v h
    by_cases heb : e = BOOTED
    · subst heb
      rw [SetStatus_booted_pattern led2 w2 wait2 p v h]
      decide
    · rw [SetStatus_eq led2 w2 e false wait2 heb] at h
      simp only [Bool.false_eq_true, if_false, Except.ok.injEq, Prod.mk.injEq] at h
      rw [← h.1]
      exact pattern_enumerated _ e he heb hu

/-- Witness of C21: the status value 99 given to the sample LED. -/
theorem C21_unknown_status_witness :
    StatusLED.SetStatus sampleLED (sampleWorld [] []) 99 false 0 =
      .ok (⟨chr_r, true, 1000, 1, 10, 99⟩, sampleWorld [] []) :=
  (C21_unknown_status sampleLED (sampleWorld [] []) 99 0 (by decide)).1

/-- C28: for every status value passed to `SetStatus`, enumerated or not, the pattern the
`switch` establishes (for `BOOTED`: each of its three patterns) has
`duration / flashRate >= 1` and on time `(duration / flashRate) / 2 >= 1`; no call of
`SetStatus`, rendering or not, stops on a division or remainder by zero, and the pattern a
returning call leaves has these two bounds too. -/
theorem C28_no_division_by_zero (led : StatusLED) (w : World) (status : Int)
    (alsoDrive : Bool) (wait : Nat) :
    (1 ≤ Int.tdiv (StatusLED.pattern led status).duration
          (StatusLED.pattern led status).flashRate ∧
        1 ≤ Int.tdiv (Int.tdiv (StatusLED.pattern led status).duration
          (StatusLED.pattern led status).flashRate) 2) ∧
      (∀ c, 1 ≤ Int.tdiv (StatusLED.setActiveLED led c true 2 200 1).duration
            (StatusLED.setActiveLED led c true 2 200 1).flashRate ∧
          1 ≤ Int.tdiv (Int.tdiv (StatusLED.setActiveLED led c true 2 200 1).duration
            (StatusLED.setActiveLED led c true 2 200 1).flashRate) 2) ∧
      StatusLED.SetStatus led w status alsoDrive wait ≠ .error .divisionByZero ∧
      (∀ p v, StatusLED.SetStatus led w status alsoDrive wait = .ok (p, v) →
        1 ≤ Int.tdiv p.duration p.flashRate ∧
          1 ≤ Int.tdiv (Int.tdiv p.duration p.flashRate) 2) :=
  ⟨pattern_positivePeriod led status,
    fun c => setActiveLED_positivePeriod led c true 2 200 1 (by decide),
    SetStatus_no_div led w status alsoDrive wait,
    fun p v h => SetStatus_positivePeriod led w status alsoDrive wait p v h⟩

/-- C22 (as stated) fails: with the flashing flag set, `flashCount = -1` and the green output
on, `drive` performs no cycle and returns with `flashCount = -1` and the green output still
on; and with the flag not set and the colour `'a'` it returns with no output on. -/
theorem C22_outputs_not_as_claimed :
    (StatusLED.drive ⟨chr_g, true, 1000, 1, -1, WIFI_INIT⟩
        (sampleWorld [5] [])).toOption.map
          (fun r => (r.1.flashCount, r.2.red, r.2.green, r.2.blue, r.2.delays, r.2.held)) =
        some (-1, false, true, false, [], ([] : List (Bool × Bool × Bool))) ∧
      (StatusLED.drive ⟨chr_a, false, 1000, 1, 1, WIFI_INIT⟩
        (sampleWorld [5] [])).toOption.map (fun r => (r.2.red, r.2.green, r.2.blue)) =
        some (false, false, false) :=
  ⟨rfl, rfl⟩

/-- C22 (amended): when the flashing flag is set, `flashRate` and `duration / flashRate` are
not zero and the clock script holds at least `flashCount` readings in the on half of a
period, `drive` returns after exactly `flashCount` on/off cycles (none when
`flashCount <= 0`). Each cycle is an on phase, a delay of `(duration / flashRate) / 2` ms
during which the outputs of the active colour are high (red for `'r'`, green for `'g'`, blue
for `'b'`, red and green for `'a'`; in the first on phase the outputs that were high before
the call stay high as well), followed by an off phase, a delay of the same length during
which all three outputs are low. After at least one cycle `flashCount` is 0 and the three
outputs are off, after none `flashCount` and the outputs are as before. When the flag is not
set `drive` performs no cycle and no delay and returns with the outputs off except the one
named by the colour, if the colour is `'r'`, `'g'` or `'b'`. -/
theorem C22_render (led : StatusLED) (w : World) (t : Nat) (clk : List Nat)
    (hclk : w.clock = t :: clk) :
    (led.flash = true → led.flashRate ≠ 0 → Int.tdiv led.duration led.flashRate ≠ 0 →
        led.flashCount.toNat ≤ onReadings (Int.tdiv led.duration led.flashRate) t clk →
        ∃ w1, StatusLED.drive led w =
            .ok ({ led with flashCount := min led.flashCount 0 }, w1) ∧
          w1.delays = w.delays ++ List.replicate (2 * led.flashCount.toNat)
            (toUInt32 (Int.tdiv (Int.tdiv led.duration led.flashRate) 2)) ∧
          w1.held = w.held ++
            (if 0 < led.flashCount then
              [(w.red || decide (led.activeLED = chr_a ∨ led.activeLED = chr_r),
                w.green || decide (led.activeLED = chr_a ∨ led.activeLED = chr_g),
                w.blue || decide (led.activeLED = chr_b)), (false, false, false)] ++
              (List.replicate (led.flashCount.toNat - 1)
                [(decide (led.activeLED = chr_a ∨ led.activeLED = chr_r),
                  decide (led.activeLED = chr_a ∨ led.activeLED = chr_g),
                  decide (led.activeLED = chr_b)), (false, false, false)]).flatten
            else []) ∧
          (0 < led.flashCount → w1.red = false ∧ w1.green = false ∧ w1.blue = false) ∧
          (led.flashCount ≤ 0 → w1 = { w with clock := clk })) ∧
      (led.flash = false →
        ∃ w1, StatusLED.drive led w = .ok (led, w1) ∧ w1.delays = w.delays ∧
          w1.held = w.held ∧
          w1.red = decide (led.activeLED = chr_r) ∧
          w1.green = decide (led.activeLED = chr_g) ∧
          w1.blue = decide (led.activeLED = chr_b)) := by
  constructor
  · intro hf hr hp hon
    by_cases h0 : led.flashCount ≤ 0
    · have hmin : min led.flashCount 0 = led.flashCount := by omega
      have hn : led.flashCount.toNat = 0 := by omega
      have hnp : ¬ 0 < led.flashCount := by omega
      refine ⟨{ w with clock := clk }, ?_, by simp [hn], by simp [hnp],
        fun h => absurd h (by omega), fun _ => rfl⟩
      rw [drive_spent led w t clk hclk hf hr h0, hmin]
    · obtain ⟨w1, hrun, hd, hh, hoff, _⟩ := flashLoop_cycles (toInt32 t)
        (Int.tdiv (Int.tdiv led.duration led.flashRate) 2) clk led w hr hp hon
      refine ⟨w1, ?_, hd, hh, hoff, fun h => absurd h h0⟩
      unfold StatusLED.drive
      rw [hclk]
      simp only []
      rw [if_pos hf, if_neg hr]
      exact hrun
  · intro hf
    obtain ⟨h1, h2, h3, h4, h5⟩ := steadyOn_outputs led.activeLED { w with clock := clk }
    exact ⟨_, drive_steady led w t clk hclk hf, h4, h5, h1, h2, h3⟩

/-- Witness of C22: the pattern of `UDP_BROADCAST_SENT` (blue, two flashes of 50 ms on, 50 ms
off) started at 5602 with the green output on and readings at 5602 and 5702: blue and green
are high in the first on phase, blue alone in the second, none in the off phases. And the
red pattern of three flashes from all outputs off, and the steady green pattern. -/
theorem C22_render_witness :
    (StatusLED.drive ⟨chr_b, true, 100, 1, 2, UDP_BROADCAST_SENT⟩
        (sampleWorld [5602, 5602, 5702] [])).toOption.map
          (fun r => (r.1.flashCount, r.2.red, r.2.green, r.2.blue, r.2.delays, r.2.held)) =
        some (0, false, false, false, [50, 50, 50, 50],
          [(false, true, true), (false, false, false), (false, false, true),
           (false, false, false)]) ∧
      (StatusLED.drive ⟨chr_r, true, 1000, 1, 3, WIFI_FAILED⟩
        { sampleWorld [0, 0, 1000, 2000] [] with green := false }).toOption.map
          (fun r => (r.1.flashCount, r.2.delays, r.2.held)) =
        some (0, [500, 500, 500, 500, 500, 500],
          [(true, false, false), (false, false, false), (true, false, false),
           (false, false, false), (true, false, false), (false, false, false)]) ∧
      (StatusLED.drive sampleLED (sampleWorld [5602] [])).toOption.map
          (fun r => (r.2.red, r.2.green, r.2.blue, r.2.delays, r.2.held)) =
        some (false, true, false, [], ([] : List (Bool × Bool × Bool))) :=
  ⟨match (C22_render ⟨chr_b, true, 100, 1, 2, UDP_BROADCAST_SENT⟩
      (sampleWorld [5602, 5602, 5702] []) 5602 [5602, 5702] rfl).1 rfl (by decide)
      (by decide) (by decide) with
    | ⟨_, h, hd, hh, hoff, _⟩ => by
      rw [h]
      simp only [Except.toOption, Option.map, hd, hh, (hoff (by decide)).1,
        (hoff (by decide)).2.1, (hoff (by decide)).2.2]
      rfl,
   match (C22_render ⟨chr_r, true, 1000, 1, 3, WIFI_FAILED⟩
      { sampleWorld [0, 0, 1000, 2000] [] with green := false } 0 [0, 1000, 2000] rfl).1 rfl
      (by decide) (by decide) (by decide) with
    | ⟨_, h, hd, hh, _, _⟩ => by
      rw [h]
      simp only [Except.toOption, Option.map, hd, hh]
      rfl,
   match (C22_render sampleLED (sampleWorld [5602] []) 5602 [] rfl).2 rfl with
    | ⟨_, h, hd, hh, hr, hg, hb⟩ => by
      rw [h]
      simp only [Except.toOption, Option.map, hd, hh, hr, hg, hb]
      rfl⟩

/-- C23: for every annunciator state and every world, calling `drive` twice in succession is
calling it once and then taking one more clock reading: when the first call returns, the
second returns with the same annunciator state, the same outputs and the same log of delays
(so no further on/off cycle), provided the clock script has a reading left for it; when the
first call does not return, neither does the pair. -/
theorem C23_render_idempotent (led : StatusLED) (w : World) :
    (match StatusLED.drive led w with
      | .error e => (.error e : Except Fault (StatusLED × World))
      | .ok r => StatusLED.drive r.1 r.2) =
    (match StatusLED.drive led w with
      | .error e => .error e
      | .ok r =>
        match r.2.clock with
        | [] => .error .clockExhausted
        | _ :: clk => .ok (r.1, { r.2 with clock := clk })) := by
  cases h : StatusLED.drive led w with
  | error e => rfl
  | ok r =>
    obtain ⟨led1, w1⟩ := r
    simp only []
    cases hc : w1.clock with
    | nil =>
      unfold StatusLED.drive
      rw [hc]
    | cons t clk =>
      exact drive_again led w led1 w1 h t clk hc

/-! ## Claims on the recording text -/

/-- C29: for every array of `n >= 0` pulse values below 65536 (with `n` below 65536 and the
text within the 3072-byte buffer of `read`), `makeText` produces
`"raw_array:[v1,v2,...,vn]"` and `makeArrayFromText` applied to that text returns `n` and
yields the same `n` values in the same order. -/
theorem C29_text_roundtrip (raw_array : List Nat) (hval : ∀ v ∈ raw_array, v < 65536)
    (hlen : raw_array.length < 65536)
    (_hfit : (IRController.makeText raw_array).length < 3072) :
    IRController.makeText raw_array = rawArrayOpen ++ joinDecimal raw_array ++ [93] ∧
      IRController.makeArrayFromText (IRController.makeText raw_array) =
        some (raw_array.length, raw_array) := by
  have htext : IRController.makeText raw_array =
      rawArrayOpen ++ (joinDecimal raw_array ++ [93]) := by
    unfold IRController.makeText
    rw [makeTextLoop_eq, List.append_assoc]
  have hj93 : ∀ c ∈ joinDecimal raw_array, c ≠ 93 := fun c hc => by
    rcases joinDecimal_chars raw_array c hc with h | h <;> omega
  have hopen : ∀ c ∈ rawArrayOpen, c ≠ 0 := by decide
  have hnul : NulFree (IRController.makeText raw_array) := by
    rw [htext]
    intro c hc
    rcases List.mem_append.1 hc with h | h
    · exact hopen c h
    · rcases List.mem_append.1 h with h | h
      · rcases joinDecimal_chars raw_array c h with h1 | h1 <;> omega
      · simp only [List.mem_singleton] at h
        omega
  refine ⟨by rw [htext, List.append_assoc], ?_⟩
  unfold IRController.makeArrayFromText
  rw [cstr_of_nulFree _ hnul, htext, strstr_begins]
  simp only [Nat.zero_add]
  rw [List.drop_left' rfl, strstr_bracket _ [] hj93]
  simp only
  rw [List.take_left' rfl, strtokAll_joinDecimal, List.length_map, Nat.mod_eq_of_lt hlen,
    List.map_map]
  have hid : raw_array.map ((fun element => toUInt16 (atoi element)) ∘
      (fun v => decimal (v % 65536))) = raw_array := by
    conv_rhs => rw [← List.map_id raw_array]
    apply List.map_congr_left
    intro v hv
    have hv1 := hval v hv
    simp only [Function.comp, atoi_decimal, toUInt16, id]
    rw [Nat.mod_eq_of_lt hv1]
    omega
  rw [hid]

/-- Witness of C29: the four pulse values 9000, 4500, 0 and 65535, whose text is
`"raw_array:[9000,4500,0,65535]"`. -/
theorem C29_text_roundtrip_witness :
    IRController.makeArrayFromText (IRController.makeText [9000, 4500, 0, 65535]) =
      some (4, [9000, 4500, 0, 65535]) :=
  (C29_text_roundtrip [9000, 4500, 0, 65535] (by decide) (by decide) (by decide)).2

end SensorNode
